import Mathlib

/-!
# Group Groove: collaborative queue consensus engine

A shallow embedding of the room, queue, vote and skip handlers of
`src/game-world/ready/group-groove/backend/worker.js`.

Modelling conventions.

* The D1 database is a record of tables (`Store`), each table a list of rows in
  insertion order.  Column names are the SQL column names of `SCHEMA`; columns that
  no handler of the engine reads back (album, artwork, settings, ...) are left out.
* Every handler is a pure function from the store before the call to the store
  after it and the HTTP response.  The statements of a handler run one after the
  other; there is no transaction in the source, and none is modelled.
* `authenticate` is run by every handler first.  The handlers below take its
  successful result (the `users` row of the caller: id and tier) as the argument
  `user`; the `users` table itself is not part of the store, and the joins with it,
  which only add display columns, are left out.
* `new Date()` is the argument `now`, in milliseconds since the epoch.
  `toISOString()` values (`played_at`) are represented by `now` itself,
  `toISOString().split('T')[0]` (the UTC calendar date) by the day number
  `now / 86400000`, and SQLite's `CURRENT_TIMESTAMP` (UTC, one-second resolution) by
  `now / 1000`.  The text comparison SQL applies to these columns agrees with the
  numeric order of the representation.
* `generateId()` is the argument `id`; it is taken to be fresh for the table it is
  inserted into, so the PRIMARY KEY constraint of an `id` column never fires.
  Foreign keys are not modelled.
* TEXT ids are `String`; SQL INTEGER is `Int` where the source can store any sign
  (`weight`) and `Nat` for counters.
* A request body is the record of the keys its handler destructures, each of the type
  the client sends.  A key the handler tests is an `Option` (`none`: missing or `null`);
  a key of `handleAddToQueue` that goes to `bind` untested is a `BodyField`, because
  `bind` throws on `undefined`: the exception ends the request with status 500
  (`internalServerError`) before the statement has run.
-/

namespace GroupGroove

/-! ## Configuration: TIER_LIMITS -/

/-- The fields of a `TIER_LIMITS` entry that the handlers read. -/
structure TierLimits where
  requestsPerDay : Int
  maxRoomSize : Int
  canCreateGroups : Bool
  canDirectMessage : Bool
  maxFriends : Int
  priorityVoting : Bool
  skipVoteWeight : Int
deriving DecidableEq, Repr

/-- The own properties of the object literal `TIER_LIMITS`. -/
def TIER_LIMITS : List (String × TierLimits) :=
  [ ("free",
      { requestsPerDay := 5, maxRoomSize := 8, canCreateGroups := false,
        canDirectMessage := true, maxFriends := 20, priorityVoting := false,
        skipVoteWeight := 1 }),
    ("premium",
      { requestsPerDay := 50, maxRoomSize := 50, canCreateGroups := true,
        canDirectMessage := true, maxFriends := 200, priorityVoting := true,
        skipVoteWeight := 2 }),
    ("dj_pro",
      { requestsPerDay := -1, maxRoomSize := 200, canCreateGroups := true,
        canDirectMessage := true, maxFriends := -1, priorityVoting := true,
        skipVoteWeight := 3 }),
    ("venue",
      { requestsPerDay := -1, maxRoomSize := 500, canCreateGroups := true,
        canDirectMessage := true, maxFriends := -1, priorityVoting := true,
        skipVoteWeight := 5 }) ]

/-- Property names that every object literal inherits from `Object.prototype`.
A bracket lookup `TIER_LIMITS[k]` with one of these keys yields the inherited member
(a function, or the prototype object itself), which is truthy and has none of the
limit fields. -/
def objectPrototypeKeys : List String :=
  [ "constructor", "__proto__", "hasOwnProperty", "isPrototypeOf",
    "propertyIsEnumerable", "toString", "toLocaleString", "valueOf",
    "__defineGetter__", "__defineSetter__", "__lookupGetter__", "__lookupSetter__" ]

/-- The expression `TIER_LIMITS[user.tier] || TIER_LIMITS.free`.
`some l` is an entry of the table; `none` stands for an inherited member of
`Object.prototype`, on which every limit field reads `undefined`. -/
def tierLimits (tier : String) : Option TierLimits :=
  match TIER_LIMITS.lookup tier with
  | some l => some l
  | none => if tier ∈ objectPrototypeKeys then none else TIER_LIMITS.lookup "free"

/-- The expression `limits.priorityVoting ? limits.skipVoteWeight : 1` of `handleVote`
(`undefined` is falsy). -/
def voteWeight (limits : Option TierLimits) : Int :=
  match limits with
  | some l => if l.priorityVoting then l.skipVoteWeight else 1
  | none => 1

/-! ## Tables -/

/-- Row of `users` as returned by `authenticate`. -/
structure User where
  id : String
  tier : String
deriving DecidableEq, Repr

/-- Row of `rooms`; `is_active` is the INTEGER flag 1/0. -/
structure Room where
  id : String
  code : String
  name : String
  host_id : String
  is_active : Bool
deriving DecidableEq, Repr

/-- Row of `room_members`, PRIMARY KEY (room_id, user_id). -/
structure RoomMember where
  room_id : String
  user_id : String
  joined_at : Nat
  is_dj : Bool
deriving DecidableEq, Repr

/-- Row of `queue_items`. -/
structure QueueItem where
  id : String
  room_id : String
  added_by : String
  title : String
  artist : String
  played_at : Option Nat
  created_at : Nat
deriving DecidableEq, Repr

/-- Row of `votes`, UNIQUE (queue_item_id, user_id). -/
structure Vote where
  id : String
  queue_item_id : String
  user_id : String
  vote_type : String
  weight : Int
deriving DecidableEq, Repr

/-- Row of `skip_votes`, PRIMARY KEY (room_id, user_id, queue_item_id). -/
structure SkipVote where
  room_id : String
  user_id : String
  queue_item_id : String
deriving DecidableEq, Repr

/-- Row of `usage_tracking`, PRIMARY KEY (user_id, date). -/
structure Usage where
  user_id : String
  date : Nat
  song_requests : Nat
  votes_cast : Nat
  rooms_created : Nat
deriving DecidableEq, Repr

/-- The database. -/
structure Store where
  rooms : List Room
  room_members : List RoomMember
  queue_items : List QueueItem
  votes : List Vote
  skip_votes : List SkipVote
  usage_tracking : List Usage
deriving DecidableEq, Repr

/-- The database after `/api/migrate` and before any other request. -/
def Store.empty : Store :=
  { rooms := [], room_members := [], queue_items := [], votes := [],
    skip_votes := [], usage_tracking := [] }

/-! ## Responses -/

/-- The `errorResponse` calls of the handlers, and `internalServerError` for a request
that ends with status 500 because a D1 call of its handler has thrown. -/
inductive ApiError where
  | unauthorized
  | roomNameRequired
  | roomCodeRequired
  | roomNotFound
  | roomFull (maxRoomSize : Int)
  | dailyLimitReached (requestsPerDay : Int)
  | titleAndArtistRequired
  | invalidVote
  | onlyHost
  | internalServerError
deriving DecidableEq, Repr

/-- HTTP status passed to `errorResponse`. -/
def ApiError.status : ApiError → Nat
  | .unauthorized => 401
  | .roomNameRequired => 400
  | .roomCodeRequired => 400
  | .roomNotFound => 404
  | .roomFull _ => 403
  | .dailyLimitReached _ => 403
  | .titleAndArtistRequired => 400
  | .invalidVote => 400
  | .onlyHost => 403
  | .internalServerError => 500

/-- Outcome of a handler: `jsonResponse(body)` or `errorResponse(...)`. -/
inductive Response (α : Type) where
  | ok (body : α)
  | error (e : ApiError)
deriving DecidableEq, Repr

/-- JS truthiness of an optional string field of a JSON body: a missing field and the
empty string are falsy. -/
def truthy (x : Option String) : Bool :=
  match x with
  | some v => v != ""
  | none => false

/-- The UTC calendar date of `now`: `new Date().toISOString().split('T')[0]`. -/
def isoDate (now : Nat) : Nat := now / 86400000

/-- SQLite `CURRENT_TIMESTAMP` at `now`: UTC with one-second resolution. -/
def currentTimestamp (now : Nat) : Nat := now / 1000

/-! ## Votes: handleVote -/

/-- Aggregate `COALESCE(SUM(CASE WHEN vote_type = t THEN weight ELSE 0 END), 0)` over
`votes WHERE queue_item_id = ?`. -/
def voteTotal (votes : List Vote) (queueItemId : String) (t : String) : Int :=
  ((votes.filter (fun v => v.queue_item_id == queueItemId)).map
    (fun v => if v.vote_type == t then v.weight else 0)).sum

/-- Statement `DELETE FROM votes WHERE queue_item_id = ? AND user_id = ?`. -/
def deleteVote (votes : List Vote) (queueItemId userId : String) : List Vote :=
  votes.filter (fun v => !(v.queue_item_id == queueItemId && v.user_id == userId))

/-- The first two statements of `handleVote`: remove the existing vote of the user on
the item, then insert the new one. -/
def recordVote (votes : List Vote) (id queueItemId userId voteType : String)
    (weight : Int) : List Vote :=
  deleteVote votes queueItemId userId ++
    [{ id := id, queue_item_id := queueItemId, user_id := userId,
       vote_type := voteType, weight := weight }]

/-- Statement `UPDATE queue_items SET played_at = ? WHERE id = ?`. -/
def markPlayed (items : List QueueItem) (queueItemId : String) (now : Nat) :
    List QueueItem :=
  items.map (fun q => if q.id == queueItemId then { q with played_at := some now } else q)

/-- Statement `DELETE FROM votes WHERE queue_item_id = ?`. -/
def clearVotes (votes : List Vote) (queueItemId : String) : List Vote :=
  votes.filter (fun v => !(v.queue_item_id == queueItemId))

/-- JSON body of a vote request. -/
structure VoteRequest where
  queueItemId : Option String
  voteType : Option String
deriving DecidableEq, Repr

/-- JSON body returned by `handleVote`. -/
structure VoteResponse where
  voteScore : Int
  upVotes : Int
  downVotes : Int
  skipped : Bool
deriving DecidableEq, Repr

/-- The auto-skip test of `handleVote`: `downVotes > upVotes && downVotes > 0`. -/
def autoSkip (upVotes downVotes : Int) : Bool :=
  decide (downVotes > upVotes) && decide (downVotes > 0)

/-- Handler `handleVote` (POST /api/rooms/:roomId/vote).  The path parameter `roomId`
is not used by the source. -/
def handleVote (s : Store) (user : User) (roomId : String) (req : VoteRequest)
    (id : String) (now : Nat) : Store × Response VoteResponse :=
  match req.queueItemId, req.voteType with
  | some queueItemId, some voteType =>
    if queueItemId == "" || !(voteType == "up" || voteType == "down") then
      (s, .error .invalidVote)
    else
      let weight := voteWeight (tierLimits user.tier)
      let votes1 := recordVote s.votes id queueItemId user.id voteType weight
      let upVotes := voteTotal votes1 queueItemId "up"
      let downVotes := voteTotal votes1 queueItemId "down"
      let score := upVotes - downVotes
      if autoSkip upVotes downVotes then
        ({ s with
            queue_items := markPlayed s.queue_items queueItemId now
            votes := clearVotes votes1 queueItemId },
          .ok { voteScore := score, upVotes := upVotes, downVotes := downVotes,
                skipped := true })
      else
        ({ s with votes := votes1 },
          .ok { voteScore := score, upVotes := upVotes, downVotes := downVotes,
                skipped := false })
  | _, _ => (s, .error .invalidVote)

/-! ## Skip votes: handleSkipVote -/

/-- The expression `Math.ceil((count || 1) * 0.5)`: a zero count is replaced by 1, and
for a positive integer `m` the ceiling of `m * 0.5` is `(m + 1) / 2`. -/
def skipThreshold (count : Nat) : Nat :=
  ((if count = 0 then 1 else count) + 1) / 2

/-- Query `SELECT COUNT(*) FROM room_members WHERE room_id = ?`. -/
def memberCount (s : Store) (roomId : String) : Nat :=
  (s.room_members.filter (fun m => m.room_id == roomId)).length

/-- Query `SELECT COUNT(*) FROM skip_votes WHERE room_id = ? AND queue_item_id = ?`. -/
def skipCount (skips : List SkipVote) (roomId queueItemId : String) : Nat :=
  (skips.filter (fun v => v.room_id == roomId && v.queue_item_id == queueItemId)).length

/-- Statement `INSERT OR IGNORE INTO skip_votes (room_id, user_id, queue_item_id)`. -/
def insertSkipVote (skips : List SkipVote) (roomId userId queueItemId : String) :
    List SkipVote :=
  if skips.any (fun v => v.room_id == roomId && v.user_id == userId &&
      v.queue_item_id == queueItemId) then skips
  else skips ++ [{ room_id := roomId, user_id := userId, queue_item_id := queueItemId }]

/-- JSON body returned by `handleSkipVote`. -/
structure SkipResponse where
  skipCount : Nat
  threshold : Nat
  skipped : Bool
deriving DecidableEq, Repr

/-- Handler `handleSkipVote` (POST /api/rooms/:roomId/skip) with body field
`queueItemId`. -/
def handleSkipVote (s : Store) (user : User) (roomId : String) (queueItemId : String)
    (now : Nat) : Store × Response SkipResponse :=
  let skips1 := insertSkipVote s.skip_votes roomId user.id queueItemId
  let count := skipCount skips1 roomId queueItemId
  let threshold := skipThreshold (memberCount s roomId)
  let shouldSkip := decide (count ≥ threshold)
  if shouldSkip then
    ({ s with
        queue_items := markPlayed s.queue_items queueItemId now
        skip_votes := skips1.filter
          (fun v => !(v.room_id == roomId && v.queue_item_id == queueItemId)) },
      .ok { skipCount := count, threshold := threshold, skipped := shouldSkip })
  else
    ({ s with skip_votes := skips1 },
      .ok { skipCount := count, threshold := threshold, skipped := shouldSkip })

/-! ## Queue: handleAddToQueue -/

/-- A field of a parsed JSON body that a handler passes to `bind` without testing it:
`undefined` when the body has no such key, otherwise JSON `null` or a value. -/
inductive BodyField (α : Type) where
  | undefined
  | null
  | value (v : α)
deriving DecidableEq, Repr

/-- Whether `bind` of a D1 prepared statement takes the field as an argument: `null`
is bound as SQL NULL, a string or a number as itself, and `undefined` makes `bind`
throw `D1_TYPE_ERROR` before the statement runs. -/
def BodyField.bindable {α : Type} : BodyField α → Bool
  | .undefined => false
  | .null => true
  | .value _ => true

/-- JSON body of an add-to-queue request: the seven keys that `handleAddToQueue`
destructures.  `title` and `artist` are tested for truthiness first (`none` is a
missing or `null` value); the other five reach `bind` as they are, and a key that the
literal of a body does not mention is absent from the body. -/
structure AddRequest where
  spotifyId : BodyField String := .undefined
  title : Option String
  artist : Option String
  album : BodyField String := .undefined
  artworkUrl : BodyField String := .undefined
  durationMs : BodyField Nat := .undefined
  previewUrl : BodyField String := .undefined
deriving DecidableEq, Repr

/-- The call `.bind(id, roomId, user.id, spotifyId, title, artist, album, artworkUrl,
previewUrl, durationMs)` of the INSERT of `handleAddToQueue` goes through: none of the
body fields it passes on is `undefined` (`id`, `roomId` and `user.id` are strings, and
`title` and `artist` have been found truthy before). -/
def bindAccepts (req : AddRequest) : Bool :=
  req.spotifyId.bindable && req.album.bindable && req.artworkUrl.bindable &&
    req.previewUrl.bindable && req.durationMs.bindable

/-- Query `SELECT song_requests FROM usage_tracking WHERE user_id = ? AND date = ?`. -/
def usageRow (s : Store) (userId : String) (date : Nat) : Option Usage :=
  s.usage_tracking.find? (fun u => u.user_id == userId && u.date == date)

/-- The daily-limit test of `handleAddToQueue`: `some n` when the request is refused
with the message naming the limit `n`.  With `limits` an inherited prototype member,
`requestsPerDay` is `undefined`, which differs from -1 and compares false with every
number. -/
def dailyLimitReached (limits : Option TierLimits) (usage : Option Usage) : Option Int :=
  match limits with
  | some l =>
    if l.requestsPerDay != -1 then
      match usage with
      | some u =>
        if (u.song_requests : Int) ≥ l.requestsPerDay then some l.requestsPerDay else none
      | none => none
    else none
  | none => none

/-- Upsert `INSERT INTO usage_tracking (user_id, date, song_requests) VALUES (?, ?, 1)
ON CONFLICT(user_id, date) DO UPDATE SET song_requests = song_requests + 1`. -/
def trackSongRequest (usage : List Usage) (userId : String) (date : Nat) : List Usage :=
  if usage.any (fun u => u.user_id == userId && u.date == date) then
    usage.map (fun u => if u.user_id == userId && u.date == date
      then { u with song_requests := u.song_requests + 1 } else u)
  else usage ++ [{ user_id := userId, date := date, song_requests := 1,
                   votes_cast := 0, rooms_created := 0 }]

/-- Handler `handleAddToQueue` (POST /api/rooms/:roomId/queue).  The steps run in the
order of the source: daily-limit test, body test, room lookup, INSERT, usage upsert.
When `bind` of the INSERT throws (a body field it is given is `undefined`), the handler
is left by the exception before either statement has run: nothing is written and the
request ends with status 500. -/
def handleAddToQueue (s : Store) (user : User) (roomId : String) (req : AddRequest)
    (id : String) (now : Nat) : Store × Response QueueItem :=
  let limits := tierLimits user.tier
  let today := isoDate now
  match dailyLimitReached limits (usageRow s user.id today) with
  | some n => (s, .error (.dailyLimitReached n))
  | none =>
    if !truthy req.title || !truthy req.artist then
      (s, .error .titleAndArtistRequired)
    else
      match s.rooms.find? (fun r => r.id == roomId && r.is_active) with
      | none => (s, .error .roomNotFound)
      | some _ =>
        if !bindAccepts req then (s, .error .internalServerError)
        else
          let item : QueueItem :=
            { id := id, room_id := roomId, added_by := user.id,
              title := req.title.getD "", artist := req.artist.getD "",
              played_at := none, created_at := currentTimestamp now }
          ({ s with
              queue_items := s.queue_items ++ [item]
              usage_tracking := trackSongRequest s.usage_tracking user.id today },
            .ok item)

/-! ## Ordering: the queue query of handleGetRoom and handlePlayNext -/

/-- A row of the queue query: the queue item with its aggregate `vote_score`. -/
structure QueueRow where
  item : QueueItem
  vote_score : Int
deriving DecidableEq, Repr

/-- The `vote_score` column: weighted up-total minus weighted down-total of the votes
joined to the item. -/
def voteScore (votes : List Vote) (queueItemId : String) : Int :=
  voteTotal votes queueItemId "up" - voteTotal votes queueItemId "down"

/-- The clause `ORDER BY vote_score DESC, qi.created_at ASC` as a relation: row `a` may
stand before row `b`. -/
def orderKey (a b : QueueRow) : Prop :=
  a.vote_score > b.vote_score ∨
    (a.vote_score = b.vote_score ∧ a.item.created_at ≤ b.item.created_at)

instance : DecidableRel orderKey := fun a b =>
  inferInstanceAs (Decidable (a.vote_score > b.vote_score ∨
    (a.vote_score = b.vote_score ∧ a.item.created_at ≤ b.item.created_at)))

/-- The rows `WHERE qi.room_id = ? AND qi.played_at IS NULL GROUP BY qi.id` before
sorting (one group per item, `id` being the primary key). -/
def queueRows (s : Store) (roomId : String) : List QueueRow :=
  (s.queue_items.filter (fun q => q.room_id == roomId && q.played_at.isNone)).map
    (fun q => { item := q, vote_score := voteScore s.votes q.id })

/-- The queue query.  SQL leaves the relative order of rows with equal sort keys open;
the model sorts stably, keeping such rows in table order. -/
def orderedQueue (s : Store) (roomId : String) : List QueueRow :=
  (queueRows s roomId).insertionSort orderKey

/-! ## Room snapshot: handleGetRoom -/

/-- JS `toUpperCase` on the ASCII strings used for ids and join codes. -/
def toUpperCase (x : String) : String := String.mk (x.data.map Char.toUpper)

/-- JS `trim`: strips leading and trailing white space. -/
def trim (x : String) : String :=
  String.mk ((x.data.dropWhile Char.isWhitespace).reverse.dropWhile Char.isWhitespace).reverse

/-- A row of the `queue` array of the snapshot: the queue row with the caller's own
vote, `(SELECT vote_type FROM votes WHERE queue_item_id = qi.id AND user_id = ?)`. -/
structure QueueEntry where
  row : QueueRow
  user_vote : Option String
deriving DecidableEq, Repr

/-- JSON body returned by `handleGetRoom` (chat messages left out). -/
structure RoomSnapshot where
  room : Room
  members : List RoomMember
  queue : List QueueEntry
  nowPlaying : Option QueueItem
  skipVoteCount : Nat
  skipThreshold : Nat
  isHost : Bool
deriving DecidableEq, Repr

/-- The now-playing query: `WHERE qi.room_id = ? AND qi.played_at IS NOT NULL
ORDER BY qi.played_at DESC LIMIT 1`. -/
def nowPlaying (s : Store) (roomId : String) : Option QueueItem :=
  ((s.queue_items.filter (fun q => q.room_id == roomId && q.played_at.isSome)).insertionSort
    (fun a b => a.played_at.getD 0 ≥ b.played_at.getD 0)).head?

/-- Handler `handleGetRoom` (GET /api/rooms/:roomId); reads only. -/
def handleGetRoom (s : Store) (user : User) (roomId : String) : Response RoomSnapshot :=
  match s.rooms.find? (fun r => r.id == roomId || r.code == toUpperCase roomId) with
  | none => .error .roomNotFound
  | some room =>
    let members := (s.room_members.filter (fun m => m.room_id == room.id)).insertionSort
      (fun a b => a.joined_at ≤ b.joined_at)
    let queue := (orderedQueue s room.id).map (fun r =>
      { row := r
        user_vote := (s.votes.find? (fun v => v.queue_item_id == r.item.id &&
          v.user_id == user.id)).map (fun v => v.vote_type) })
    let playing := nowPlaying s room.id
    let skipVoteCount := match playing with
      | some q => skipCount s.skip_votes room.id q.id
      | none => 0
    .ok { room := room, members := members, queue := queue, nowPlaying := playing,
          skipVoteCount := skipVoteCount, skipThreshold := skipThreshold members.length,
          isHost := room.host_id == user.id }

/-! ## Dispatch: handlePlayNext -/

/-- Handler `handlePlayNext` (POST /api/rooms/:roomId/play-next).  The body of the
response is the row that now plays, `none` when the queue is empty. -/
def handlePlayNext (s : Store) (user : User) (roomId : String) (now : Nat) :
    Store × Response (Option QueueRow) :=
  let room := s.rooms.find? (fun r => r.id == roomId)
  if room.map (fun r => r.host_id) != some user.id then
    (s, .error .onlyHost)
  else
    match (orderedQueue s roomId).head? with
    | none => (s, .ok none)
    | some next =>
      ({ s with
          queue_items := markPlayed s.queue_items next.item.id now
          skip_votes := s.skip_votes.filter (fun v => !(v.room_id == roomId)) },
        .ok (some next))

/-! ## Rooms: handleCreateRoom, handleJoinRoom, handleLeaveRoom -/

/-- Upsert `INSERT INTO usage_tracking (user_id, date, rooms_created) VALUES (?, ?, 1)
ON CONFLICT(user_id, date) DO UPDATE SET rooms_created = rooms_created + 1`. -/
def trackRoomCreated (usage : List Usage) (userId : String) (date : Nat) : List Usage :=
  if usage.any (fun u => u.user_id == userId && u.date == date) then
    usage.map (fun u => if u.user_id == userId && u.date == date
      then { u with rooms_created := u.rooms_created + 1 } else u)
  else usage ++ [{ user_id := userId, date := date, song_requests := 0,
                   votes_cast := 0, rooms_created := 1 }]

/-- Handler `handleCreateRoom` (POST /api/rooms).  `code` is the value returned by
`generateRoomCode()`.  The column `rooms.code` is UNIQUE: when the code is already
taken by a row of `rooms` the INSERT throws, nothing is written and the request ends
with status 500. -/
def handleCreateRoom (s : Store) (user : User) (name : Option String) (id code : String)
    (now : Nat) : Store × Response Room :=
  if !truthy (name.map trim) then (s, .error .roomNameRequired)
  else if s.rooms.any (fun r => r.code == code) then (s, .error .internalServerError)
  else
    let room : Room :=
      { id := id, code := code, name := trim (name.getD ""), host_id := user.id,
        is_active := true }
    ({ s with
        rooms := s.rooms ++ [room]
        room_members := s.room_members ++
          [{ room_id := id, user_id := user.id, joined_at := currentTimestamp now,
             is_dj := true }]
        usage_tracking := trackRoomCreated s.usage_tracking user.id (isoDate now) },
      .ok room)

/-- The room-size test of `handleJoinRoom`: `memberCount.count >= limits.maxRoomSize`
(false when `maxRoomSize` is `undefined`). -/
def roomFull (limits : Option TierLimits) (count : Nat) : Option Int :=
  match limits with
  | some l => if (count : Int) ≥ l.maxRoomSize then some l.maxRoomSize else none
  | none => none

/-- Handler `handleJoinRoom` (POST /api/rooms/join). -/
def handleJoinRoom (s : Store) (user : User) (code : Option String) (now : Nat) :
    Store × Response Room :=
  if !truthy (code.map trim) then (s, .error .roomCodeRequired)
  else
    match s.rooms.find? (fun r => r.code == trim (toUpperCase (code.getD "")) &&
        r.is_active) with
    | none => (s, .error .roomNotFound)
    | some room =>
      match roomFull (tierLimits user.tier) (memberCount s room.id) with
      | some n => (s, .error (.roomFull n))
      | none =>
        if s.room_members.any (fun m => m.room_id == room.id && m.user_id == user.id) then
          (s, .ok room)
        else
          ({ s with room_members := s.room_members ++
              [{ room_id := room.id, user_id := user.id,
                 joined_at := currentTimestamp now, is_dj := false }] },
            .ok room)

/-- Handler `handleLeaveRoom` (DELETE /api/rooms/:roomId). -/
def handleLeaveRoom (s : Store) (user : User) (roomId : String) : Store × Response Unit :=
  let members := s.room_members.filter
    (fun m => !(m.room_id == roomId && m.user_id == user.id))
  let room := s.rooms.find? (fun r => r.id == roomId)
  if room.map (fun r => r.host_id) == some user.id then
    ({ s with
        room_members := members
        rooms := s.rooms.map (fun r => if r.id == roomId then { r with is_active := false }
          else r) },
      .ok ())
  else ({ s with room_members := members }, .ok ())

/-! ## The engine as a transition system -/

/-- A request to the engine, with the values drawn by `generateId` and
`generateRoomCode` while it is served. -/
inductive Request where
  | createRoom (name : Option String) (id code : String)
  | joinRoom (code : Option String)
  | getRoom (roomId : String)
  | leaveRoom (roomId : String)
  | addToQueue (roomId : String) (req : AddRequest) (id : String)
  | vote (roomId : String) (req : VoteRequest) (id : String)
  | skipVote (roomId : String) (queueItemId : String)
  | playNext (roomId : String)
deriving DecidableEq, Repr

/-- The store after the router has served `req` for the authenticated `user` at time
`now`. -/
def step (s : Store) (user : User) (now : Nat) (req : Request) : Store :=
  match req with
  | .createRoom name id code => (handleCreateRoom s user name id code now).1
  | .joinRoom code => (handleJoinRoom s user code now).1
  | .getRoom _ => s
  | .leaveRoom roomId => (handleLeaveRoom s user roomId).1
  | .addToQueue roomId r id => (handleAddToQueue s user roomId r id now).1
  | .vote roomId r id => (handleVote s user roomId r id now).1
  | .skipVote roomId queueItemId => (handleSkipVote s user roomId queueItemId now).1
  | .playNext roomId => (handlePlayNext s user roomId now).1

/-- The ids drawn by `generateId` are new: a generated id is not the key of a row
already in the table it is inserted into. -/
def freshIds (s : Store) (req : Request) : Prop :=
  match req with
  | .createRoom _ id _ => ∀ r ∈ s.rooms, r.id ≠ id
  | .addToQueue _ _ id => ∀ q ∈ s.queue_items, q.id ≠ id
  | .vote _ _ id => ∀ v ∈ s.votes, v.id ≠ id
  | _ => True

/-- The stores the engine can be in: the empty database, and every store obtained from
a reachable one by serving a request. -/
inductive Reachable : Store → Prop where
  | init : Reachable Store.empty
  | next (s : Store) (user : User) (now : Nat) (req : Request) :
      Reachable s → freshIds s req → Reachable (step s user now req)

/-! ## Auxiliary definitions and concrete stores used in the statements -/

/-- The vote rows of one user on one item. -/
def votesOf (votes : List Vote) (queueItemId userId : String) : List Vote :=
  votes.filter (fun v => v.queue_item_id == queueItemId && v.user_id == userId)

/-- The row `handleVote` inserts. -/
def newVote (user : User) (queueItemId voteType id : String) : Vote :=
  { id := id, queue_item_id := queueItemId, user_id := user.id, vote_type := voteType,
    weight := voteWeight (tierLimits user.tier) }

/-- The votes table of `s` after the delete and insert statements of `handleVote`. -/
def recorded (s : Store) (user : User) (queueItemId voteType id : String) : List Vote :=
  recordVote s.votes id queueItemId user.id voteType (voteWeight (tierLimits user.tier))

/-- A free-tier user, host of the room `r1`. -/
def alice : User := { id := "u1", tier := "free" }

/-- A premium user. -/
def bob : User := { id := "u2", tier := "premium" }

/-- A second free-tier user. -/
def carol : User := { id := "u3", tier := "free" }

/-- An active room hosted by `alice`. -/
def room1 : Room :=
  { id := "r1", code := "ABC234", name := "Party", host_id := "u1", is_active := true }

/-- A queued track of `room1`. -/
def track1 : QueueItem :=
  { id := "q1", room_id := "r1", added_by := "u1", title := "A", artist := "X",
    played_at := none, created_at := 10 }

/-- The room `r1` with three members and the single queued track `q1`, no votes. -/
def store1 : Store :=
  { rooms := [room1]
    room_members :=
      [ { room_id := "r1", user_id := "u1", joined_at := 5, is_dj := true },
        { room_id := "r1", user_id := "u2", joined_at := 6, is_dj := false },
        { room_id := "r1", user_id := "u3", joined_at := 7, is_dj := false } ]
    queue_items := [track1]
    votes := []
    skip_votes := []
    usage_tracking :=
      [ { user_id := "u1", date := 0, song_requests := 1, votes_cast := 0,
          rooms_created := 1 } ] }

/-- The store `store1` after `carol` has voted `q1` up (weight 1). -/
def store2 : Store :=
  { store1 with
    votes := [ { id := "v0", queue_item_id := "q1", user_id := "u3", vote_type := "up",
                 weight := 1 } ] }

/-- The store `store1` after track `q1` has been played at time 15000. -/
def store3 : Store :=
  { store1 with queue_items := [{ track1 with played_at := some 15000 }] }

/-- The store `store1` after carol has voted `q1` down, which auto-skips it. -/
def store4 : Store :=
  (handleVote store1 carol "r1" { queueItemId := some "q1", voteType := some "down" }
    "v1" 20000).1

/-- A well-formed vote request as it reaches the router: the voter, the path parameter,
item and direction of the body, and the id and clock reading of the call. -/
structure Ballot where
  user : User
  roomId : String
  queueItemId : String
  voteType : String
  id : String
  now : Nat
deriving DecidableEq, Repr

/-- What a ballot says, apart from the id and time of the call: voter, item, direction. -/
def Ballot.content (b : Ballot) : User × String × String :=
  (b.user, b.queueItemId, b.voteType)

/-- Serving one ballot with `handleVote`. -/
def castBallot (s : Store) (b : Ballot) : Store × Response VoteResponse :=
  handleVote s b.user b.roomId
    { queueItemId := some b.queueItemId, voteType := some b.voteType } b.id b.now

/-- The store after serving the ballots one after the other. -/
def castVotes : Store → List Ballot → Store
  | s, [] => s
  | s, b :: bs => castVotes (castBallot s b).1 bs

/-- No call of the run answers `skipped: true`. -/
def noneSkipped : Store → List Ballot → Bool
  | _, [] => true
  | s, b :: bs =>
    (match (castBallot s b).2 with
      | .ok r => !r.skipped
      | .error _ => true) && noneSkipped (castBallot s b).1 bs

/-- Some ballot content is by the voter and on the item of the vote row `v`. -/
def touchedBy (cs : List (User × String × String)) (v : Vote) : Bool :=
  cs.any (fun c => v.queue_item_id == c.2.1 && v.user_id == c.1.id)

/-- Weight that the ballot content `c` adds to the total of direction `t` of item `qid`. -/
def contribution (qid t : String) (c : User × String × String) : Int :=
  if c.2.1 == qid && c.2.2 == t then voteWeight (tierLimits c.1.tier) else 0

/-- The sort key puts row `a` strictly before row `b`: higher score, or equal score and
earlier `created_at`. -/
def strictKey (a b : QueueRow) : Prop :=
  a.vote_score > b.vote_score ∨
    (a.vote_score = b.vote_score ∧ a.item.created_at < b.item.created_at)

instance : DecidableRel strictKey := fun a b =>
  inferInstanceAs (Decidable (a.vote_score > b.vote_score ∨
    (a.vote_score = b.vote_score ∧ a.item.created_at < b.item.created_at)))

instance : IsTotal QueueRow orderKey :=
  ⟨fun a b => by
    unfold orderKey
    omega⟩

instance : IsTrans QueueRow orderKey :=
  ⟨fun a b c hab hbc => by
    unfold orderKey at *
    omega⟩

instance : IsAntisymm QueueRow strictKey :=
  ⟨fun a b hab hba => by
    unfold strictKey at hab hba
    omega⟩

/-- The two rows have the same sort key. -/
def sameKey (a b : QueueRow) : Prop :=
  a.vote_score = b.vote_score ∧ a.item.created_at = b.item.created_at

instance : DecidableRel sameKey := fun a b =>
  inferInstanceAs (Decidable (a.vote_score = b.vote_score ∧
    a.item.created_at = b.item.created_at))

/-- A body with all seven keys of an add-to-queue request: the track fields as
`handleSpotifySearch` lists them, artwork and preview being `null`. -/
def fullBody (title artist : String) : AddRequest :=
  { spotifyId := .value "sp", title := some title, artist := some artist,
    album := .value "Album", artworkUrl := .null, durationMs := .value 180000,
    previewUrl := .null }

/-- A valid track: a body with non-empty title and artist that carries every key the
INSERT of `handleAddToQueue` binds. -/
def validTrack (req : AddRequest) : Bool :=
  truthy req.title && truthy req.artist && bindAccepts req

/-- The store after alice has created room `r1` (at 1.000 s) and alice and bob have each
queued a track in it within the same second (at 5.000 s and 5.400 s). -/
def store5 : Store :=
  step (step (step Store.empty
      alice 1000 (.createRoom (some "Party") "r1" "ABC234"))
      alice 5000 (.addToQueue "r1" (fullBody "A" "X") "q1"))
      bob 5400 (.addToQueue "r1" (fullBody "B" "Y") "q2")

/-- The store `store5` after carol has voted `q2` up. -/
def store6 : Store :=
  step store5 carol 9000 (.vote "r1" { queueItemId := some "q2", voteType := some "up" } "v1")

/-- The value of `song_requests` for the user on the day, 0 when there is no row. -/
def requestsToday (usage : List Usage) (userId : String) (date : Nat) : Nat :=
  match usage.find? (fun u => u.user_id == userId && u.date == date) with
  | some r => r.song_requests
  | none => 0

/-- One add-to-queue call: request body, generated id, clock reading. -/
structure AddCall where
  req : AddRequest
  id : String
  now : Nat
deriving DecidableEq, Repr

/-- Serving the add-to-queue calls of one user for one room, one after the other: the
final store and the responses in call order. -/
def enqueueRun (user : User) (roomId : String) :
    Store → List AddCall → Store × List (Response QueueItem)
  | s, [] => (s, [])
  | s, c :: cs =>
    ((enqueueRun user roomId (handleAddToQueue s user roomId c.req c.id c.now).1 cs).1,
      (handleAddToQueue s user roomId c.req c.id c.now).2 ::
        (enqueueRun user roomId (handleAddToQueue s user roomId c.req c.id c.now).1 cs).2)

/-- A dj_pro user. -/
def dana : User := { id := "u4", tier := "dj_pro" }

/-- The store `store1` in which dana has already made 1000 requests on day 0. -/
def store7 : Store :=
  { store1 with
    usage_tracking :=
      [ { user_id := "u4", date := 0, song_requests := 1000, votes_cast := 0,
          rooms_created := 0 } ] }

/-- Five complete add-to-queue calls on day 0. -/
def fiveCalls : List AddCall :=
  [ { req := fullBody "A" "X", id := "a1", now := 1000 },
    { req := fullBody "B" "X", id := "a2", now := 2000 },
    { req := fullBody "C" "X", id := "a3", now := 3000 },
    { req := fullBody "D" "X", id := "a4", now := 4000 },
    { req := fullBody "E" "X", id := "a5", now := 5000 } ]

/-- The threshold as the specification words it, `ceil(memberCount * 0.5)`, on natural
numbers: half the count, rounded up. -/
def specSkipThreshold (n : Nat) : Nat := (n + 1) / 2

/-- The store `store5` after alice, its host and only member, has left room `r1`: the
room is closed and has no member; the tracks `q1` and `q2` are still queued. -/
def store8 : Store := step store5 alice 6000 (.leaveRoom "r1")

/-- The store `store3` (track `q1` of room `r1` is playing) with a fourth member, dana. -/
def store9 : Store :=
  { store3 with
    room_members := store3.room_members ++
      [{ room_id := "r1", user_id := "u4", joined_at := 8, is_dj := false }] }

/-- The store `store9` after alice has voted to skip the playing track `q1` (1 of 2). -/
def store10 : Store := (handleSkipVote store9 alice "r1" "q1" 30000).1

/-- The store `store5` after bob has created a second room `r2`, of which he is the only
member; `q1` and `q2` are queued in room `r1` and nothing has been played. -/
def store11 : Store := step store5 bob 6500 (.createRoom (some "Other") "r2" "XYZ789")

/-- The store `store2` (track `q1` of room `r1` has score 1) with a second queued track
`q3` without votes, and a skip vote left over in room `r1`. -/
def store12 : Store :=
  { store2 with
    queue_items := store2.queue_items ++
      [{ id := "q3", room_id := "r1", added_by := "u2", title := "C", artist := "Z",
         played_at := none, created_at := 12 }]
    skip_votes := [{ room_id := "r1", user_id := "u2", queue_item_id := "q0" }] }

/-- The store `store1` after alice, the host, has left room `r1`: the room is closed,
bob and carol are still members, and `q1` is still queued. -/
def store13 : Store := (handleLeaveRoom store1 alice "r1").1

/-- The store `store1` with room `r1` filled to the free-tier capacity of 8 members. -/
def store14 : Store :=
  { store1 with
    room_members := store1.room_members ++
      [ { room_id := "r1", user_id := "u5", joined_at := 8, is_dj := false },
        { room_id := "r1", user_id := "u6", joined_at := 8, is_dj := false },
        { room_id := "r1", user_id := "u7", joined_at := 8, is_dj := false },
        { room_id := "r1", user_id := "u8", joined_at := 8, is_dj := false },
        { room_id := "r1", user_id := "u9", joined_at := 8, is_dj := false } ] }

/-- A free-tier user who is not a member of any room. -/
def erin : User := { id := "u10", tier := "free" }

/-- The alphabet of `generateRoomCode`: the constant `chars`. -/
def chars : String := "ABCDEFGHJKLMNPQRSTUVWXYZ23456789"

/-- JS `charAt`: the one-character string at the index, the empty string when the index
is out of range. -/
def charAt (x : String) (i : Nat) : String :=
  match x.data.get? i with
  | some c => String.mk [c]
  | none => ""

/-- The index `Math.floor(Math.random() * chars.length)` for the draw `r`.  A draw is a
double in [0, 1), hence a rational number, and its product with the power of two 32 is
exact. -/
def drawIndex (r : ℚ) : Nat := (Rat.floor (r * chars.length)).toNat

/-- Function `generateRoomCode`; `draws i` is the value returned by the call of
`Math.random()` in iteration `i` of the loop. -/
def generateRoomCode (draws : Nat → ℚ) : String :=
  (List.range 6).foldl (fun code i => code ++ charAt chars (drawIndex (draws i))) ""

/-- A user whose tier string is the name of a member inherited from `Object.prototype`. -/
def mallory : User := { id := "u11", tier := "constructor" }

/-- A user whose tier string `pro` is not a key of `TIER_LIMITS`. -/
def pat : User := { id := "u12", tier := "pro" }

/-- The store `store14` (room `r1` has 8 members) in which mallory and pat have each made
5 song requests on day 0. -/
def store15 : Store :=
  { store14 with
    usage_tracking :=
      [ { user_id := "u11", date := 0, song_requests := 5, votes_cast := 0,
          rooms_created := 0 },
        { user_id := "u12", date := 0, song_requests := 5, votes_cast := 0,
          rooms_created := 0 } ] }

/-- The store `store12` after track `q1` has been played at time 15000 (it is the
now-playing item of room `r1`); `q3` is still queued. -/
def store16 : Store :=
  { store12 with
    queue_items :=
      [ { track1 with played_at := some 15000 },
        { id := "q3", room_id := "r1", added_by := "u2", title := "C", artist := "Z",
          played_at := none, created_at := 12 } ]
    votes := [] }

/-! # Theorems -/

/-! ## Shared lemmas on handleVote -/

theorem recorded_eq (s : Store) (user : User) (qid vt id : String) :
    recorded s user qid vt id = deleteVote s.votes qid user.id ++ [newVote user qid vt id] :=
  rfl

/-- On a well-formed request `handleVote` is the record-then-auto-skip computation. -/
theorem handleVote_valid (s : Store) (user : User) (roomId qid vt id : String) (now : Nat)
    (hq : qid ≠ "") (hv : vt = "up" ∨ vt = "down") :
    handleVote s user roomId { queueItemId := some qid, voteType := some vt } id now =
      if autoSkip (voteTotal (recorded s user qid vt id) qid "up")
          (voteTotal (recorded s user qid vt id) qid "down") then
        ({ s with
            queue_items := markPlayed s.queue_items qid now
            votes := clearVotes (recorded s user qid vt id) qid },
          .ok { voteScore := voteTotal (recorded s user qid vt id) qid "up" -
                  voteTotal (recorded s user qid vt id) qid "down",
                upVotes := voteTotal (recorded s user qid vt id) qid "up",
                downVotes := voteTotal (recorded s user qid vt id) qid "down",
                skipped := true })
      else
        ({ s with votes := recorded s user qid vt id },
          .ok { voteScore := voteTotal (recorded s user qid vt id) qid "up" -
                  voteTotal (recorded s user qid vt id) qid "down",
                upVotes := voteTotal (recorded s user qid vt id) qid "up",
                downVotes := voteTotal (recorded s user qid vt id) qid "down",
                skipped := false }) := by
  have h1 : (qid == "") = false := by simpa using hq
  have h2 : (vt == "up" || vt == "down") = true := by
    rcases hv with h | h <;> simp [h]
  simp only [handleVote, recorded, h1, h2]
  rfl

theorem votesOf_deleteVote (votes : List Vote) (qid uid : String) :
    votesOf (deleteVote votes qid uid) qid uid = [] := by
  simp [votesOf, deleteVote, List.filter_filter]

theorem votesOf_recorded (s : Store) (user : User) (qid vt id : String) :
    votesOf (recorded s user qid vt id) qid user.id = [newVote user qid vt id] := by
  have h := votesOf_deleteVote s.votes qid user.id
  unfold votesOf at h
  simp [votesOf, recorded_eq, List.filter_append, h, newVote]

theorem votesOf_clearVotes (votes : List Vote) (qid uid : String) :
    votesOf (clearVotes votes qid) qid uid = [] := by
  simp [votesOf, clearVotes, List.filter_filter]
  intro a _ h _
  exact h

theorem deleteVote_recordVote (votes : List Vote) (id qid uid vt : String) (w : Int) :
    deleteVote (recordVote votes id qid uid vt w) qid uid = deleteVote votes qid uid := by
  simp [deleteVote, recordVote, List.filter_append, List.filter_filter]

/-! ## C1: voting twice -/

/-- C1 (as stated, refuted): in `store1` alice votes `q1` up and then down; the second
vote triggers the auto-skip, which deletes every vote of `q1`, so no Vote row of
(q1, alice) is left instead of exactly one.  In `store2` the premium user bob votes
`q1` down (auto-skip, votes cleared) and then up: the score of `q1` is then 2, whereas
it is 3 when bob only votes up. -/
theorem C1_counterexample :
    (votesOf (handleVote
        (handleVote store1 alice "r1" { queueItemId := some "q1", voteType := some "up" }
          "v1" 20000).1
        alice "r1" { queueItemId := some "q1", voteType := some "down" } "v2" 21000).1.votes
      "q1" "u1").length ≠ 1 ∧
    voteScore (handleVote
        (handleVote store2 bob "r1" { queueItemId := some "q1", voteType := some "down" }
          "v1" 20000).1
        bob "r1" { queueItemId := some "q1", voteType := some "up" } "v2" 21000).1.votes "q1"
      ≠ voteScore (handleVote store2 bob "r1"
          { queueItemId := some "q1", voteType := some "up" } "v2" 21000).1.votes "q1" := by
  decide

/-- C1 (amended): for every store, user, item id and directions A and B, after casting
A and then B (same user, same item) the second call succeeds and leaves exactly the row
of B for (item, user), unless that second call triggers the auto-skip, in which case no
row of the item is left; and whenever the first call did not trigger the auto-skip, store
and response after A then B are those of casting B alone, so the score reflects only B. -/
theorem C1_vote_replaces_previous (s : Store) (user : User) (roomId qid A B idA idB : String)
    (nowA nowB : Nat) (hq : qid ≠ "") (hA : A = "up" ∨ A = "down")
    (hB : B = "up" ∨ B = "down") :
    (∃ resp, (handleVote
        (handleVote s user roomId { queueItemId := some qid, voteType := some A } idA nowA).1
        user roomId { queueItemId := some qid, voteType := some B } idB nowB).2 = .ok resp ∧
      votesOf (handleVote
        (handleVote s user roomId { queueItemId := some qid, voteType := some A } idA nowA).1
        user roomId { queueItemId := some qid, voteType := some B } idB nowB).1.votes
        qid user.id = if resp.skipped then [] else [newVote user qid B idB]) ∧
    (∀ respA,
      (handleVote s user roomId { queueItemId := some qid, voteType := some A } idA nowA).2
        = .ok respA → respA.skipped = false →
      handleVote
        (handleVote s user roomId { queueItemId := some qid, voteType := some A } idA nowA).1
        user roomId { queueItemId := some qid, voteType := some B } idB nowB
      = handleVote s user roomId { queueItemId := some qid, voteType := some B } idB nowB) := by
  constructor
  · generalize (handleVote s user roomId
      { queueItemId := some qid, voteType := some A } idA nowA).1 = s1
    rw [handleVote_valid s1 user roomId qid B idB nowB hq hB]
    split
    · exact ⟨_, rfl, by simp [votesOf_clearVotes]⟩
    · exact ⟨_, rfl, by simp [votesOf_recorded]⟩
  · intro respA hresp hskip
    have hAeq := handleVote_valid s user roomId qid A idA nowA hq hA
    by_cases hskipA : autoSkip (voteTotal (recorded s user qid A idA) qid "up")
        (voteTotal (recorded s user qid A idA) qid "down") = true
    · rw [if_pos hskipA] at hAeq
      rw [hAeq] at hresp
      simp only [Response.ok.injEq] at hresp
      rw [← hresp] at hskip
      simp at hskip
    · rw [if_neg hskipA] at hAeq
      rw [hAeq]
      have hrec : recorded { s with votes := recorded s user qid A idA } user qid B idB
          = recorded s user qid B idB := by
        have h := deleteVote_recordVote s.votes idA qid user.id A
          (voteWeight (tierLimits user.tier))
        simp only [recorded, recordVote] at h ⊢
        rw [h]
      rw [handleVote_valid _ user roomId qid B idB nowB hq hB,
        handleVote_valid s user roomId qid B idB nowB hq hB]
      simp only [hrec]

/-- C1 witness: the amended statement at alice voting up then down on `q1` in `store1`. -/
theorem C1_vote_replaces_previous_witness :
    ("q1" ≠ "" ∧ ("up" = "up" ∨ "up" = "down") ∧ ("down" = "up" ∨ "down" = "down")) ∧
    ((∃ resp, (handleVote
        (handleVote store1 alice "r1" { queueItemId := some "q1", voteType := some "up" }
          "v1" 20000).1
        alice "r1" { queueItemId := some "q1", voteType := some "down" } "v2" 21000).2
          = .ok resp ∧
      votesOf (handleVote
        (handleVote store1 alice "r1" { queueItemId := some "q1", voteType := some "up" }
          "v1" 20000).1
        alice "r1" { queueItemId := some "q1", voteType := some "down" } "v2" 21000).1.votes
        "q1" alice.id = if resp.skipped then [] else [newVote alice "q1" "down" "v2"]) ∧
    (∀ respA,
      (handleVote store1 alice "r1" { queueItemId := some "q1", voteType := some "up" }
        "v1" 20000).2 = .ok respA → respA.skipped = false →
      handleVote
        (handleVote store1 alice "r1" { queueItemId := some "q1", voteType := some "up" }
          "v1" 20000).1
        alice "r1" { queueItemId := some "q1", voteType := some "down" } "v2" 21000
      = handleVote store1 alice "r1" { queueItemId := some "q1", voteType := some "down" }
          "v2" 21000)) :=
  ⟨⟨by decide, by decide, by decide⟩,
    C1_vote_replaces_previous store1 alice "r1" "q1" "up" "down" "v1" "v2" 20000 21000
      (by decide) (by decide) (by decide)⟩

/-! ## C2: the auto-removal rule -/

theorem autoSkip_iff (up down : Int) : autoSkip up down = true ↔ (down > up ∧ down > 0) := by
  simp [autoSkip]

theorem mem_markPlayed_played (items : List QueueItem) (qid : String) (now : Nat)
    (q : QueueItem) (hq : q ∈ markPlayed items qid now) (hid : q.id = qid) :
    q.played_at = some now := by
  simp only [markPlayed, List.mem_map] at hq
  obtain ⟨q0, _, h0⟩ := hq
  by_cases h : (q0.id == qid) = true
  · rw [if_pos h] at h0
    rw [← h0]
  · rw [if_neg h] at h0
    rw [h0] at h
    simp [hid] at h

theorem clearVotes_recorded (s : Store) (user : User) (qid vt id : String) :
    clearVotes (recorded s user qid vt id) qid = clearVotes s.votes qid := by
  simp only [clearVotes, recorded_eq, deleteVote, List.filter_append, List.filter_filter,
    newVote]
  simp only [List.filter_cons, List.filter_nil, beq_self_eq_true, Bool.not_true,
    List.append_nil]
  simp only [Bool.false_eq_true, if_false, List.append_nil]
  congr 1
  funext v
  by_cases h : (v.queue_item_id == qid) = true <;> simp [h]

/-- C2: for every store and every well-formed vote on item `qid`, with `up` and `down` the
weighted totals of `qid` once the vote is recorded: the response reports them, their
difference, and `skipped` equal to the condition `down > up` and `down > 0`; every row of
`queue_items` with that id is stamped played at `now` and no vote of `qid` is left if and
only if the condition holds; under the condition the other queue items and the votes of
other items are untouched; otherwise `queue_items` is unchanged and `votes` is the old
table with the voter's previous row on `qid` replaced by the new one. -/
theorem C2_auto_removal_rule (s : Store) (user : User) (roomId qid vt id : String) (now : Nat)
    (hq : qid ≠ "") (hv : vt = "up" ∨ vt = "down") :
    let up := voteTotal (recorded s user qid vt id) qid "up"
    let down := voteTotal (recorded s user qid vt id) qid "down"
    let r := handleVote s user roomId { queueItemId := some qid, voteType := some vt } id now
    r.2 = .ok { voteScore := up - down, upVotes := up, downVotes := down,
                skipped := decide (down > up ∧ down > 0) } ∧
    (((∀ q ∈ r.1.queue_items, q.id = qid → q.played_at = some now) ∧
        (∀ v ∈ r.1.votes, v.queue_item_id ≠ qid)) ↔ (down > up ∧ down > 0)) ∧
    ((down > up ∧ down > 0) →
      r.1.queue_items = s.queue_items.map
          (fun q => if q.id == qid then { q with played_at := some now } else q) ∧
        r.1.votes = s.votes.filter (fun v => !(v.queue_item_id == qid))) ∧
    (¬ (down > up ∧ down > 0) →
      r.1.queue_items = s.queue_items ∧
        r.1.votes = s.votes.filter
            (fun v => !(v.queue_item_id == qid && v.user_id == user.id)) ++
          [newVote user qid vt id]) := by
  intro up down r
  have hr : r = handleVote s user roomId { queueItemId := some qid, voteType := some vt }
      id now := rfl
  rw [handleVote_valid s user roomId qid vt id now hq hv] at hr
  have hcond := autoSkip_iff up down
  by_cases hskip : autoSkip up down = true
  · have hc : down > up ∧ down > 0 := hcond.mp hskip
    rw [if_pos hskip] at hr
    have hitems : r.1.queue_items = markPlayed s.queue_items qid now := by rw [hr]
    have hvotes : r.1.votes = clearVotes s.votes qid := by
      rw [hr]; exact clearVotes_recorded s user qid vt id
    refine ⟨?_, ?_, ?_, ?_⟩
    · rw [hr]; simp [hc]
    · refine ⟨fun _ => hc, fun _ => ⟨?_, ?_⟩⟩
      · intro q hqm hid
        rw [hitems] at hqm
        exact mem_markPlayed_played _ _ _ q hqm hid
      · intro v hv
        rw [hvotes] at hv
        simp only [clearVotes, List.mem_filter] at hv
        simpa using hv.2
    · intro _
      exact ⟨hitems, hvotes⟩
    · intro hn
      exact absurd hc hn
  · have hc : ¬ (down > up ∧ down > 0) := fun h => hskip (hcond.mpr h)
    rw [if_neg hskip] at hr
    have hitems : r.1.queue_items = s.queue_items := by rw [hr]
    have hvotes : r.1.votes = recorded s user qid vt id := by rw [hr]
    refine ⟨?_, ?_, ?_, ?_⟩
    · rw [hr]; simp [hc]
    · refine ⟨fun h => ?_, fun h => absurd h hc⟩
      have hmem : newVote user qid vt id ∈ r.1.votes := by
        rw [hvotes, recorded_eq]; simp
      exact absurd rfl (h.2 _ hmem)
    · intro h
      exact absurd h hc
    · intro _
      exact ⟨hitems, by rw [hvotes]; rfl⟩

/-- C2 witness: the rule at carol voting `q1` down in `store1`. -/
theorem C2_auto_removal_rule_witness :
    ("q1" ≠ "" ∧ ("down" = "up" ∨ "down" = "down")) ∧
    (let up := voteTotal (recorded store1 carol "q1" "down" "v1") "q1" "up"
    let down := voteTotal (recorded store1 carol "q1" "down" "v1") "q1" "down"
    let r := handleVote store1 carol "r1"
      { queueItemId := some "q1", voteType := some "down" } "v1" 20000
    r.2 = .ok { voteScore := up - down, upVotes := up, downVotes := down,
                skipped := decide (down > up ∧ down > 0) } ∧
    (((∀ q ∈ r.1.queue_items, q.id = "q1" → q.played_at = some 20000) ∧
        (∀ v ∈ r.1.votes, v.queue_item_id ≠ "q1")) ↔ (down > up ∧ down > 0)) ∧
    ((down > up ∧ down > 0) →
      r.1.queue_items = store1.queue_items.map
          (fun q => if q.id == "q1" then { q with played_at := some 20000 } else q) ∧
        r.1.votes = store1.votes.filter (fun v => !(v.queue_item_id == "q1"))) ∧
    (¬ (down > up ∧ down > 0) →
      r.1.queue_items = store1.queue_items ∧
        r.1.votes = store1.votes.filter
            (fun v => !(v.queue_item_id == "q1" && v.user_id == carol.id)) ++
          [newVote carol "q1" "down" "v1"])) :=
  ⟨⟨by decide, by decide⟩,
    C2_auto_removal_rule store1 carol "r1" "q1" "down" "v1" 20000 (by decide) (by decide)⟩

/-! ## C3 and C4: votes on items that have been played -/

/-- C3 (as stated, refuted): `q1` is played in `store3`, yet carol's up vote on it is not
denied: the response is the success body with score 1, and the Vote row is created. -/
theorem C3_counterexample :
    (∀ q ∈ store3.queue_items, q.id = "q1" ∧ q.played_at = some 15000) ∧
    handleVote store3 carol "r1" { queueItemId := some "q1", voteType := some "up" }
        "v1" 20000 =
      ({ store3 with
          votes := [{ id := "v1", queue_item_id := "q1", user_id := "u3",
                      vote_type := "up", weight := 1 }] },
        .ok { voteScore := 1, upVotes := 1, downVotes := 0, skipped := false }) := by
  decide

theorem played_row_eq (items : List QueueItem) (q : QueueItem) (hmem : q ∈ items)
    (hplayed : q.played_at ≠ none) : ∃ t, { q with played_at := some t } ∈ items := by
  obtain ⟨t0, ht0⟩ := Option.ne_none_iff_exists'.mp hplayed
  refine ⟨t0, ?_⟩
  have : ({ q with played_at := some t0 } : QueueItem) = q := by
    cases q
    simp_all
  rw [this]
  exact hmem

theorem markPlayed_keeps_played (items : List QueueItem) (qid : String) (now : Nat)
    (q : QueueItem) (hmem : q ∈ items) (hplayed : q.played_at ≠ none) :
    ∃ t, { q with played_at := some t } ∈ markPlayed items qid now := by
  by_cases h : (q.id == qid) = true
  · refine ⟨now, ?_⟩
    simp only [markPlayed, List.mem_map]
    exact ⟨q, hmem, by rw [if_pos h]⟩
  · obtain ⟨t0, ht0⟩ := Option.ne_none_iff_exists'.mp hplayed
    refine ⟨t0, ?_⟩
    simp only [markPlayed, List.mem_map]
    refine ⟨q, hmem, ?_⟩
    rw [if_neg h]
    cases q
    simp_all

theorem handleVote_queue_items (s : Store) (user : User) (roomId : String) (req : VoteRequest)
    (id : String) (now : Nat) :
    (handleVote s user roomId req id now).1.queue_items = s.queue_items ∨
    ∃ qid, (handleVote s user roomId req id now).1.queue_items
      = markPlayed s.queue_items qid now := by
  unfold handleVote
  split
  · split
    · exact Or.inl rfl
    · simp only
      split
      · exact Or.inr ⟨_, rfl⟩
      · exact Or.inl rfl
  · exact Or.inl rfl

theorem handleSkipVote_queue_items (s : Store) (user : User) (roomId queueItemId : String)
    (now : Nat) :
    (handleSkipVote s user roomId queueItemId now).1.queue_items = s.queue_items ∨
    (handleSkipVote s user roomId queueItemId now).1.queue_items
      = markPlayed s.queue_items queueItemId now := by
  unfold handleSkipVote
  simp only
  split
  · exact Or.inr rfl
  · exact Or.inl rfl

/-- C3 (amended): `handleVote` does not read `played_at`.  For every store and every
well-formed vote on an item `q` whose `played_at` is set, the call is accepted; unless the
auto-skip fires, the caller's Vote row on the item is written; the row of `q` stays in
`queue_items` with `played_at` set; and response and votes table are the same whatever
the `queue_items` table holds. -/
theorem C3_played_item_vote_accepted (s : Store) (user : User) (roomId vt id : String)
    (now : Nat) (q : QueueItem) (hmem : q ∈ s.queue_items) (hplayed : q.played_at ≠ none)
    (hq : q.id ≠ "") (hv : vt = "up" ∨ vt = "down") :
    (∃ resp,
      (handleVote s user roomId { queueItemId := some q.id, voteType := some vt } id now).2
        = .ok resp ∧
      (resp.skipped = false →
        votesOf (handleVote s user roomId { queueItemId := some q.id, voteType := some vt }
          id now).1.votes q.id user.id = [newVote user q.id vt id])) ∧
    (∃ t, { q with played_at := some t } ∈
      (handleVote s user roomId { queueItemId := some q.id, voteType := some vt }
        id now).1.queue_items) ∧
    (∀ items : List QueueItem,
      (handleVote { s with queue_items := items } user roomId
          { queueItemId := some q.id, voteType := some vt } id now).2 =
        (handleVote s user roomId { queueItemId := some q.id, voteType := some vt }
          id now).2 ∧
      (handleVote { s with queue_items := items } user roomId
          { queueItemId := some q.id, voteType := some vt } id now).1.votes =
        (handleVote s user roomId { queueItemId := some q.id, voteType := some vt }
          id now).1.votes) := by
  refine ⟨?_, ?_, ?_⟩
  · rw [handleVote_valid s user roomId q.id vt id now hq hv]
    split
    · exact ⟨_, rfl, by simp⟩
    · exact ⟨_, rfl, fun _ => votesOf_recorded s user q.id vt id⟩
  · rcases handleVote_queue_items s user roomId
      { queueItemId := some q.id, voteType := some vt } id now with h | ⟨qid, h⟩
    · rw [h]
      exact played_row_eq s.queue_items q hmem hplayed
    · rw [h]
      exact markPlayed_keeps_played _ _ _ q hmem hplayed
  · intro items
    rw [handleVote_valid s user roomId q.id vt id now hq hv,
      handleVote_valid _ user roomId q.id vt id now hq hv]
    have hrec : recorded { s with queue_items := items } user q.id vt id
        = recorded s user q.id vt id := rfl
    simp only [hrec]
    split <;> exact ⟨rfl, rfl⟩

/-- C3 witness: the amended statement at carol voting up on the played track of `store3`. -/
theorem C3_played_item_vote_accepted_witness :
    ({ track1 with played_at := some 15000 } ∈ store3.queue_items ∧
      ({ track1 with played_at := some 15000 } : QueueItem).played_at ≠ none ∧
      ({ track1 with played_at := some 15000 } : QueueItem).id ≠ "" ∧
      ("up" = "up" ∨ "up" = "down")) ∧
    ∃ resp,
      (handleVote store3 carol "r1"
        { queueItemId := some ({ track1 with played_at := some 15000 } : QueueItem).id,
          voteType := some "up" } "v1" 20000).2 = .ok resp ∧
      (resp.skipped = false →
        votesOf (handleVote store3 carol "r1"
          { queueItemId := some ({ track1 with played_at := some 15000 } : QueueItem).id,
            voteType := some "up" } "v1" 20000).1.votes
          ({ track1 with played_at := some 15000 } : QueueItem).id carol.id
          = [newVote carol ({ track1 with played_at := some 15000 } : QueueItem).id "up"
              "v1"]) :=
  ⟨⟨by decide, by decide, by decide, by decide⟩,
    (C3_played_item_vote_accepted store3 carol "r1" "up" "v1" 20000
      { track1 with played_at := some 15000 } (by decide) (by decide) (by decide)
      (by decide)).1⟩

/-- C4 (as stated, refuted): carol's down vote auto-removes `q1` from `store1`; after
that, alice's up vote on `q1` and alice's skip vote on `q1` each change the store (a Vote
row, respectively a SkipVote row, is written). -/
theorem C4_counterexample :
    (handleVote store1 carol "r1" { queueItemId := some "q1", voteType := some "down" }
      "v1" 20000).2
      = .ok { voteScore := -1, upVotes := 0, downVotes := 1, skipped := true } ∧
    (∀ q ∈ store4.queue_items, q.id = "q1" ∧ q.played_at = some 20000) ∧
    (handleVote store4 alice "r1" { queueItemId := some "q1", voteType := some "up" }
      "v2" 30000).1 ≠ store4 ∧
    (handleSkipVote store4 alice "r1" "q1" 30000).1 ≠ store4 := by
  decide

/-- C4 (amended): an item whose `played_at` is set stays played.  For every store, every
row of `queue_items` with `played_at` set, and every later `handleVote` or
`handleSkipVote` call (on that item or any other), the row is still in `queue_items`
with `played_at` set, possibly to the time of the later call. -/
theorem C4_played_stays_played (s : Store) (q : QueueItem) (hmem : q ∈ s.queue_items)
    (hplayed : q.played_at ≠ none) (user : User) (roomId : String) (req : VoteRequest)
    (id queueItemId : String) (now : Nat) :
    (∃ t, { q with played_at := some t } ∈
      (handleVote s user roomId req id now).1.queue_items) ∧
    (∃ t, { q with played_at := some t } ∈
      (handleSkipVote s user roomId queueItemId now).1.queue_items) := by
  have hsame := played_row_eq s.queue_items q hmem hplayed
  constructor
  · rcases handleVote_queue_items s user roomId req id now with h | ⟨qid, h⟩
    · rw [h]; exact hsame
    · rw [h]; exact markPlayed_keeps_played _ _ _ q hmem hplayed
  · rcases handleSkipVote_queue_items s user roomId queueItemId now with h | h
    · rw [h]; exact hsame
    · rw [h]; exact markPlayed_keeps_played _ _ _ q hmem hplayed

/-- C4 witness: the amended statement at the auto-removed track of `store4`, with alice
then voting it up and voting to skip it. -/
theorem C4_played_stays_played_witness :
    ({ track1 with played_at := some 20000 } ∈ store4.queue_items ∧
      ({ track1 with played_at := some 20000 } : QueueItem).played_at ≠ none) ∧
    ((∃ t, { track1 with played_at := some t } ∈
      (handleVote store4 alice "r1" { queueItemId := some "q1", voteType := some "up" }
        "v2" 30000).1.queue_items) ∧
    (∃ t, { track1 with played_at := some t } ∈
      (handleSkipVote store4 alice "r1" "q1" 30000).1.queue_items)) :=
  ⟨⟨by decide, by decide⟩,
    C4_played_stays_played store4 { track1 with played_at := some 20000 } (by decide)
      (by decide) alice "r1" { queueItemId := some "q1", voteType := some "up" } "v2" "q1"
      30000⟩

/-! ## C5: ordering of the live queue -/

theorem orderKey_total (a b : QueueRow) : orderKey a b ∨ orderKey b a := by
  unfold orderKey
  omega

theorem orderKey_trans (a b c : QueueRow) (hab : orderKey a b) (hbc : orderKey b c) :
    orderKey a c := by
  unfold orderKey at *
  omega

theorem orderedQueue_perm (s : Store) (roomId : String) :
    (orderedQueue s roomId).Perm (queueRows s roomId) :=
  List.perm_insertionSort orderKey _

theorem orderedQueue_sorted (s : Store) (roomId : String) :
    (orderedQueue s roomId).Pairwise orderKey :=
  List.sorted_insertionSort orderKey _

theorem queueRows_items (s : Store) (roomId : String) :
    (queueRows s roomId).map (fun r => r.item) =
      s.queue_items.filter (fun q => q.room_id == roomId && q.played_at.isNone) := by
  simp [queueRows, List.map_map, Function.comp_def]

theorem queueRows_score (s : Store) (roomId : String) (r : QueueRow)
    (h : r ∈ queueRows s roomId) : r.vote_score = voteScore s.votes r.item.id := by
  simp only [queueRows, List.mem_map] at h
  obtain ⟨q, _, rfl⟩ := h
  rfl

theorem voteTotal_eq_sum_weights (votes : List Vote) (qid t : String) :
    voteTotal votes qid t =
      ((votes.filter (fun v => v.queue_item_id == qid && v.vote_type == t)).map
        (fun v => v.weight)).sum := by
  induction votes with
  | nil => rfl
  | cons v vs ih =>
    unfold voteTotal at ih ⊢
    simp only [beq_iff_eq] at ih
    by_cases h1 : v.queue_item_id = qid <;> by_cases h2 : v.vote_type = t <;>
      simp [List.filter_cons, h1, h2, ih]

/-- C5: whenever the room is found (a row of `rooms` with the requested id exists),
`handleGetRoom` returns a snapshot whose queue (a) holds, up to order, exactly the rows of
`queue_items` of the snapshot room with `played_at` NULL, (b) carries for each item the
score: sum of the weights of its up votes minus sum of the weights of its down votes,
(c) has every two consecutive rows a, b in the order score(a) > score(b), or equal
scores and created_at(a) <= created_at(b), and (d) never lists a row after a row of equal
score and strictly later created_at. -/
theorem C5_live_queue_ordering (s : Store) (user : User) (roomId : String) (room : Room)
    (hroom : room ∈ s.rooms) (hid : room.id = roomId) :
    ∃ snap, handleGetRoom s user roomId = .ok snap ∧
      snap.room ∈ s.rooms ∧
      (snap.queue.map (fun e => e.row.item)).Perm
        (s.queue_items.filter
          (fun q => q.room_id == snap.room.id && q.played_at.isNone)) ∧
      (∀ e ∈ snap.queue, e.row.vote_score =
        ((s.votes.filter (fun v => v.queue_item_id == e.row.item.id &&
            v.vote_type == "up")).map (fun v => v.weight)).sum -
        ((s.votes.filter (fun v => v.queue_item_id == e.row.item.id &&
            v.vote_type == "down")).map (fun v => v.weight)).sum) ∧
      snap.queue.Chain' (fun a b => a.row.vote_score > b.row.vote_score ∨
        (a.row.vote_score = b.row.vote_score ∧
          a.row.item.created_at ≤ b.row.item.created_at)) ∧
      snap.queue.Pairwise (fun a b => ¬ (a.row.vote_score = b.row.vote_score ∧
        b.row.item.created_at < a.row.item.created_at)) := by
  unfold handleGetRoom
  cases hfind : s.rooms.find? (fun r => r.id == roomId || r.code == toUpperCase roomId) with
  | none =>
    have := List.find?_eq_none.mp hfind room hroom
    simp [hid] at this
  | some found =>
    refine ⟨_, rfl, List.mem_of_find?_eq_some hfind, ?_, ?_, ?_, ?_⟩
    · simp only [List.map_map, Function.comp_def]
      rw [← queueRows_items]
      exact (orderedQueue_perm s found.id).map _
    · intro e he
      simp only [List.mem_map] at he
      obtain ⟨r, hr, rfl⟩ := he
      have hr2 := (orderedQueue_perm s found.id).mem_iff.mp hr
      rw [queueRows_score s found.id r hr2, voteScore, voteTotal_eq_sum_weights,
        voteTotal_eq_sum_weights]
    · apply List.Pairwise.chain'
      simp only [List.pairwise_map]
      exact orderedQueue_sorted s found.id
    · simp only [List.pairwise_map]
      refine (orderedQueue_sorted s found.id).imp ?_
      intro a b hab
      unfold orderKey at hab
      omega

/-- C5 witness: the snapshot of room `r1` in `store2`, asked for by alice. -/
theorem C5_live_queue_ordering_witness :
    (room1 ∈ store2.rooms ∧ room1.id = "r1") ∧
    ∃ snap, handleGetRoom store2 alice "r1" = .ok snap ∧
      snap.room ∈ store2.rooms ∧
      (snap.queue.map (fun e => e.row.item)).Perm
        (store2.queue_items.filter
          (fun q => q.room_id == snap.room.id && q.played_at.isNone)) ∧
      (∀ e ∈ snap.queue, e.row.vote_score =
        ((store2.votes.filter (fun v => v.queue_item_id == e.row.item.id &&
            v.vote_type == "up")).map (fun v => v.weight)).sum -
        ((store2.votes.filter (fun v => v.queue_item_id == e.row.item.id &&
            v.vote_type == "down")).map (fun v => v.weight)).sum) ∧
      snap.queue.Chain' (fun a b => a.row.vote_score > b.row.vote_score ∨
        (a.row.vote_score = b.row.vote_score ∧
          a.row.item.created_at ≤ b.row.item.created_at)) ∧
      snap.queue.Pairwise (fun a b => ¬ (a.row.vote_score = b.row.vote_score ∧
        b.row.item.created_at < a.row.item.created_at)) :=
  ⟨⟨by decide, by decide⟩,
    C5_live_queue_ordering store2 alice "r1" room1 (by decide) (by decide)⟩

/-! ## C6: order of arrival of the votes -/

/-- C6 (as stated, refuted): from `store1`, carol (free) votes `q1` down and bob (premium)
votes `q1` up.  Carol first: her vote auto-skips `q1`, and the live queue of `r1` ends
empty.  Bob first: `q1` ends in the live queue with score 1. -/
theorem C6_counterexample :
    orderedQueue (castVotes store1
      [ { user := carol, roomId := "r1", queueItemId := "q1", voteType := "down",
          id := "v1", now := 20000 },
        { user := bob, roomId := "r1", queueItemId := "q1", voteType := "up",
          id := "v2", now := 21000 } ]) "r1" = [] ∧
    orderedQueue (castVotes store1
      [ { user := bob, roomId := "r1", queueItemId := "q1", voteType := "up",
          id := "v1", now := 20000 },
        { user := carol, roomId := "r1", queueItemId := "q1", voteType := "down",
          id := "v2", now := 21000 } ]) "r1" = [{ item := track1, vote_score := 1 }] := by
  decide

theorem voteTotal_append (xs ys : List Vote) (qid t : String) :
    voteTotal (xs ++ ys) qid t = voteTotal xs qid t + voteTotal ys qid t := by
  simp [voteTotal, List.filter_append, List.map_append, List.sum_append]

theorem voteTotal_newVote (user : User) (q vt id qid t : String) :
    voteTotal [newVote user q vt id] qid t = contribution qid t (user, q, vt) := by
  by_cases h1 : q = qid <;> by_cases h2 : vt = t <;>
    simp [voteTotal, newVote, contribution, List.filter_cons, h1, h2]

theorem castBallot_not_skipped (s : Store) (b : Ballot) (hq : b.queueItemId ≠ "")
    (hv : b.voteType = "up" ∨ b.voteType = "down")
    (h : (match (castBallot s b).2 with
      | .ok r => !r.skipped
      | .error _ => true) = true) :
    (castBallot s b).1 =
      { s with votes := recorded s b.user b.queueItemId b.voteType b.id } := by
  unfold castBallot at h ⊢
  rw [handleVote_valid s b.user b.roomId b.queueItemId b.voteType b.id b.now hq hv] at h ⊢
  split
  · rename_i hs
    rw [if_pos hs] at h
    simp at h
  · rfl

theorem touchedBy_perm (cs1 cs2 : List (User × String × String)) (h : cs1.Perm cs2)
    (v : Vote) : touchedBy cs1 v = touchedBy cs2 v := by
  rw [Bool.eq_iff_iff]
  simp only [touchedBy, List.any_eq_true]
  constructor
  · rintro ⟨c, hc, hp⟩
    exact ⟨c, h.mem_iff.mp hc, hp⟩
  · rintro ⟨c, hc, hp⟩
    exact ⟨c, h.mem_iff.mpr hc, hp⟩

/-- Totals after a run in which no call auto-skips and every voter votes once: the rows
the run did not replace, plus the contributions of the ballots. -/
theorem voteTotal_castVotes (bs : List Ballot) :
    ∀ s : Store, (∀ b ∈ bs, b.queueItemId ≠ "" ∧ (b.voteType = "up" ∨ b.voteType = "down")) →
      (bs.map (fun b => b.user.id)).Nodup → noneSkipped s bs = true →
      (castVotes s bs).queue_items = s.queue_items ∧
      ∀ qid t, voteTotal (castVotes s bs).votes qid t =
        voteTotal (s.votes.filter (fun v => !touchedBy (bs.map Ballot.content) v)) qid t +
          ((bs.map Ballot.content).map (contribution qid t)).sum := by
  induction bs with
  | nil =>
    intro s _ _ _
    simp [castVotes, touchedBy]
  | cons b bs ih =>
    intro s hvalid hnodup hnone
    have hb := hvalid b (List.mem_cons_self b bs)
    simp only [noneSkipped, Bool.and_eq_true] at hnone
    have hstep := castBallot_not_skipped s b hb.1 hb.2 hnone.1
    simp only [List.map_cons, List.nodup_cons] at hnodup
    have hih := ih (castBallot s b).1 (fun x hx => hvalid x (List.mem_cons_of_mem b hx))
      hnodup.2 hnone.2
    simp only [castVotes]
    refine ⟨by rw [hih.1, hstep], ?_⟩
    intro qid t
    rw [hih.2 qid t, hstep]
    simp only [recorded_eq, List.filter_append, voteTotal_append, List.map_cons,
      List.sum_cons]
    have hnew : [newVote b.user b.queueItemId b.voteType b.id].filter
        (fun v => !touchedBy (bs.map Ballot.content) v)
        = [newVote b.user b.queueItemId b.voteType b.id] := by
      have : touchedBy (bs.map Ballot.content)
          (newVote b.user b.queueItemId b.voteType b.id) = false := by
        rw [Bool.eq_false_iff]
        intro ht
        simp only [touchedBy, List.any_eq_true, List.mem_map] at ht
        obtain ⟨c, ⟨b2, hb2, rfl⟩, hc⟩ := ht
        simp only [newVote, Ballot.content, Bool.and_eq_true, beq_iff_eq] at hc
        exact hnodup.1 (List.mem_map.mpr ⟨b2, hb2, hc.2.symm⟩)
      simp [List.filter_cons, this]
    have hold : (deleteVote s.votes b.queueItemId b.user.id).filter
        (fun v => !touchedBy (bs.map Ballot.content) v)
        = s.votes.filter (fun v => !touchedBy (b.content :: bs.map Ballot.content) v) := by
      simp only [deleteVote, List.filter_filter]
      congr 1
      funext v
      simp only [touchedBy, List.any_cons, Ballot.content, Bool.not_or]
      rw [Bool.and_comm]
    rw [hnew, hold, voteTotal_newVote]
    simp only [Ballot.content]
    ring

/-- C6 (amended): for every initial store and every two sequences of well-formed vote
calls that cast the same votes (same voters with the same tiers, items and directions, in
any order and with any ids and call times), each voter voting once, if no call of either
sequence answers `skipped: true` (auto-removal), then the live queue of every room is the
same after both sequences. -/
theorem C6_order_independent_without_auto_skip (s : Store) (l1 l2 : List Ballot)
    (hperm : (l1.map Ballot.content).Perm (l2.map Ballot.content))
    (hvalid1 : ∀ b ∈ l1, b.queueItemId ≠ "" ∧ (b.voteType = "up" ∨ b.voteType = "down"))
    (hvalid2 : ∀ b ∈ l2, b.queueItemId ≠ "" ∧ (b.voteType = "up" ∨ b.voteType = "down"))
    (hnodup : (l1.map (fun b => b.user.id)).Nodup)
    (hnone1 : noneSkipped s l1 = true) (hnone2 : noneSkipped s l2 = true)
    (roomId : String) :
    orderedQueue (castVotes s l1) roomId = orderedQueue (castVotes s l2) roomId := by
  have hnodup2 : (l2.map (fun b => b.user.id)).Nodup := by
    have h : (l1.map (fun b => b.user.id)).Perm (l2.map (fun b => b.user.id)) := by
      have := hperm.map (fun c => c.1.id)
      simpa [List.map_map, Function.comp_def, Ballot.content] using this
    exact h.nodup_iff.mp hnodup
  obtain ⟨hitems1, htot1⟩ := voteTotal_castVotes l1 s hvalid1 hnodup hnone1
  obtain ⟨hitems2, htot2⟩ := voteTotal_castVotes l2 s hvalid2 hnodup2 hnone2
  have htot : ∀ qid t, voteTotal (castVotes s l1).votes qid t
      = voteTotal (castVotes s l2).votes qid t := by
    intro qid t
    rw [htot1, htot2]
    have hfilter : (fun v => !touchedBy (l1.map Ballot.content) v)
        = (fun v => !touchedBy (l2.map Ballot.content) v) := by
      funext v
      rw [touchedBy_perm _ _ hperm v]
    rw [hfilter, (hperm.map (contribution qid t)).sum_eq]
  have hscore : ∀ qid, voteScore (castVotes s l1).votes qid
      = voteScore (castVotes s l2).votes qid := by
    intro qid
    simp only [voteScore, htot]
  simp only [orderedQueue, queueRows, hitems1, hitems2, hscore]

/-- C6 witness: from `store1`, alice and bob both vote `q1` up, in the two orders. -/
theorem C6_order_independent_without_auto_skip_witness :
    orderedQueue (castVotes store1
      [ { user := alice, roomId := "r1", queueItemId := "q1", voteType := "up",
          id := "v1", now := 20000 },
        { user := bob, roomId := "r1", queueItemId := "q1", voteType := "up",
          id := "v2", now := 21000 } ]) "r1" =
    orderedQueue (castVotes store1
      [ { user := bob, roomId := "r1", queueItemId := "q1", voteType := "up",
          id := "v1", now := 20000 },
        { user := alice, roomId := "r1", queueItemId := "q1", voteType := "up",
          id := "v2", now := 21000 } ]) "r1" :=
  C6_order_independent_without_auto_skip store1 _ _
    (by decide) (by decide) (by decide) (by decide) (by decide) (by decide) "r1"

/-! ## C7: the sort key as an order -/

/-- C7 (as stated, refuted): `store5` is reachable (a room is created, then two tracks are
queued in it 400 ms apart, within one second of `CURRENT_TIMESTAMP`).  Its two unplayed
items have the same score 0 and the same `created_at`, so the key orders neither strictly
before the other; both arrangements of the two rows are sorted by the key. -/
theorem C7_counterexample :
    Reachable store5 ∧
    (∃ a ∈ queueRows store5 "r1", ∃ b ∈ queueRows store5 "r1",
      a.item.id ≠ b.item.id ∧ ¬ strictKey a b ∧ ¬ strictKey b a) ∧
    (∃ l, l.Perm (queueRows store5 "r1") ∧ l.Pairwise orderKey ∧
      l ≠ orderedQueue store5 "r1") := by
  refine ⟨?_, by decide, ⟨(orderedQueue store5 "r1").reverse, by decide, by decide,
    by decide⟩⟩
  unfold store5
  refine Reachable.next _ _ _ _ (Reachable.next _ _ _ _
    (Reachable.next _ _ _ _ Reachable.init ?_) ?_) ?_
  · intro r hr
    simp [Store.empty] at hr
  · intro q hq
    revert q
    decide
  · intro q hq
    revert q
    decide

theorem strictKey_of_orderKey (a b : QueueRow) (h : orderKey a b) (hne : ¬ sameKey a b) :
    strictKey a b := by
  unfold orderKey at h
  unfold sameKey at hne
  unfold strictKey
  omega

/-- C7 (amended): the sort key (score descending, then `created_at` ascending) is a total
preorder.  In every store: any two rows of a live queue are comparable by the key; both
directions hold exactly when score and `created_at` (one-second resolution) coincide,
otherwise one row is strictly before the other; and when the rows of a live queue have
pairwise different keys, the query result is the only arrangement of these rows that is
sorted by the key. -/
theorem C7_key_total_preorder (s : Store) (roomId : String) :
    (∀ a ∈ queueRows s roomId, ∀ b ∈ queueRows s roomId, orderKey a b ∨ orderKey b a) ∧
    (∀ a ∈ queueRows s roomId, ∀ b ∈ queueRows s roomId,
      ((orderKey a b ∧ orderKey b a) ↔ sameKey a b) ∧
      (¬ sameKey a b → (strictKey a b ∨ strictKey b a))) ∧
    ((queueRows s roomId).Pairwise (fun a b => ¬ sameKey a b) →
      ∀ l : List QueueRow, l.Perm (queueRows s roomId) → l.Pairwise orderKey →
        l = orderedQueue s roomId) := by
  refine ⟨fun a _ b _ => orderKey_total a b, fun a _ b _ => ⟨?_, ?_⟩, ?_⟩
  · unfold orderKey sameKey
    omega
  · unfold sameKey strictKey
    omega
  · intro hdistinct l hperm hsorted
    have hsymm : Symmetric (fun a b : QueueRow => ¬ sameKey a b) := by
      intro a b h
      unfold sameKey at h ⊢
      omega
    have hl : l.Pairwise (fun a b => ¬ sameKey a b) :=
      (hperm.pairwise_iff (fun h => hsymm h)).mpr hdistinct
    have ho : (orderedQueue s roomId).Pairwise (fun a b => ¬ sameKey a b) :=
      ((orderedQueue_perm s roomId).pairwise_iff (fun h => hsymm h)).mpr hdistinct
    have hl2 : l.Pairwise strictKey :=
      (hsorted.and hl).imp (fun h => strictKey_of_orderKey _ _ h.1 h.2)
    have ho2 : (orderedQueue s roomId).Pairwise strictKey :=
      ((orderedQueue_sorted s roomId).and ho).imp
        (fun h => strictKey_of_orderKey _ _ h.1 h.2)
    exact List.eq_of_perm_of_sorted (hperm.trans (orderedQueue_perm s roomId).symm) hl2 ho2

/-- C7 witness: in `store6` the two queued tracks have scores 1 and 0, and the arrangement
with `q2` first is the query result. -/
theorem C7_key_total_preorder_witness :
    (queueRows store6 "r1").Pairwise (fun a b => ¬ sameKey a b) ∧
    (queueRows store6 "r1").reverse.Perm (queueRows store6 "r1") ∧
    (queueRows store6 "r1").reverse.Pairwise orderKey ∧
    (queueRows store6 "r1").reverse = orderedQueue store6 "r1" :=
  ⟨by decide, by decide, by decide,
    (C7_key_total_preorder store6 "r1").2.2 (by decide) _ (by decide) (by decide)⟩

/-! ## C8 and C9: the daily request quota -/

theorem requestsToday_trackSongRequest (us : List Usage) (u : String) (d : Nat)
    (u2 : String) (d2 : Nat) :
    requestsToday (trackSongRequest us u d) u2 d2 =
      requestsToday us u2 d2 + (if u2 = u ∧ d2 = d then 1 else 0) := by
  unfold trackSongRequest requestsToday
  by_cases hany : us.any (fun r => r.user_id == u && r.date == d) = true
  · rw [if_pos hany, List.find?_map]
    have hcomp : ((fun r : Usage => r.user_id == u2 && r.date == d2) ∘
        (fun r : Usage => if (r.user_id == u && r.date == d) = true
          then { r with song_requests := r.song_requests + 1 } else r))
        = (fun r : Usage => r.user_id == u2 && r.date == d2) := by
      funext r
      simp only [Function.comp]
      split <;> rfl
    rw [hcomp]
    cases hfind : us.find? (fun r => r.user_id == u2 && r.date == d2) with
    | none =>
      have hnone := List.find?_eq_none.mp hfind
      simp only [Option.map_none']
      split
      · rename_i hkey
        obtain ⟨x, hx, hpx⟩ := List.any_eq_true.mp hany
        rw [hkey.1, hkey.2] at hnone
        exact absurd hpx (hnone x hx)
      · rfl
    | some r =>
      have hr := List.find?_some hfind
      simp only [Bool.and_eq_true, beq_iff_eq] at hr
      simp only [Option.map_some']
      by_cases hkey : u2 = u ∧ d2 = d
      · have : (r.user_id == u && r.date == d) = true := by
          simp [hr.1, hr.2, hkey.1, hkey.2]
        simp [this, hkey]
      · have : ¬ (r.user_id == u && r.date == d) = true := by
          simp only [Bool.and_eq_true, beq_iff_eq, hr.1, hr.2]
          exact hkey
        simp [this, hkey]
  · rw [if_neg hany, List.find?_append]
    have hall : ∀ x ∈ us, ¬ (x.user_id == u && x.date == d) = true := by
      intro x hx hp
      exact hany (List.any_eq_true.mpr ⟨x, hx, hp⟩)
    by_cases hkey : u2 = u ∧ d2 = d
    · obtain ⟨rfl, rfl⟩ := hkey
      have hnone : us.find? (fun r => r.user_id == u2 && r.date == d2) = none :=
        List.find?_eq_none.mpr hall
      simp [hnone]
    · have hnew : List.find? (fun r : Usage => r.user_id == u2 && r.date == d2)
          [⟨u, d, 1, 0, 0⟩] = none := by
        rw [List.find?_eq_none]
        intro x hx
        simp only [List.mem_singleton] at hx
        subst hx
        simp only [Bool.and_eq_true, beq_iff_eq]
        intro h
        exact hkey ⟨h.1.symm, h.2.symm⟩
      rw [hnew]
      simp [hkey]

theorem tierLimits_free : tierLimits "free" = some
    { requestsPerDay := 5, maxRoomSize := 8, canCreateGroups := false,
      canDirectMessage := true, maxFriends := 20, priorityVoting := false,
      skipVoteWeight := 1 } := by
  decide

theorem dailyLimitReached_free (s : Store) (userId : String) (date : Nat) :
    dailyLimitReached (tierLimits "free") (usageRow s userId date) =
      if 5 ≤ requestsToday s.usage_tracking userId date then some 5 else none := by
  rw [tierLimits_free]
  unfold dailyLimitReached usageRow requestsToday
  cases s.usage_tracking.find? (fun u => u.user_id == userId && u.date == date) with
  | none => simp
  | some r =>
    simp only [bne_iff_ne, ne_eq]
    by_cases h : 5 ≤ r.song_requests
    · have : ((r.song_requests : Int) ≥ 5) := by omega
      simp [h, this]
    · have : ¬ ((r.song_requests : Int) ≥ 5) := by omega
      simp [h, this]

/-- An add-to-queue call of a free-tier user whose counter of the day has reached 5 is
refused, whatever the body and the room. -/
theorem handleAddToQueue_free_refused (s : Store) (user : User) (roomId : String)
    (c : AddCall) (htier : user.tier = "free")
    (hge : 5 ≤ requestsToday s.usage_tracking user.id (isoDate c.now)) :
    handleAddToQueue s user roomId c.req c.id c.now = (s, .error (.dailyLimitReached 5)) := by
  unfold handleAddToQueue
  simp only [htier, dailyLimitReached_free]
  rw [if_pos hge]

/-- An add-to-queue call with a valid track into an active room, past the daily-limit
test, inserts the item and counts the request. -/
theorem handleAddToQueue_valid (s : Store) (user : User) (roomId : String) (c : AddCall)
    (hlimit : dailyLimitReached (tierLimits user.tier)
      (usageRow s user.id (isoDate c.now)) = none)
    (hreq : validTrack c.req = true)
    (hroom : (s.rooms.find? (fun r => r.id == roomId && r.is_active)).isSome = true) :
    ∃ item, handleAddToQueue s user roomId c.req c.id c.now =
      ({ s with
          queue_items := s.queue_items ++ [item]
          usage_tracking := trackSongRequest s.usage_tracking user.id (isoDate c.now) },
        .ok item) ∧ item.id = c.id ∧ item.room_id = roomId ∧ item.played_at = none := by
  unfold handleAddToQueue
  obtain ⟨room, hroom2⟩ := Option.isSome_iff_exists.mp hroom
  simp only [validTrack, Bool.and_eq_true] at hreq
  simp only [hlimit, hreq.1.1, hreq.1.2, hreq.2, hroom2]
  exact ⟨_, rfl, rfl, rfl, rfl⟩

/-- One add-to-queue call of a free-tier user with a valid track into an active room,
the counter of the day being below 5. -/
theorem handleAddToQueue_free (s : Store) (user : User) (roomId : String) (c : AddCall)
    (htier : user.tier = "free") (hreq : validTrack c.req = true)
    (hroom : (s.rooms.find? (fun r => r.id == roomId && r.is_active)).isSome = true)
    (hlt : requestsToday s.usage_tracking user.id (isoDate c.now) < 5) :
    ∃ item, handleAddToQueue s user roomId c.req c.id c.now =
      ({ s with
          queue_items := s.queue_items ++ [item]
          usage_tracking := trackSongRequest s.usage_tracking user.id (isoDate c.now) },
        .ok item) ∧ item.id = c.id ∧ item.room_id = roomId ∧ item.played_at = none := by
  apply handleAddToQueue_valid s user roomId c _ hreq hroom
  rw [htier, dailyLimitReached_free]
  have h5 : ¬ 5 ≤ requestsToday s.usage_tracking user.id (isoDate c.now) := by omega
  rw [if_neg h5]

theorem enqueueRun_under_quota (user : User) (roomId : String) (d : Nat)
    (htier : user.tier = "free") (cs : List AddCall) :
    ∀ s : Store,
      (s.rooms.find? (fun r => r.id == roomId && r.is_active)).isSome = true →
      (∀ c ∈ cs, validTrack c.req = true ∧ isoDate c.now = d) →
      requestsToday s.usage_tracking user.id d + cs.length ≤ 5 →
      (∀ r ∈ (enqueueRun user roomId s cs).2, ∃ item, r = Response.ok item) ∧
      (enqueueRun user roomId s cs).2.length = cs.length ∧
      requestsToday (enqueueRun user roomId s cs).1.usage_tracking user.id d =
        requestsToday s.usage_tracking user.id d + cs.length ∧
      (∀ d2, d2 ≠ d →
        requestsToday (enqueueRun user roomId s cs).1.usage_tracking user.id d2 =
          requestsToday s.usage_tracking user.id d2) ∧
      (enqueueRun user roomId s cs).1.rooms = s.rooms ∧
      (enqueueRun user roomId s cs).1.queue_items.length =
        s.queue_items.length + cs.length := by
  induction cs with
  | nil =>
    intro s _ _ _
    simp [enqueueRun]
  | cons c cs ih =>
    intro s hroom hvalid hquota
    have hc := hvalid c (List.mem_cons_self c cs)
    simp only [List.length_cons] at hquota
    have hlt : requestsToday s.usage_tracking user.id (isoDate c.now) < 5 := by
      rw [hc.2]; omega
    obtain ⟨item, hstep, -, -, -⟩ :=
      handleAddToQueue_free s user roomId c htier hc.1 hroom hlt
    simp only [enqueueRun, hstep]
    have hcount : requestsToday (trackSongRequest s.usage_tracking user.id (isoDate c.now))
        user.id d = requestsToday s.usage_tracking user.id d + 1 := by
      rw [requestsToday_trackSongRequest, hc.2]
      simp
    have hih := ih { s with
        queue_items := s.queue_items ++ [item]
        usage_tracking := trackSongRequest s.usage_tracking user.id (isoDate c.now) }
      hroom (fun x hx => hvalid x (List.mem_cons_of_mem c hx))
      (by simp only [hcount]; omega)
    obtain ⟨h1, h2, h3, h4, h5, h6⟩ := hih
    refine ⟨?_, ?_, ?_, ?_, ?_, ?_⟩
    · intro r hr
      rcases List.mem_cons.mp hr with h | h
      · exact ⟨item, h⟩
      · exact h1 r h
    · simp [h2]
    · rw [h3, hcount, List.length_cons]; omega
    · intro d2 hd2
      rw [h4 d2 hd2, requestsToday_trackSongRequest, hc.2]
      simp [hd2]
    · rw [h5]
    · rw [h6]; simp; omega

/-- C8: a free-tier user (daily limit 5) with no usage row for day `d` nor for the day
after, and any five add-to-queue calls on day `d` into an active room, each with a valid
track (non-empty title and artist, and every key that the INSERT binds present in the
body): all five succeed and add five queue items; any further call on day `d`, whatever
its body, is refused with the daily-limit error naming the limit 5 and leaves the store
(hence `queue_items`) unchanged; and a call with a valid track made on day `d + 1`
succeeds, adding its item. -/
theorem C8_quota_boundary (s : Store) (user : User) (roomId : String) (d : Nat)
    (cs : List AddCall) (c6 c7 : AddCall) (htier : user.tier = "free")
    (hroom : (s.rooms.find? (fun r => r.id == roomId && r.is_active)).isSome = true)
    (hnone : usageRow s user.id d = none) (hnext : usageRow s user.id (d + 1) = none)
    (hlen : cs.length = 5)
    (hvalid : ∀ c ∈ cs, validTrack c.req = true ∧ isoDate c.now = d)
    (h6 : isoDate c6.now = d)
    (h7 : validTrack c7.req = true ∧ isoDate c7.now = d + 1) :
    (∀ r ∈ (enqueueRun user roomId s cs).2, ∃ item, r = Response.ok item) ∧
    (enqueueRun user roomId s cs).2.length = 5 ∧
    (enqueueRun user roomId s cs).1.queue_items.length = s.queue_items.length + 5 ∧
    handleAddToQueue (enqueueRun user roomId s cs).1 user roomId c6.req c6.id c6.now =
      ((enqueueRun user roomId s cs).1, .error (.dailyLimitReached 5)) ∧
    ∃ item, handleAddToQueue (enqueueRun user roomId s cs).1 user roomId c7.req c7.id c7.now
      = ({ (enqueueRun user roomId s cs).1 with
            queue_items := (enqueueRun user roomId s cs).1.queue_items ++ [item]
            usage_tracking := trackSongRequest
              (enqueueRun user roomId s cs).1.usage_tracking user.id (d + 1) },
          .ok item) := by
  have h0 : requestsToday s.usage_tracking user.id d = 0 := by
    unfold usageRow at hnone
    simp [requestsToday, hnone]
  have h1 : requestsToday s.usage_tracking user.id (d + 1) = 0 := by
    unfold usageRow at hnext
    simp [requestsToday, hnext]
  obtain ⟨hok, hl, hcount, hother, hrooms, hitems⟩ :=
    enqueueRun_under_quota user roomId d htier cs s hroom hvalid (by omega)
  have hroom2 : ((enqueueRun user roomId s cs).1.rooms.find?
      (fun r => r.id == roomId && r.is_active)).isSome = true := by
    rw [hrooms]; exact hroom
  refine ⟨hok, by rw [hl, hlen], by rw [hitems, hlen], ?_, ?_⟩
  · apply handleAddToQueue_free_refused _ user roomId c6 htier
    rw [h6, hcount, h0, hlen]
  · have hlt : requestsToday (enqueueRun user roomId s cs).1.usage_tracking user.id
        (isoDate c7.now) < 5 := by
      rw [h7.2, hother (d + 1) (by omega), h1]
      omega
    obtain ⟨item, hstep, -⟩ :=
      handleAddToQueue_free _ user roomId c7 htier h7.1 hroom2 hlt
    rw [h7.2] at hstep
    exact ⟨item, hstep⟩

/-- C8 witness: carol (free, no usage row) makes the five calls of `fiveCalls` into room
`r1` of `store1` on day 0; a sixth call on day 0 and a call on day 1 follow, both with
the valid track `fullBody "F" "X"`. -/
theorem C8_quota_boundary_witness :
    (enqueueRun carol "r1" store1 fiveCalls).2.length = 5 ∧
    handleAddToQueue (enqueueRun carol "r1" store1 fiveCalls).1 carol "r1"
        (fullBody "F" "X") "a6" 6000 =
      ((enqueueRun carol "r1" store1 fiveCalls).1, .error (.dailyLimitReached 5)) ∧
    ∃ item, handleAddToQueue (enqueueRun carol "r1" store1 fiveCalls).1 carol "r1"
        (fullBody "F" "X") "a6" 86400000 =
      ({ (enqueueRun carol "r1" store1 fiveCalls).1 with
          queue_items := (enqueueRun carol "r1" store1 fiveCalls).1.queue_items ++ [item]
          usage_tracking := trackSongRequest
            (enqueueRun carol "r1" store1 fiveCalls).1.usage_tracking carol.id (0 + 1) },
        .ok item) :=
  have h := C8_quota_boundary store1 carol "r1" 0 fiveCalls
    { req := fullBody "F" "X", id := "a6", now := 6000 }
    { req := fullBody "F" "X", id := "a6", now := 86400000 }
    (by decide) (by decide) (by decide) (by decide) (by decide) (by decide) (by decide)
    (by decide)
  ⟨h.2.1, h.2.2.2.1, h.2.2.2.2⟩

/-- C9: for every tier whose `requestsPerDay` is the sentinel -1, whatever the usage row
of today holds: the daily-limit test does not refuse, no add-to-queue call of such a
user, whatever its body and room, is answered with the daily-limit error, and a call
with a valid track (non-empty title and artist, every bound key present) into an active
room succeeds, adding the item and counting the request. -/
theorem C9_unlimited_quota (s : Store) (user : User) (roomId : String) (c : AddCall)
    (l : TierLimits) (hl : tierLimits user.tier = some l) (hun : l.requestsPerDay = -1) :
    (∀ usage : Option Usage, dailyLimitReached (tierLimits user.tier) usage = none) ∧
    (∀ n, (handleAddToQueue s user roomId c.req c.id c.now).2 ≠
      .error (.dailyLimitReached n)) ∧
    (validTrack c.req = true →
      (s.rooms.find? (fun r => r.id == roomId && r.is_active)).isSome = true →
      ∃ item, handleAddToQueue s user roomId c.req c.id c.now =
        ({ s with
            queue_items := s.queue_items ++ [item]
            usage_tracking := trackSongRequest s.usage_tracking user.id (isoDate c.now) },
          .ok item)) := by
  have hlim : ∀ usage : Option Usage,
      dailyLimitReached (tierLimits user.tier) usage = none := by
    intro usage
    rw [hl]
    simp [dailyLimitReached, hun]
  refine ⟨hlim, ?_, ?_⟩
  · intro n
    unfold handleAddToQueue
    simp only [hlim]
    split
    · simp
    · split
      · simp
      · split <;> simp
  · intro hreq hroom
    obtain ⟨item, hstep, -⟩ :=
      handleAddToQueue_valid s user roomId c (hlim _) hreq hroom
    exact ⟨item, hstep⟩

/-- C9 witness: dana (dj_pro) has already made 1000 requests today in `store7`; one more
call, with the valid track `fullBody "A" "X"`, is not answered with the daily-limit error
and queues the track. -/
theorem C9_unlimited_quota_witness :
    (tierLimits dana.tier = some
        { requestsPerDay := -1, maxRoomSize := 200, canCreateGroups := true,
          canDirectMessage := true, maxFriends := -1, priorityVoting := true,
          skipVoteWeight := 3 } ∧
      requestsToday store7.usage_tracking dana.id (isoDate 1000) = 1000) ∧
    (∀ n, (handleAddToQueue store7 dana "r1" (fullBody "A" "X") "a1" 1000).2 ≠
      .error (.dailyLimitReached n)) ∧
    ∃ item, handleAddToQueue store7 dana "r1" (fullBody "A" "X") "a1" 1000 =
      ({ store7 with
          queue_items := store7.queue_items ++ [item]
          usage_tracking := trackSongRequest store7.usage_tracking dana.id (isoDate 1000) },
        .ok item) :=
  have h := C9_unlimited_quota store7 dana "r1"
    { req := fullBody "A" "X", id := "a1", now := 1000 }
    { requestsPerDay := -1, maxRoomSize := 200, canCreateGroups := true,
      canDirectMessage := true, maxFriends := -1, priorityVoting := true,
      skipVoteWeight := 3 }
    (by decide) (by decide)
  ⟨⟨by decide, by decide⟩, h.2.1, h.2.2 (by decide) (by decide)⟩

/-! ## C10: the weight of a vote -/

theorem handleVote_votes (s : Store) (user : User) (roomId : String) (req : VoteRequest)
    (id : String) (now : Nat) (v : Vote)
    (hv : v ∈ (handleVote s user roomId req id now).1.votes) :
    v ∈ s.votes ∨ ∃ qid vt, req = { queueItemId := some qid, voteType := some vt } ∧
      v = newVote user qid vt id := by
  unfold handleVote at hv
  split at hv
  · rename_i qid vt hq hvt
    split at hv
    · exact Or.inl hv
    · have hreq : req = { queueItemId := some qid, voteType := some vt } := by
        cases req
        simp_all
      have hrec : ∀ x ∈ recordVote s.votes id qid user.id vt
          (voteWeight (tierLimits user.tier)), x ∈ s.votes ∨ x = newVote user qid vt id := by
        intro x hx
        simp only [recordVote, deleteVote, List.mem_append, List.mem_filter,
          List.mem_singleton] at hx
        rcases hx with h | h
        · exact Or.inl h.1
        · exact Or.inr h
      simp only at hv
      split at hv
      · simp only [clearVotes, List.mem_filter] at hv
        rcases hrec v hv.1 with h | h
        · exact Or.inl h
        · exact Or.inr ⟨qid, vt, hreq, h⟩
      · rcases hrec v hv with h | h
        · exact Or.inl h
        · exact Or.inr ⟨qid, vt, hreq, h⟩
  · exact Or.inl hv

theorem step_votes_of_not_vote (s : Store) (user : User) (now : Nat) (req : Request)
    (hreq : ∀ roomId r id, req ≠ .vote roomId r id) :
    (step s user now req).votes = s.votes := by
  cases req with
  | createRoom name id code =>
    simp only [step, handleCreateRoom]
    split
    · rfl
    · split <;> rfl
  | joinRoom code =>
    simp only [step, handleJoinRoom]
    split
    · rfl
    · split
      · rfl
      · split
        · rfl
        · split <;> rfl
  | getRoom roomId => rfl
  | leaveRoom roomId =>
    simp only [step, handleLeaveRoom]
    split <;> rfl
  | addToQueue roomId r id =>
    simp only [step, handleAddToQueue]
    split
    · rfl
    · split
      · rfl
      · split
        · rfl
        · split <;> rfl
  | vote roomId r id => exact absurd rfl (hreq roomId r id)
  | skipVote roomId queueItemId =>
    simp only [step, handleSkipVote]
    split <;> rfl
  | playNext roomId =>
    simp only [step, handlePlayNext]
    split
    · rfl
    · split <;> rfl

/-- C10: (a) for every well-formed vote, the row `handleVote` writes for (item, voter)
carries the weight computed from the voter's tier at the time of the call: the tier's
`skipVoteWeight` when the tier has `priorityVoting`, and 1 otherwise; every row of
(item, voter) in the store after the call has that weight, and the row is in the store
unless the call auto-skipped; (b) the weight is 1 for free, 2 for premium, 3 for dj_pro
and 5 for venue; (c) no request served later, whatever tier its caller then has, alters a
vote row: every row of `votes` after a request is a row that was there before, unchanged,
or the row written by that very vote request. -/
theorem C10_vote_weight :
    (∀ (s : Store) (user : User) (roomId qid vt id : String) (now : Nat),
      qid ≠ "" → (vt = "up" ∨ vt = "down") →
      (newVote user qid vt id).weight =
          (match tierLimits user.tier with
            | some l => if l.priorityVoting then l.skipVoteWeight else 1
            | none => 1) ∧
        newVote user qid vt id ∈ recorded s user qid vt id ∧
        (∀ v ∈ votesOf (handleVote s user roomId
            { queueItemId := some qid, voteType := some vt } id now).1.votes qid user.id,
          v = newVote user qid vt id) ∧
        (∀ resp, (handleVote s user roomId
            { queueItemId := some qid, voteType := some vt } id now).2 = .ok resp →
          resp.skipped = false →
          newVote user qid vt id ∈ (handleVote s user roomId
            { queueItemId := some qid, voteType := some vt } id now).1.votes)) ∧
    (voteWeight (tierLimits "free") = 1 ∧ voteWeight (tierLimits "premium") = 2 ∧
      voteWeight (tierLimits "dj_pro") = 3 ∧ voteWeight (tierLimits "venue") = 5) ∧
    (∀ (s : Store) (user : User) (now : Nat) (req : Request),
      ∀ v ∈ (step s user now req).votes,
        v ∈ s.votes ∨ ∃ roomId qid vt id,
          req = .vote roomId { queueItemId := some qid, voteType := some vt } id ∧
          v = newVote user qid vt id) := by
  refine ⟨?_, by decide, ?_⟩
  · intro s user roomId qid vt id now hq hv
    refine ⟨rfl, by rw [recorded_eq]; simp, ?_, ?_⟩
    · intro v hmem
      rw [handleVote_valid s user roomId qid vt id now hq hv] at hmem
      split at hmem
      · simp [votesOf_clearVotes] at hmem
      · simpa [votesOf_recorded] using hmem
    · intro resp hresp hskip
      rw [handleVote_valid s user roomId qid vt id now hq hv] at hresp ⊢
      split at hresp
      · simp only [Response.ok.injEq] at hresp
        rw [← hresp] at hskip
        simp at hskip
      · rename_i hno
        rw [if_neg hno, recorded_eq]
        simp
  · intro s user now req v hv
    by_cases hreq : ∃ roomId r id, req = .vote roomId r id
    · obtain ⟨roomId, r, id, rfl⟩ := hreq
      rcases handleVote_votes s user roomId r id now v hv with h | ⟨qid, vt, hr, hnew⟩
      · exact Or.inl h
      · exact Or.inr ⟨roomId, qid, vt, id, by rw [hr], hnew⟩
    · rw [step_votes_of_not_vote s user now req
        (fun roomId r id h => hreq ⟨roomId, r, id, h⟩)] at hv
      exact Or.inl hv

/-- C10 witness: bob (premium) votes `q1` up in `store2`; his row has weight 2. -/
theorem C10_vote_weight_witness :
    ("q1" ≠ "" ∧ ("up" = "up" ∨ "up" = "down")) ∧
    (newVote bob "q1" "up" "v1").weight = 2 ∧
    newVote bob "q1" "up" "v1" ∈ (handleVote store2 bob "r1"
      { queueItemId := some "q1", voteType := some "up" } "v1" 20000).1.votes :=
  ⟨⟨by decide, by decide⟩, by decide,
    (C10_vote_weight.1 store2 bob "r1" "q1" "up" "v1" 20000 (by decide)
      (by decide)).2.2.2 _ rfl rfl⟩

/-! ## C11: the skip threshold -/

/-- The definition `specSkipThreshold` is the ceiling of `n * 0.5`. -/
theorem specSkipThreshold_eq_ceil (n : Nat) :
    specSkipThreshold n = ⌈(n : ℚ) * (1 / 2)⌉₊ := by
  unfold specSkipThreshold
  rcases Nat.even_or_odd' n with ⟨k, hk | hk⟩
  · have h1 : (n + 1) / 2 = k := by omega
    have h2 : (n : ℚ) * (1 / 2) = (k : ℚ) := by
      subst hk
      push_cast
      ring
    rw [h1, h2, Nat.ceil_natCast]
  · have h1 : (n + 1) / 2 = k + 1 := by omega
    rw [h1]
    symm
    rw [Nat.ceil_eq_iff (by omega)]
    subst hk
    push_cast
    constructor <;> norm_num <;> linarith

theorem skipThreshold_eq (n : Nat) :
    skipThreshold n = if n = 0 then 1 else specSkipThreshold n := by
  unfold skipThreshold specSkipThreshold
  split <;> simp_all

/-- On every input `handleSkipVote` answers with the count after the insert, the
threshold of the current member count, and their comparison. -/
theorem handleSkipVote_response (s : Store) (user : User) (roomId queueItemId : String)
    (now : Nat) :
    (handleSkipVote s user roomId queueItemId now).2 =
      .ok { skipCount := skipCount (insertSkipVote s.skip_votes roomId user.id queueItemId)
              roomId queueItemId
            threshold := skipThreshold (memberCount s roomId)
            skipped := decide (skipCount
              (insertSkipVote s.skip_votes roomId user.id queueItemId) roomId queueItemId
                ≥ skipThreshold (memberCount s roomId)) } := by
  unfold handleSkipVote
  simp only
  split <;> rfl

/-- C11 (as stated, refuted): room `r1` of `store8` has no member (n = 0), and the
specification threshold `ceil(0 * 0.5)` is 0; yet bob's skip vote on `q1` reports, and
is decided against, the threshold 1. -/
theorem C11_counterexample :
    memberCount store8 "r1" = 0 ∧ specSkipThreshold 0 = 0 ∧
    (handleSkipVote store8 bob "r1" "q1" 7000).2 =
      .ok { skipCount := 1, threshold := 1, skipped := true } := by
  decide

/-- C11 (amended): for every store, room id and caller, `handleSkipVote` uses and
reports the threshold `ceil(n * 0.5)` of the current member count `n` of the room when
`n >= 1`, and the threshold 1 when `n = 0` (a zero count is replaced by 1); `skipped` is
the comparison of the skip count with that threshold; for 4 members the threshold is 2.
The `skipThreshold` field of the room snapshot follows the same rule. -/
theorem C11_skip_threshold (s : Store) (user : User) (roomId queueItemId : String)
    (now : Nat) :
    (∃ resp, (handleSkipVote s user roomId queueItemId now).2 = .ok resp ∧
      resp.threshold = (if memberCount s roomId = 0 then 1
        else ⌈(memberCount s roomId : ℚ) * (1 / 2)⌉₊) ∧
      resp.skipped = decide (resp.skipCount ≥ resp.threshold) ∧
      (memberCount s roomId = 4 → resp.threshold = 2)) ∧
    (∀ snap, handleGetRoom s user roomId = .ok snap →
      snap.skipThreshold = (if memberCount s snap.room.id = 0 then 1
        else ⌈(memberCount s snap.room.id : ℚ) * (1 / 2)⌉₊)) := by
  constructor
  · refine ⟨_, handleSkipVote_response s user roomId queueItemId now, ?_, rfl, ?_⟩
    · simp only [skipThreshold_eq, specSkipThreshold_eq_ceil]
    · intro h4
      simp only [h4]
      decide
  · intro snap hsnap
    unfold handleGetRoom at hsnap
    split at hsnap
    · simp at hsnap
    · simp only [Response.ok.injEq] at hsnap
      rw [← hsnap]
      simp only [List.length_insertionSort, skipThreshold_eq, specSkipThreshold_eq_ceil,
        memberCount]

/-- C11 witness: dana's skip vote in the four-member room `r1` of `store9`. -/
theorem C11_skip_threshold_witness :
    memberCount store9 "r1" = 4 ∧
    ∃ resp, (handleSkipVote store9 dana "r1" "q1" 30000).2 = .ok resp ∧
      resp.threshold = (if memberCount store9 "r1" = 0 then 1
        else ⌈(memberCount store9 "r1" : ℚ) * (1 / 2)⌉₊) ∧
      resp.skipped = decide (resp.skipCount ≥ resp.threshold) ∧
      (memberCount store9 "r1" = 4 → resp.threshold = 2) :=
  ⟨by decide, (C11_skip_threshold store9 dana "r1" "q1" 30000).1⟩

/-! ## C12: evaluation of a skip vote -/

/-- Statement `DELETE FROM skip_votes WHERE room_id = ? AND queue_item_id = ?` leaves no
row of the pair. -/
theorem skipCount_filter_not (skips : List SkipVote) (roomId qid : String) :
    skipCount (skips.filter (fun v => !(v.room_id == roomId && v.queue_item_id == qid)))
      roomId qid = 0 := by
  simp only [skipCount, List.filter_filter, List.length_eq_zero, List.filter_eq_nil_iff]
  intro v _
  simp

theorem mem_insertSkipVote (skips : List SkipVote) (roomId userId qid : String) :
    ∃ v ∈ insertSkipVote skips roomId userId qid,
      v.room_id = roomId ∧ v.user_id = userId ∧ v.queue_item_id = qid := by
  unfold insertSkipVote
  split
  · rename_i h
    obtain ⟨v, hv, hp⟩ := List.any_eq_true.mp h
    simp only [Bool.and_eq_true, beq_iff_eq] at hp
    exact ⟨v, hv, hp.1.1, hp.1.2, hp.2⟩
  · exact ⟨_, List.mem_append_right _ (List.mem_singleton.mpr rfl), rfl, rfl, rfl⟩

theorem skipCount_insertSkipVote_pos (skips : List SkipVote) (roomId userId qid : String) :
    0 < skipCount (insertSkipVote skips roomId userId qid) roomId qid := by
  obtain ⟨v, hv, h1, _, h3⟩ := mem_insertSkipVote skips roomId userId qid
  unfold skipCount
  apply List.length_pos_of_mem (a := v)
  simp [List.mem_filter, hv, h1, h3]

theorem filter_insertSkipVote (skips : List SkipVote) (roomId userId qid : String) :
    (insertSkipVote skips roomId userId qid).filter
        (fun v => !(v.room_id == roomId && v.queue_item_id == qid)) =
      skips.filter (fun v => !(v.room_id == roomId && v.queue_item_id == qid)) := by
  unfold insertSkipVote
  split
  · rfl
  · simp [List.filter_append]

/-- A user without a row of the pair adds one to the count of the pair. -/
theorem skipCount_insertSkipVote_new (skips : List SkipVote) (roomId userId qid : String)
    (hnew : ∀ v ∈ skips, v.room_id = roomId → v.queue_item_id = qid → v.user_id ≠ userId) :
    skipCount (insertSkipVote skips roomId userId qid) roomId qid =
      skipCount skips roomId qid + 1 := by
  unfold insertSkipVote
  have hany : ¬ skips.any (fun v => v.room_id == roomId && v.user_id == userId &&
      v.queue_item_id == qid) = true := by
    intro h
    obtain ⟨v, hv, hp⟩ := List.any_eq_true.mp h
    simp only [Bool.and_eq_true, beq_iff_eq] at hp
    exact hnew v hv hp.1.1 hp.2 hp.1.2
  rw [if_neg hany]
  simp [skipCount, List.filter_append]

/-- C12: for every store, room id, item id and caller, with `count` the number of
skip-vote rows of (room, item) once the caller's row is recorded and `threshold` the
threshold of the current member count: the response reports `count`, `threshold` and
their comparison; every queue item with that id is stamped played at `now` and no
skip-vote row of (room, item) is left if and only if `count >= threshold`; in that case
nothing else changes; otherwise only the recorded skip vote is added to the store.  In a
room of 4 members with no skip vote yet on the item, the first skip vote reports 1 of 2
and changes no queue item, and the next one, by another user, reports 2 of 2, stamps the
item and leaves no skip-vote row of (room, item). -/
theorem C12_skip_evaluation (s : Store) (user : User) (roomId qid : String) (now : Nat) :
    let count := skipCount (insertSkipVote s.skip_votes roomId user.id qid) roomId qid
    let threshold := skipThreshold (memberCount s roomId)
    let r := handleSkipVote s user roomId qid now
    r.2 = .ok { skipCount := count, threshold := threshold,
                skipped := decide (count ≥ threshold) } ∧
    (((∀ q ∈ r.1.queue_items, q.id = qid → q.played_at = some now) ∧
        skipCount r.1.skip_votes roomId qid = 0) ↔ count ≥ threshold) ∧
    (count ≥ threshold →
      r.1 = { s with
              queue_items := s.queue_items.map
                (fun q => if q.id == qid then { q with played_at := some now } else q)
              skip_votes := s.skip_votes.filter
                (fun v => !(v.room_id == roomId && v.queue_item_id == qid)) }) ∧
    (¬ count ≥ threshold →
      r.1 = { s with skip_votes := insertSkipVote s.skip_votes roomId user.id qid }) ∧
    (memberCount s roomId = 4 → skipCount s.skip_votes roomId qid = 0 →
      ∀ (user2 : User) (now2 : Nat), user2.id ≠ user.id →
        r.2 = .ok { skipCount := 1, threshold := 2, skipped := false } ∧
        r.1.queue_items = s.queue_items ∧
        (handleSkipVote r.1 user2 roomId qid now2).2 =
          .ok { skipCount := 2, threshold := 2, skipped := true } ∧
        (∀ q ∈ (handleSkipVote r.1 user2 roomId qid now2).1.queue_items,
          q.id = qid → q.played_at = some now2) ∧
        skipCount (handleSkipVote r.1 user2 roomId qid now2).1.skip_votes roomId qid = 0) := by
  intro count threshold r
  have hresp : r.2 =
      .ok { skipCount := count, threshold := threshold, skipped := decide (count ≥ threshold) } :=
    handleSkipVote_response s user roomId qid now
  have hyes : count ≥ threshold →
      r.1 = { s with
              queue_items := markPlayed s.queue_items qid now
              skip_votes := s.skip_votes.filter
                (fun v => !(v.room_id == roomId && v.queue_item_id == qid)) } := by
    intro h
    show (handleSkipVote s user roomId qid now).1 = _
    unfold handleSkipVote
    simp only
    rw [if_pos (by simpa using h), filter_insertSkipVote]
  have hno : ¬ count ≥ threshold →
      r.1 = { s with skip_votes := insertSkipVote s.skip_votes roomId user.id qid } := by
    intro h
    show (handleSkipVote s user roomId qid now).1 = _
    unfold handleSkipVote
    simp only
    rw [if_neg (by simpa using h)]
  have hplayed : ∀ (t : Store) (u : User) (n : Nat),
      skipCount (insertSkipVote t.skip_votes roomId u.id qid) roomId qid
        ≥ skipThreshold (memberCount t roomId) →
      (∀ q ∈ (handleSkipVote t u roomId qid n).1.queue_items,
        q.id = qid → q.played_at = some n) ∧
      skipCount (handleSkipVote t u roomId qid n).1.skip_votes roomId qid = 0 := by
    intro t u n h
    unfold handleSkipVote
    simp only
    rw [if_pos (by simpa using h)]
    exact ⟨fun q hq hid => mem_markPlayed_played _ _ _ q hq hid,
      skipCount_filter_not _ roomId qid⟩
  refine ⟨hresp, ⟨fun h => ?_, fun h => hplayed s user now h⟩, hyes, hno, ?_⟩
  · by_contra hlt
    have hcount := h.2
    rw [hno hlt] at hcount
    have := skipCount_insertSkipVote_pos s.skip_votes roomId user.id qid
    simp only at hcount
    omega
  · intro h4 h0 user2 now2 hne
    have hempty : ∀ v ∈ s.skip_votes, v.room_id = roomId → v.queue_item_id = qid → False := by
      intro v hv h1 h2
      have hmem : v ∈ s.skip_votes.filter
          (fun v => v.room_id == roomId && v.queue_item_id == qid) := by
        simp [List.mem_filter, hv, h1, h2]
      unfold skipCount at h0
      rw [List.length_eq_zero.mp h0] at hmem
      simp at hmem
    have hc1 : count = 1 := by
      show skipCount (insertSkipVote s.skip_votes roomId user.id qid) roomId qid = 1
      rw [skipCount_insertSkipVote_new _ _ _ _
        (fun v hv h1 h2 => (hempty v hv h1 h2).elim), h0]
    have ht : threshold = 2 := by
      show skipThreshold (memberCount s roomId) = 2
      rw [h4]
      decide
    have hlt : ¬ count ≥ threshold := by omega
    have hr1 := hno hlt
    have hins : insertSkipVote s.skip_votes roomId user.id qid = s.skip_votes ++
        [{ room_id := roomId, user_id := user.id, queue_item_id := qid }] := by
      unfold insertSkipVote
      rw [if_neg]
      intro h
      obtain ⟨v, hv, hp⟩ := List.any_eq_true.mp h
      simp only [Bool.and_eq_true, beq_iff_eq] at hp
      exact hempty v hv hp.1.1 hp.2
    have hc2 : skipCount (insertSkipVote r.1.skip_votes roomId user2.id qid) roomId qid
        = 2 := by
      have hnew2 : ∀ v ∈ insertSkipVote s.skip_votes roomId user.id qid,
          v.room_id = roomId → v.queue_item_id = qid → v.user_id ≠ user2.id := by
        intro v hv h1 h2
        rw [hins, List.mem_append, List.mem_singleton] at hv
        rcases hv with hv | hv
        · exact (hempty v hv h1 h2).elim
        · rw [hv]
          exact fun h => hne h.symm
      rw [hr1]
      simp only
      rw [skipCount_insertSkipVote_new _ _ _ _ hnew2]
      show count + 1 = 2
      omega
    have hm2 : skipThreshold (memberCount r.1 roomId) = 2 := by
      rw [hr1]
      exact ht
    have hresp2 := handleSkipVote_response r.1 user2 roomId qid now2
    rw [hc2, hm2] at hresp2
    have hp2 := hplayed r.1 user2 now2 (by rw [hc2, hm2])
    refine ⟨?_, by rw [hr1], hresp2, hp2.1, hp2.2⟩
    rw [hresp, hc1, ht]
    rfl

/-- C12 witness: in the four-member room `r1` of `store9`, with `q1` playing, alice votes
to skip and then bob does. -/
theorem C12_skip_evaluation_witness :
    (memberCount store9 "r1" = 4 ∧ skipCount store9.skip_votes "r1" "q1" = 0 ∧
      bob.id ≠ alice.id) ∧
    (handleSkipVote store9 alice "r1" "q1" 30000).2 =
      .ok { skipCount := 1, threshold := 2, skipped := false } ∧
    (handleSkipVote store9 alice "r1" "q1" 30000).1.queue_items = store9.queue_items ∧
    (handleSkipVote (handleSkipVote store9 alice "r1" "q1" 30000).1 bob "r1" "q1" 31000).2 =
      .ok { skipCount := 2, threshold := 2, skipped := true } ∧
    (∀ q ∈ (handleSkipVote (handleSkipVote store9 alice "r1" "q1" 30000).1
        bob "r1" "q1" 31000).1.queue_items, q.id = "q1" → q.played_at = some 31000) ∧
    skipCount (handleSkipVote (handleSkipVote store9 alice "r1" "q1" 30000).1
      bob "r1" "q1" 31000).1.skip_votes "r1" "q1" = 0 :=
  ⟨⟨by decide, by decide, by decide⟩,
    (C12_skip_evaluation store9 alice "r1" "q1" 30000).2.2.2.2 (by decide) (by decide)
      bob 31000 (by decide)⟩

/-! ## C13: repeated and tier-independent skip votes -/

theorem insertSkipVote_of_held (skips : List SkipVote) (roomId userId qid : String)
    (hheld : ∃ v ∈ skips, v.room_id = roomId ∧ v.user_id = userId ∧ v.queue_item_id = qid) :
    insertSkipVote skips roomId userId qid = skips := by
  unfold insertSkipVote
  rw [if_pos]
  obtain ⟨v, hv, h1, h2, h3⟩ := hheld
  exact List.any_eq_true.mpr ⟨v, hv, by simp [h1, h2, h3]⟩

/-- C13: when the user already holds a skip vote for (room, item) and the count is below
the threshold, a repeated `handleSkipVote` by that user returns the store unchanged and
reports the count of the rows already there, with `skipped` false; and the outcome of
`handleSkipVote` (store, count, threshold and skip decision) does not depend on the tier
of the caller. -/
theorem C13_skip_vote_idempotent_unweighted (s : Store) (user : User) (roomId qid : String)
    (now : Nat)
    (hheld : ∃ v ∈ s.skip_votes,
      v.room_id = roomId ∧ v.user_id = user.id ∧ v.queue_item_id = qid)
    (hbelow : skipCount s.skip_votes roomId qid < skipThreshold (memberCount s roomId)) :
    handleSkipVote s user roomId qid now =
      (s, .ok { skipCount := skipCount s.skip_votes roomId qid
                threshold := skipThreshold (memberCount s roomId)
                skipped := false }) ∧
    (∀ (t : Store) (userId tier1 tier2 room item : String) (n : Nat),
      handleSkipVote t { id := userId, tier := tier1 } room item n =
        handleSkipVote t { id := userId, tier := tier2 } room item n) := by
  constructor
  · unfold handleSkipVote
    simp only [insertSkipVote_of_held s.skip_votes roomId user.id qid hheld]
    have hnot : ¬ skipCount s.skip_votes roomId qid ≥ skipThreshold (memberCount s roomId) := by
      omega
    simp [hnot]
  · intro t userId tier1 tier2 room item n
    rfl

/-- C13 witness: alice, who has already voted to skip `q1` in `store10`, votes again. -/
theorem C13_skip_vote_idempotent_unweighted_witness :
    ((∃ v ∈ store10.skip_votes,
        v.room_id = "r1" ∧ v.user_id = alice.id ∧ v.queue_item_id = "q1") ∧
      skipCount store10.skip_votes "r1" "q1" < skipThreshold (memberCount store10 "r1")) ∧
    handleSkipVote store10 alice "r1" "q1" 31000 =
      (store10, .ok { skipCount := 1, threshold := 2, skipped := false }) :=
  ⟨⟨by decide, by decide⟩,
    (C13_skip_vote_idempotent_unweighted store10 alice "r1" "q1" 31000 (by decide)
      (by decide)).1⟩

/-! ## C14: which item a skip vote can mark played -/

/-- C14 (as stated, refuted): in `store11` nothing has been played (neither room has a
now-playing item) and `q2` is queued in room `r1`; bob, the only member of room `r2`,
sends a skip vote for `q2` to room `r2`: the threshold 1 of `r2` is met and `q2`, a queued
item of the other room, is stamped played. -/
theorem C14_counterexample :
    nowPlaying store11 "r1" = none ∧ nowPlaying store11 "r2" = none ∧
    (∃ q ∈ store11.queue_items, q.id = "q2" ∧ q.room_id = "r1" ∧ q.played_at = none) ∧
    (handleSkipVote store11 bob "r2" "q2" 7000).2 =
      .ok { skipCount := 1, threshold := 1, skipped := true } ∧
    (∀ q ∈ (handleSkipVote store11 bob "r2" "q2" 7000).1.queue_items,
      q.id = "q2" → q.room_id = "r1" ∧ q.played_at = some 7000) := by
  decide

/-- C14 (amended): `handleSkipVote` selects the item by the `queueItemId` of the request
alone.  For every store and request, the `queue_items` table after the call is the table
before it with `played_at` set to `now` on the rows whose id is `queueItemId`, if the skip
count of (roomId, queueItemId) reaches the threshold, and is unchanged otherwise; so rows
with another id never change, and when the call answers `skipped: true` every row with
that id is stamped, whatever its room and whether or not it had been played. -/
theorem C14_skip_marks_by_item_id (s : Store) (user : User) (roomId qid : String)
    (now : Nat) :
    (handleSkipVote s user roomId qid now).1.queue_items =
      s.queue_items.map (fun q =>
        if q.id = qid ∧ skipCount (insertSkipVote s.skip_votes roomId user.id qid) roomId qid
            ≥ skipThreshold (memberCount s roomId)
        then { q with played_at := some now } else q) ∧
    (∀ resp, (handleSkipVote s user roomId qid now).2 = .ok resp → resp.skipped = true →
      ∀ q ∈ s.queue_items, q.id = qid →
        { q with played_at := some now } ∈ (handleSkipVote s user roomId qid now).1.queue_items)
    := by
  have hitems : (handleSkipVote s user roomId qid now).1.queue_items =
      s.queue_items.map (fun q =>
        if q.id = qid ∧ skipCount (insertSkipVote s.skip_votes roomId user.id qid) roomId qid
            ≥ skipThreshold (memberCount s roomId)
        then { q with played_at := some now } else q) := by
    unfold handleSkipVote
    simp only
    split
    · rename_i h
      have h2 : skipCount (insertSkipVote s.skip_votes roomId user.id qid) roomId qid
          ≥ skipThreshold (memberCount s roomId) := by simpa using h
      simp only [markPlayed, h2, and_true, beq_iff_eq]
    · rename_i h
      have h2 : ¬ skipCount (insertSkipVote s.skip_votes roomId user.id qid) roomId qid
          ≥ skipThreshold (memberCount s roomId) := by simpa using h
      simp only [h2, and_false, if_false, List.map_id']
  refine ⟨hitems, ?_⟩
  intro resp hresp hskipped q hq hid
  rw [handleSkipVote_response] at hresp
  simp only [Response.ok.injEq] at hresp
  rw [← hresp] at hskipped
  simp only [decide_eq_true_eq] at hskipped
  rw [hitems, List.mem_map]
  exact ⟨q, hq, by rw [if_pos ⟨hid, hskipped⟩]⟩

/-- C14 witness: bob's skip vote for `q2` sent to room `r2` in `store11`. -/
theorem C14_skip_marks_by_item_id_witness :
    ({ id := "q2", room_id := "r1", added_by := "u2", title := "B", artist := "Y",
        played_at := none, created_at := 5 } : QueueItem) ∈ store11.queue_items ∧
    ({ id := "q2", room_id := "r1", added_by := "u2", title := "B", artist := "Y",
        played_at := some 7000, created_at := 5 } : QueueItem) ∈
      (handleSkipVote store11 bob "r2" "q2" 7000).1.queue_items :=
  ⟨by decide,
    (C14_skip_marks_by_item_id store11 bob "r2" "q2" 7000).2 _ rfl rfl
      { id := "q2", room_id := "r1", added_by := "u2", title := "B", artist := "Y",
        played_at := none, created_at := 5 } (by decide) rfl⟩

/-! ## C15, C16 and C17: handlePlayNext -/

/-- C15: for every store and room id, a caller who is not the `host_id` of the `rooms`
row with that id gets the error 'Only host can control playback' (status 403), and the
store is returned unchanged. -/
theorem C15_play_next_requires_host (s : Store) (user : User) (roomId : String) (now : Nat)
    (hnot : ∀ r ∈ s.rooms, r.id = roomId → r.host_id ≠ user.id) :
    handlePlayNext s user roomId now = (s, .error .onlyHost) ∧
    ApiError.status .onlyHost = 403 := by
  refine ⟨?_, rfl⟩
  unfold handlePlayNext
  simp only
  rw [if_pos]
  cases hfind : s.rooms.find? (fun r => r.id == roomId) with
  | none => simp
  | some room =>
    have hmem := List.mem_of_find?_eq_some hfind
    have hid := List.find?_some hfind
    simp only [beq_iff_eq] at hid
    have := hnot room hmem hid
    simpa using this

/-- C15 witness: bob, a member but not the host of `r1`, asks for the next track in
`store12`. -/
theorem C15_play_next_requires_host_witness :
    (∀ r ∈ store12.rooms, r.id = "r1" → r.host_id ≠ bob.id) ∧
    handlePlayNext store12 bob "r1" 40000 = (store12, .error .onlyHost) :=
  ⟨by decide, (C15_play_next_requires_host store12 bob "r1" 40000 (by decide)).1⟩

theorem orderedQueue_head_first (s : Store) (roomId : String) (next : QueueRow)
    (hhead : (orderedQueue s roomId).head? = some next) :
    next ∈ queueRows s roomId ∧ ∀ r ∈ queueRows s roomId, orderKey next r := by
  cases hq : orderedQueue s roomId with
  | nil => simp [hq] at hhead
  | cons a rest =>
    rw [hq] at hhead
    simp only [List.head?_cons, Option.some.injEq] at hhead
    subst hhead
    have hperm := orderedQueue_perm s roomId
    have hsorted := orderedQueue_sorted s roomId
    rw [hq] at hperm hsorted
    refine ⟨hperm.mem_iff.mp (List.mem_cons_self a rest), ?_⟩
    intro r hr
    rcases List.mem_cons.mp (hperm.mem_iff.mpr hr) with h | h
    · rw [h]
      unfold orderKey
      omega
    · exact (List.pairwise_cons.mp hsorted).1 r h

/-- C16: when the caller is the host of the room and the room has an unplayed item,
`handlePlayNext` answers with a row `next` of the live queue that no other row beats (every
row has a score at most that of `next`, and a `created_at` at least that of `next` when
the scores are equal); it stamps the queue items with the id of `next` played at `now` and
leaves every other queue item as it was; it leaves `votes`, `rooms`, `room_members` and
`usage_tracking` unchanged; and it deletes every skip vote of the room (for all items),
leaving the skip votes of other rooms. -/
theorem C16_play_next_dispatches_head (s : Store) (user : User) (roomId : String) (now : Nat)
    (room : Room) (hroom : s.rooms.find? (fun r => r.id == roomId) = some room)
    (hhost : room.host_id = user.id)
    (q0 : QueueItem) (hq0 : q0 ∈ s.queue_items) (hq0room : q0.room_id = roomId)
    (hq0live : q0.played_at = none) :
    ∃ next, (handlePlayNext s user roomId now).2 = .ok (some next) ∧
      next ∈ queueRows s roomId ∧
      next.item ∈ s.queue_items ∧ next.item.room_id = roomId ∧ next.item.played_at = none ∧
      next.vote_score = voteScore s.votes next.item.id ∧
      (∀ r ∈ queueRows s roomId, r.vote_score ≤ next.vote_score ∧
        (r.vote_score = next.vote_score → next.item.created_at ≤ r.item.created_at)) ∧
      (handlePlayNext s user roomId now).1.queue_items = s.queue_items.map
        (fun q => if q.id = next.item.id then { q with played_at := some now } else q) ∧
      (handlePlayNext s user roomId now).1.votes = s.votes ∧
      (handlePlayNext s user roomId now).1.skip_votes =
        s.skip_votes.filter (fun v => v.room_id ≠ roomId) ∧
      (∀ v ∈ (handlePlayNext s user roomId now).1.skip_votes, v.room_id ≠ roomId) ∧
      (handlePlayNext s user roomId now).1.rooms = s.rooms ∧
      (handlePlayNext s user roomId now).1.room_members = s.room_members ∧
      (handlePlayNext s user roomId now).1.usage_tracking = s.usage_tracking := by
  have hrow : ({ item := q0, vote_score := voteScore s.votes q0.id } : QueueRow)
      ∈ queueRows s roomId := by
    simp only [queueRows, List.mem_map, List.mem_filter]
    exact ⟨q0, ⟨hq0, by simp [hq0room, hq0live]⟩, rfl⟩
  cases hhead : (orderedQueue s roomId).head? with
  | none =>
    have hnil : orderedQueue s roomId = [] := List.head?_eq_none_iff.mp hhead
    have := (orderedQueue_perm s roomId).mem_iff.mpr hrow
    rw [hnil] at this
    simp at this
  | some next =>
    obtain ⟨hmem, hbest⟩ := orderedQueue_head_first s roomId next hhead
    have hstep : handlePlayNext s user roomId now =
        ({ s with
            queue_items := markPlayed s.queue_items next.item.id now
            skip_votes := s.skip_votes.filter (fun v => !(v.room_id == roomId)) },
          .ok (some next)) := by
      unfold handlePlayNext
      simp only [hroom, hhost, hhead, Option.map_some', bne_self_eq_false, Bool.false_eq_true,
        if_false]
    have hitem : next.item ∈ s.queue_items ∧ next.item.room_id = roomId ∧
        next.item.played_at = none := by
      have h := hmem
      simp only [queueRows, List.mem_map, List.mem_filter] at h
      obtain ⟨q, ⟨hq, hp⟩, rfl⟩ := h
      simp only [Bool.and_eq_true, beq_iff_eq, Option.isNone_iff_eq_none] at hp
      exact ⟨hq, hp.1, hp.2⟩
    refine ⟨next, by rw [hstep], hmem, hitem.1, hitem.2.1, hitem.2.2,
      queueRows_score s roomId next hmem, ?_, ?_, by rw [hstep], ?_, ?_, by rw [hstep],
      by rw [hstep], by rw [hstep]⟩
    · intro r hr
      have := hbest r hr
      unfold orderKey at this
      omega
    · rw [hstep]
      simp only [markPlayed, beq_iff_eq]
    · rw [hstep]
      simp only
      congr 1
      funext v
      by_cases h : v.room_id = roomId <;> simp [h]
    · rw [hstep]
      intro v hv
      simp only [List.mem_filter] at hv
      simpa using hv.2

/-- C16 witness: alice, host of `r1`, asks for the next track in `store12`, where `q1` has
score 1 and `q3` score 0. -/
theorem C16_play_next_dispatches_head_witness :
    (store12.rooms.find? (fun r => r.id == "r1") = some room1 ∧ room1.host_id = alice.id ∧
      track1 ∈ store12.queue_items ∧ track1.room_id = "r1" ∧ track1.played_at = none) ∧
    (handlePlayNext store12 alice "r1" 40000).2 =
      .ok (some { item := track1, vote_score := 1 }) ∧
    ∃ next, (handlePlayNext store12 alice "r1" 40000).2 = .ok (some next) ∧
      next ∈ queueRows store12 "r1" ∧
      next.item ∈ store12.queue_items ∧ next.item.room_id = "r1" ∧
      next.item.played_at = none ∧
      next.vote_score = voteScore store12.votes next.item.id ∧
      (∀ r ∈ queueRows store12 "r1", r.vote_score ≤ next.vote_score ∧
        (r.vote_score = next.vote_score → next.item.created_at ≤ r.item.created_at)) ∧
      (handlePlayNext store12 alice "r1" 40000).1.queue_items = store12.queue_items.map
        (fun q => if q.id = next.item.id then { q with played_at := some 40000 } else q) ∧
      (handlePlayNext store12 alice "r1" 40000).1.votes = store12.votes ∧
      (handlePlayNext store12 alice "r1" 40000).1.skip_votes =
        store12.skip_votes.filter (fun v => v.room_id ≠ "r1") ∧
      (∀ v ∈ (handlePlayNext store12 alice "r1" 40000).1.skip_votes, v.room_id ≠ "r1") ∧
      (handlePlayNext store12 alice "r1" 40000).1.rooms = store12.rooms ∧
      (handlePlayNext store12 alice "r1" 40000).1.room_members = store12.room_members ∧
      (handlePlayNext store12 alice "r1" 40000).1.usage_tracking = store12.usage_tracking :=
  ⟨⟨by decide, by decide, by decide, by decide, by decide⟩, by decide,
    C16_play_next_dispatches_head store12 alice "r1" 40000 room1 (by decide) (by decide)
      track1 (by decide) (by decide) (by decide)⟩

/-- C17: when the caller is the host of the room and every queue item of the room has
been played, `handlePlayNext` answers with `nowPlaying: null` and returns the store
unchanged (skip votes included). -/
theorem C17_play_next_empty_queue (s : Store) (user : User) (roomId : String) (now : Nat)
    (room : Room) (hroom : s.rooms.find? (fun r => r.id == roomId) = some room)
    (hhost : room.host_id = user.id)
    (hempty : ∀ q ∈ s.queue_items, q.room_id = roomId → q.played_at ≠ none) :
    handlePlayNext s user roomId now = (s, .ok none) := by
  have hrows : queueRows s roomId = [] := by
    simp only [queueRows, List.map_eq_nil_iff, List.filter_eq_nil_iff, Bool.and_eq_true,
      beq_iff_eq, Option.isNone_iff_eq_none, not_and]
    exact fun q hq hr => hempty q hq hr
  have hq : orderedQueue s roomId = [] := by
    simp only [orderedQueue, hrows, List.insertionSort]
  unfold handlePlayNext
  simp only [hroom, hhost, hq, Option.map_some', bne_self_eq_false, Bool.false_eq_true,
    if_false, List.head?_nil]

/-- C17 witness: alice, host of `r1`, asks for the next track in `store9`, where the only
track of the room has been played and nothing is queued. -/
theorem C17_play_next_empty_queue_witness :
    (store9.rooms.find? (fun r => r.id == "r1") = some room1 ∧ room1.host_id = alice.id ∧
      ∀ q ∈ store9.queue_items, q.room_id = "r1" → q.played_at ≠ none) ∧
    handlePlayNext store9 alice "r1" 40000 = (store9, .ok none) :=
  ⟨⟨by decide, by decide, by decide⟩,
    C17_play_next_empty_queue store9 alice "r1" 40000 room1 (by decide) (by decide)
      (by decide)⟩

/-! ## C18: requests to a closed room -/

/-- In a closed room `handleAddToQueue` always answers with an error and returns the
store unchanged. -/
theorem handleAddToQueue_closed_room (s : Store) (user : User) (roomId : String)
    (req : AddRequest) (id : String) (now : Nat)
    (hclosed : ∀ r ∈ s.rooms, r.id = roomId → r.is_active = false) :
    ∃ e, handleAddToQueue s user roomId req id now = (s, .error e) := by
  have hfind : s.rooms.find? (fun r => r.id == roomId && r.is_active) = none := by
    rw [List.find?_eq_none]
    intro r hr hp
    simp only [Bool.and_eq_true, beq_iff_eq] at hp
    have := hclosed r hr hp.1
    rw [this] at hp
    simp at hp
  unfold handleAddToQueue
  simp only [hfind]
  split
  · exact ⟨_, rfl⟩
  · split <;> exact ⟨_, rfl⟩

/-- With the join code of a closed room `handleJoinRoom` always answers with an error and
returns the store unchanged. -/
theorem handleJoinRoom_closed_room (s : Store) (user : User) (code : Option String)
    (now : Nat)
    (hclosed : ∀ r ∈ s.rooms, r.code = trim (toUpperCase (code.getD "")) →
      r.is_active = false) :
    ∃ e, handleJoinRoom s user code now = (s, .error e) := by
  have hfind : s.rooms.find? (fun r => r.code == trim (toUpperCase (code.getD "")) &&
      r.is_active) = none := by
    rw [List.find?_eq_none]
    intro r hr hp
    simp only [Bool.and_eq_true, beq_iff_eq] at hp
    have := hclosed r hr hp.1
    rw [this] at hp
    simp at hp
  unfold handleJoinRoom
  simp only [hfind]
  split <;> exact ⟨_, rfl⟩

/-- C18 (the code at the failing input): room `r1` of `store13` is closed (its host alice
has left).  Joining with its code and queueing a track into it are refused with 'Room not
found' and change nothing, but carol's up vote on its track `q1` is accepted and writes a
Vote row, bob's skip vote on `q1` is accepted, meets the threshold and stamps `q1` played,
and alice's play-next is served and stamps `q1` played. -/
theorem C18_closed_room_still_served :
    (∀ r ∈ store13.rooms, r.id = "r1" ∧ r.code = "ABC234" ∧ r.is_active = false) ∧
    (∀ q ∈ store13.queue_items, q.id = "q1" ∧ q.room_id = "r1" ∧ q.played_at = none) ∧
    handleJoinRoom store13 dana (some "ABC234") 50000 = (store13, .error .roomNotFound) ∧
    handleAddToQueue store13 carol "r1" { title := some "B", artist := some "Y" } "q9" 50000
      = (store13, .error .roomNotFound) ∧
    handleVote store13 carol "r1" { queueItemId := some "q1", voteType := some "up" }
        "v1" 50000 =
      ({ store13 with
          votes := [{ id := "v1", queue_item_id := "q1", user_id := "u3", vote_type := "up",
                      weight := 1 }] },
        .ok { voteScore := 1, upVotes := 1, downVotes := 0, skipped := false }) ∧
    handleSkipVote store13 bob "r1" "q1" 50000 =
      ({ store13 with queue_items := [{ track1 with played_at := some 50000 }] },
        .ok { skipCount := 1, threshold := 1, skipped := true }) ∧
    handlePlayNext store13 alice "r1" 50000 =
      ({ store13 with queue_items := [{ track1 with played_at := some 50000 }] },
        .ok (some { item := track1, vote_score := 0 })) := by
  decide

/-! ## C19: handleLeaveRoom -/

/-- C19: for every store, user and room id, `handleLeaveRoom` succeeds; it deletes the
membership row of (room, user) and no other; when the user is the `host_id` of the room it
sets `is_active` to false on the room with that id, and otherwise it leaves `rooms`
unchanged; rooms with another id are never changed; a room that was inactive is still in
`rooms` unchanged, and every room active after the call was in `rooms`, active, before it;
`queue_items`, `votes`, `skip_votes` and `usage_tracking` are unchanged. -/
theorem C19_leave_room (s : Store) (user : User) (roomId : String) :
    (handleLeaveRoom s user roomId).2 = .ok () ∧
    (handleLeaveRoom s user roomId).1.room_members =
      s.room_members.filter (fun m => ¬ (m.room_id = roomId ∧ m.user_id = user.id)) ∧
    (∀ m ∈ (handleLeaveRoom s user roomId).1.room_members,
      ¬ (m.room_id = roomId ∧ m.user_id = user.id)) ∧
    (∀ room, s.rooms.find? (fun r => r.id == roomId) = some room →
      (room.host_id = user.id →
        (handleLeaveRoom s user roomId).1.rooms = s.rooms.map
          (fun r => if r.id = roomId then { r with is_active := false } else r) ∧
        ∀ r ∈ (handleLeaveRoom s user roomId).1.rooms, r.id = roomId → r.is_active = false) ∧
      (room.host_id ≠ user.id → (handleLeaveRoom s user roomId).1.rooms = s.rooms)) ∧
    (s.rooms.find? (fun r => r.id == roomId) = none →
      (handleLeaveRoom s user roomId).1.rooms = s.rooms) ∧
    (∀ r ∈ s.rooms, r.id ≠ roomId → r ∈ (handleLeaveRoom s user roomId).1.rooms) ∧
    (∀ r ∈ s.rooms, r.is_active = false → r ∈ (handleLeaveRoom s user roomId).1.rooms) ∧
    (∀ r ∈ (handleLeaveRoom s user roomId).1.rooms, r.is_active = true → r ∈ s.rooms) ∧
    (handleLeaveRoom s user roomId).1.queue_items = s.queue_items ∧
    (handleLeaveRoom s user roomId).1.votes = s.votes ∧
    (handleLeaveRoom s user roomId).1.skip_votes = s.skip_votes ∧
    (handleLeaveRoom s user roomId).1.usage_tracking = s.usage_tracking := by
  have hmembers : (handleLeaveRoom s user roomId).1.room_members =
      s.room_members.filter (fun m => ¬ (m.room_id = roomId ∧ m.user_id = user.id)) := by
    have hpred : (fun m : RoomMember => !(m.room_id == roomId && m.user_id == user.id))
        = (fun m : RoomMember => decide (¬ (m.room_id = roomId ∧ m.user_id = user.id))) := by
      funext m
      by_cases h1 : m.room_id = roomId <;> by_cases h2 : m.user_id = user.id <;> simp [h1, h2]
    unfold handleLeaveRoom
    simp only [hpred]
    split <;> rfl
  have hrooms : (handleLeaveRoom s user roomId).1.rooms = s.rooms ∨
      (handleLeaveRoom s user roomId).1.rooms = s.rooms.map
        (fun r => if r.id = roomId then { r with is_active := false } else r) := by
    unfold handleLeaveRoom
    simp only
    split
    · right
      simp only [beq_iff_eq]
    · left
      rfl
  have hclosed : ∀ r ∈ s.rooms.map
      (fun r : Room => if r.id = roomId then { r with is_active := false } else r),
      (r.id = roomId → r.is_active = false) ∧ (r.is_active = true → r ∈ s.rooms) := by
    intro r hr
    obtain ⟨r0, hr0, rfl⟩ := List.mem_map.mp hr
    by_cases h : r0.id = roomId
    · simp [h]
    · simp only [if_neg h]
      exact ⟨fun h2 => absurd h2 h, fun _ => hr0⟩
  have hkeep : ∀ r ∈ s.rooms, (r.id ≠ roomId ∨ r.is_active = false) →
      r ∈ s.rooms.map
        (fun r : Room => if r.id = roomId then { r with is_active := false } else r) := by
    intro r hr hor
    refine List.mem_map.mpr ⟨r, hr, ?_⟩
    by_cases h : r.id = roomId
    · rcases hor with h2 | h2
      · exact absurd h h2
      · rw [if_pos h]
        cases r
        simp_all
    · rw [if_neg h]
  refine ⟨?_, hmembers, ?_, ?_, ?_, ?_, ?_, ?_, ?_, ?_, ?_, ?_⟩
  · unfold handleLeaveRoom
    simp only
    split <;> rfl
  · intro m hm
    rw [hmembers, List.mem_filter] at hm
    exact of_decide_eq_true hm.2
  · intro room hfind
    constructor
    · intro hhost
      have heq : (handleLeaveRoom s user roomId).1.rooms = s.rooms.map
          (fun r => if r.id = roomId then { r with is_active := false } else r) := by
        unfold handleLeaveRoom
        simp only [hfind, hhost, Option.map_some', beq_self_eq_true, if_true, beq_iff_eq]
      refine ⟨heq, ?_⟩
      intro r hr
      rw [heq] at hr
      exact (hclosed r hr).1
    · intro hhost
      unfold handleLeaveRoom
      simp only [hfind, Option.map_some']
      rw [if_neg]
      simpa using hhost
  · intro hfind
    unfold handleLeaveRoom
    simp only [hfind, Option.map_none']
    rfl
  · intro r hr hne
    rcases hrooms with h | h
    · rw [h]; exact hr
    · rw [h]; exact hkeep r hr (Or.inl hne)
  · intro r hr hinactive
    rcases hrooms with h | h
    · rw [h]; exact hr
    · rw [h]; exact hkeep r hr (Or.inr hinactive)
  · intro r hr hactive
    rcases hrooms with h | h
    · rw [h] at hr; exact hr
    · rw [h] at hr; exact (hclosed r hr).2 hactive
  · unfold handleLeaveRoom
    simp only
    split <;> rfl
  · unfold handleLeaveRoom
    simp only
    split <;> rfl
  · unfold handleLeaveRoom
    simp only
    split <;> rfl
  · unfold handleLeaveRoom
    simp only
    split <;> rfl

/-- C19 witness: alice, host of `r1`, leaves the room in `store1`; the room is closed and
the memberships of bob and carol remain. -/
theorem C19_leave_room_witness :
    (store1.rooms.find? (fun r => r.id == "r1") = some room1 ∧ room1.host_id = alice.id) ∧
    (handleLeaveRoom store1 alice "r1").1.rooms = store1.rooms.map
      (fun r => if r.id = "r1" then { r with is_active := false } else r) ∧
    ∀ r ∈ (handleLeaveRoom store1 alice "r1").1.rooms, r.id = "r1" → r.is_active = false :=
  ⟨⟨by decide, by decide⟩,
    ((C19_leave_room store1 alice "r1").2.2.2.1 room1 (by decide)).1 (by decide)⟩

/-! ## C20: room capacity on join -/

/-- C20: for every store, every joiner whose tier resolves to an entry `l` of
`TIER_LIMITS`, and every active room found by the join code: `handleJoinRoom` answers
'Room is full' if and only if the current member count of the room is at least
`l.maxRoomSize`, and then it changes nothing; otherwise it succeeds with the room, the
joiner is a member afterwards, and the member count of the room after the call is at most
`l.maxRoomSize`. -/
theorem C20_room_capacity (s : Store) (user : User) (code : Option String) (now : Nat)
    (room : Room) (l : TierLimits)
    (hcode : truthy (code.map trim) = true)
    (hroom : s.rooms.find? (fun r => r.code == trim (toUpperCase (code.getD "")) &&
      r.is_active) = some room)
    (hl : tierLimits user.tier = some l) :
    ((∃ n, (handleJoinRoom s user code now).2 = .error (.roomFull n)) ↔
      (memberCount s room.id : Int) ≥ l.maxRoomSize) ∧
    ((memberCount s room.id : Int) ≥ l.maxRoomSize →
      handleJoinRoom s user code now = (s, .error (.roomFull l.maxRoomSize))) ∧
    (¬ (memberCount s room.id : Int) ≥ l.maxRoomSize →
      (handleJoinRoom s user code now).2 = .ok room ∧
      (∃ m ∈ (handleJoinRoom s user code now).1.room_members,
        m.room_id = room.id ∧ m.user_id = user.id)) ∧
    (∀ r, (handleJoinRoom s user code now).2 = .ok r →
      (memberCount (handleJoinRoom s user code now).1 room.id : Int) ≤ l.maxRoomSize) := by
  have hfull : (memberCount s room.id : Int) ≥ l.maxRoomSize →
      handleJoinRoom s user code now = (s, .error (.roomFull l.maxRoomSize)) := by
    intro h
    unfold handleJoinRoom
    simp only [hcode, hroom, hl, roomFull, if_pos h]
    rfl
  have hfree : ¬ (memberCount s room.id : Int) ≥ l.maxRoomSize →
      (handleJoinRoom s user code now).2 = .ok room ∧
      (∃ m ∈ (handleJoinRoom s user code now).1.room_members,
        m.room_id = room.id ∧ m.user_id = user.id) ∧
      (memberCount (handleJoinRoom s user code now).1 room.id : Int) ≤ l.maxRoomSize := by
    intro h
    unfold handleJoinRoom
    simp only [hcode, hroom, hl, roomFull, if_neg h, Bool.not_true, Bool.false_eq_true,
      if_false]
    split
    · rename_i hany
      obtain ⟨m, hm, hp⟩ := List.any_eq_true.mp hany
      simp only [Bool.and_eq_true, beq_iff_eq] at hp
      refine ⟨rfl, ⟨m, hm, hp.1, hp.2⟩, ?_⟩
      show (memberCount s room.id : Int) ≤ l.maxRoomSize
      omega
    · refine ⟨rfl, ⟨_, List.mem_append_right _ (List.mem_singleton.mpr rfl), rfl, rfl⟩, ?_⟩
      have hcount : memberCount
          { s with room_members := s.room_members ++
              [{ room_id := room.id, user_id := user.id,
                 joined_at := currentTimestamp now, is_dj := false }] } room.id
          = memberCount s room.id + 1 := by
        simp [memberCount, List.filter_append]
      rw [hcount]
      push_cast
      omega
  refine ⟨⟨?_, fun h => ⟨_, by rw [hfull h]⟩⟩, hfull, fun h => ⟨(hfree h).1, (hfree h).2.1⟩, ?_⟩
  · rintro ⟨n, hn⟩
    by_contra h
    rw [(hfree h).1] at hn
    simp at hn
  · intro r hr
    by_cases h : (memberCount s room.id : Int) ≥ l.maxRoomSize
    · rw [hfull h] at hr
      simp at hr
    · exact (hfree h).2.2

/-- C20 witness: erin (free, capacity 8) joins room `r1` by its code, in `store1` where
the room has 3 members and in `store14` where it has 8. -/
theorem C20_room_capacity_witness :
    (truthy ((some "abc234").map trim) = true ∧
      store1.rooms.find? (fun r => r.code == trim (toUpperCase ((some "abc234").getD "")) &&
        r.is_active) = some room1 ∧
      tierLimits erin.tier = some
        { requestsPerDay := 5, maxRoomSize := 8, canCreateGroups := false,
          canDirectMessage := true, maxFriends := 20, priorityVoting := false,
          skipVoteWeight := 1 } ∧
      memberCount store1 "r1" = 3 ∧ memberCount store14 "r1" = 8) ∧
    (handleJoinRoom store1 erin (some "abc234") 50000).2 = .ok room1 ∧
    handleJoinRoom store14 erin (some "abc234") 50000 = (store14, .error (.roomFull 8)) :=
  ⟨⟨by decide, by decide, by decide, by decide, by decide⟩,
    ((C20_room_capacity store1 erin (some "abc234") 50000 room1
      { requestsPerDay := 5, maxRoomSize := 8, canCreateGroups := false,
        canDirectMessage := true, maxFriends := 20, priorityVoting := false,
        skipVoteWeight := 1 } (by decide) (by decide) (by decide)).2.2.1 (by decide)).1,
    (C20_room_capacity store14 erin (some "abc234") 50000 room1
      { requestsPerDay := 5, maxRoomSize := 8, canCreateGroups := false,
        canDirectMessage := true, maxFriends := 20, priorityVoting := false,
        skipVoteWeight := 1 } (by decide) (by decide) (by decide)).2.1 (by decide)⟩

/-! ## C21: joining a room again -/

/-- C21 (as stated, refuted): alice is a member of the active room `r1` in `store14`, which
has 8 members, the capacity of her free tier; her joining again with the code of the room
is refused with 'Room is full'. -/
theorem C21_counterexample :
    (∃ m ∈ store14.room_members, m.room_id = "r1" ∧ m.user_id = alice.id) ∧
    store14.rooms.find? (fun r => r.code == "ABC234" && r.is_active) = some room1 ∧
    handleJoinRoom store14 alice (some "ABC234") 50000 =
      (store14, .error (.roomFull 8)) := by
  decide

/-- C21 (amended): for every active room found by the join code and every user who is
already a member of it, `handleJoinRoom` returns the store unchanged, so the membership
set stays as it was; the call succeeds with the room when the member count is below the
`maxRoomSize` of the caller's tier (the capacity test runs before the insert), and is
refused with 'Room is full' when the count has reached it. -/
theorem C21_rejoin_keeps_membership (s : Store) (user : User) (code : Option String)
    (now : Nat) (room : Room)
    (hcode : truthy (code.map trim) = true)
    (hroom : s.rooms.find? (fun r => r.code == trim (toUpperCase (code.getD "")) &&
      r.is_active) = some room)
    (hmember : ∃ m ∈ s.room_members, m.room_id = room.id ∧ m.user_id = user.id) :
    (handleJoinRoom s user code now).1 = s ∧
    (roomFull (tierLimits user.tier) (memberCount s room.id) = none →
      (handleJoinRoom s user code now).2 = .ok room) ∧
    (∀ n, roomFull (tierLimits user.tier) (memberCount s room.id) = some n →
      (handleJoinRoom s user code now).2 = .error (.roomFull n)) ∧
    (∀ l, tierLimits user.tier = some l →
      ((handleJoinRoom s user code now).2 = .ok room ↔
        (memberCount s room.id : Int) < l.maxRoomSize)) := by
  have hany : s.room_members.any
      (fun m => m.room_id == room.id && m.user_id == user.id) = true := by
    obtain ⟨m, hm, h1, h2⟩ := hmember
    exact List.any_eq_true.mpr ⟨m, hm, by simp [h1, h2]⟩
  have hnone : roomFull (tierLimits user.tier) (memberCount s room.id) = none →
      handleJoinRoom s user code now = (s, .ok room) := by
    intro h
    unfold handleJoinRoom
    simp only [hcode, hroom, h, hany, Bool.not_true, Bool.false_eq_true, if_false, if_true]
  have hsome : ∀ n, roomFull (tierLimits user.tier) (memberCount s room.id) = some n →
      handleJoinRoom s user code now = (s, .error (.roomFull n)) := by
    intro n h
    unfold handleJoinRoom
    simp only [hcode, hroom, h, Bool.not_true, Bool.false_eq_true, if_false]
  refine ⟨?_, fun h => by rw [hnone h], fun n h => by rw [hsome n h], ?_⟩
  · cases h : roomFull (tierLimits user.tier) (memberCount s room.id) with
    | none => rw [hnone h]
    | some n => rw [hsome n h]
  · intro l hl
    by_cases hfull : (memberCount s room.id : Int) ≥ l.maxRoomSize
    · have h : roomFull (tierLimits user.tier) (memberCount s room.id)
          = some l.maxRoomSize := by
        simp only [hl, roomFull, if_pos hfull]
      rw [hsome _ h]
      constructor
      · intro h2
        simp at h2
      · intro h2
        omega
    · have h : roomFull (tierLimits user.tier) (memberCount s room.id) = none := by
        simp only [hl, roomFull, if_neg hfull]
      rw [hnone h]
      constructor
      · intro _
        omega
      · intro _
        rfl

/-- C21 witness: alice, a member of room `r1`, joins it again in `store1` (3 members). -/
theorem C21_rejoin_keeps_membership_witness :
    (truthy ((some "ABC234").map trim) = true ∧
      store1.rooms.find? (fun r => r.code == trim (toUpperCase ((some "ABC234").getD "")) &&
        r.is_active) = some room1 ∧
      ∃ m ∈ store1.room_members, m.room_id = room1.id ∧ m.user_id = alice.id) ∧
    (handleJoinRoom store1 alice (some "ABC234") 50000).1 = store1 :=
  ⟨⟨by decide, by decide, by decide⟩,
    (C21_rejoin_keeps_membership store1 alice (some "ABC234") 50000 room1 (by decide)
      (by decide) (by decide)).1⟩

/-! ## C23: join-code collision in handleCreateRoom -/

/-- C23 (as stated, refuted): the code `ABC234` drawn for the new room is the code of the
active room `r1` of `store1`; the call answers with the internal server error and creates
no room. -/
theorem C23_counterexample :
    (∃ r ∈ store1.rooms, r.code = "ABC234" ∧ r.is_active = true) ∧
    handleCreateRoom store1 bob (some "Second") "r9" "ABC234" 50000 =
      (store1, .error .internalServerError) ∧
    ApiError.status .internalServerError = 500 := by
  decide

/-- C23 (amended): `handleCreateRoom` draws one code and does not retry.  For every store
and every request with a room name: when the drawn code is the code of a row of `rooms`
(active or not), the call fails with the internal server error and returns the store
unchanged; when it is not, the call succeeds, appends the room with that code, active and
hosted by the caller, and the membership row of the host with `is_dj` set, and the code of
the new room differs from the code of every room that existed before. -/
theorem C23_create_room_no_retry (s : Store) (user : User) (name : Option String)
    (id code : String) (now : Nat) (hname : truthy (name.map trim) = true) :
    ((∃ r ∈ s.rooms, r.code = code) →
      handleCreateRoom s user name id code now = (s, .error .internalServerError)) ∧
    ((∀ r ∈ s.rooms, r.code ≠ code) →
      ∃ room, (handleCreateRoom s user name id code now).2 = .ok room ∧
        room.id = id ∧ room.code = code ∧ room.host_id = user.id ∧ room.is_active = true ∧
        (handleCreateRoom s user name id code now).1.rooms = s.rooms ++ [room] ∧
        (handleCreateRoom s user name id code now).1.room_members = s.room_members ++
          [{ room_id := id, user_id := user.id, joined_at := currentTimestamp now,
             is_dj := true }] ∧
        (∀ r ∈ s.rooms, r.code ≠ room.code)) := by
  constructor
  · rintro ⟨r, hr, hc⟩
    have hany : s.rooms.any (fun r => r.code == code) = true :=
      List.any_eq_true.mpr ⟨r, hr, by simp [hc]⟩
    unfold handleCreateRoom
    simp only [hname, hany, Bool.not_true, Bool.false_eq_true, if_false, if_true]
  · intro hfree
    have hany : ¬ s.rooms.any (fun r => r.code == code) = true := by
      intro h
      obtain ⟨r, hr, hp⟩ := List.any_eq_true.mp h
      exact hfree r hr (by simpa using hp)
    have hstep : handleCreateRoom s user name id code now =
        ({ s with
            rooms := s.rooms ++ [{ id := id, code := code, name := trim (name.getD ""),
                                   host_id := user.id, is_active := true }]
            room_members := s.room_members ++
              [{ room_id := id, user_id := user.id, joined_at := currentTimestamp now,
                 is_dj := true }]
            usage_tracking := trackRoomCreated s.usage_tracking user.id (isoDate now) },
          .ok { id := id, code := code, name := trim (name.getD ""), host_id := user.id,
                is_active := true }) := by
      unfold handleCreateRoom
      simp only [hname, hany, Bool.not_true, Bool.false_eq_true, if_false]
    rw [hstep]
    exact ⟨_, rfl, rfl, rfl, rfl, rfl, rfl, rfl, hfree⟩

/-- C23 witness: bob creates a room in `store1` twice, once with the code of room `r1` and
once with a code that is not taken. -/
theorem C23_create_room_no_retry_witness :
    (truthy ((some "Second").map trim) = true ∧ (∃ r ∈ store1.rooms, r.code = "ABC234") ∧
      ∀ r ∈ store1.rooms, r.code ≠ "XYZ789") ∧
    handleCreateRoom store1 bob (some "Second") "r9" "ABC234" 50000 =
      (store1, .error .internalServerError) ∧
    ∃ room, (handleCreateRoom store1 bob (some "Second") "r9" "XYZ789" 50000).2 = .ok room ∧
      room.id = "r9" ∧ room.code = "XYZ789" ∧ room.host_id = bob.id ∧
      room.is_active = true ∧
      (handleCreateRoom store1 bob (some "Second") "r9" "XYZ789" 50000).1.rooms =
        store1.rooms ++ [room] ∧
      (handleCreateRoom store1 bob (some "Second") "r9" "XYZ789" 50000).1.room_members =
        store1.room_members ++
          [{ room_id := "r9", user_id := bob.id, joined_at := currentTimestamp 50000,
             is_dj := true }] ∧
      (∀ r ∈ store1.rooms, r.code ≠ room.code) :=
  ⟨⟨by decide, by decide, by decide⟩,
    (C23_create_room_no_retry store1 bob (some "Second") "r9" "ABC234" 50000
      (by decide)).1 (by decide),
    (C23_create_room_no_retry store1 bob (some "Second") "r9" "XYZ789" 50000
      (by decide)).2 (by decide)⟩

/-! ## C22: join codes -/

theorem drawIndex_lt (r : ℚ) (h0 : 0 ≤ r) (h1 : r < 1) : drawIndex r < chars.length := by
  have hlen : chars.length = 32 := by decide
  unfold drawIndex
  rw [hlen]
  have hfloor : Rat.floor (r * (32 : ℕ)) = ⌊r * (32 : ℕ)⌋ := rfl
  rw [hfloor]
  have hlo : 0 ≤ ⌊r * (32 : ℕ)⌋ := Int.floor_nonneg.mpr (by positivity)
  have hhi : ⌊r * (32 : ℕ)⌋ < 32 := by
    rw [Int.floor_lt]
    push_cast
    linarith
  omega

theorem charAt_chars (i : Nat) (h : i < chars.length) :
    ∃ c ∈ chars.data, charAt chars i = String.mk [c] := by
  unfold charAt
  have hlt : i < chars.data.length := h
  rw [List.get?_eq_get hlt]
  exact ⟨_, List.get_mem _ _ _, rfl⟩

/-- C22: the alphabet of `generateRoomCode` has exactly 32 symbols, all distinct, and
contains none of the characters I, O, 0 and 1; and for every sequence of draws in [0, 1)
the function returns a string of exactly 6 characters, each of them in the alphabet. -/
theorem C22_join_codes :
    chars.length = 32 ∧ chars.data.Nodup ∧
    'I' ∉ chars.data ∧ 'O' ∉ chars.data ∧ '0' ∉ chars.data ∧ '1' ∉ chars.data ∧
    ∀ draws : Nat → ℚ, (∀ i, 0 ≤ draws i ∧ draws i < 1) →
      (generateRoomCode draws).length = 6 ∧
      ∀ c ∈ (generateRoomCode draws).data, c ∈ chars.data := by
  refine ⟨by decide, by decide, by decide, by decide, by decide, by decide, ?_⟩
  intro draws hdraws
  have hchar : ∀ i, ∃ c ∈ chars.data, charAt chars (drawIndex (draws i)) = String.mk [c] :=
    fun i => charAt_chars _ (drawIndex_lt (draws i) (hdraws i).1 (hdraws i).2)
  obtain ⟨c0, hc0, e0⟩ := hchar 0
  obtain ⟨c1, hc1, e1⟩ := hchar 1
  obtain ⟨c2, hc2, e2⟩ := hchar 2
  obtain ⟨c3, hc3, e3⟩ := hchar 3
  obtain ⟨c4, hc4, e4⟩ := hchar 4
  obtain ⟨c5, hc5, e5⟩ := hchar 5
  have hrange : List.range 6 = [0, 1, 2, 3, 4, 5] := by decide
  have hcode : generateRoomCode draws = String.mk [c0, c1, c2, c3, c4, c5] := by
    unfold generateRoomCode
    rw [hrange]
    simp only [List.foldl_cons, List.foldl_nil, e0, e1, e2, e3, e4, e5]
    rfl
  rw [hcode]
  refine ⟨rfl, ?_⟩
  intro c hc
  simp only [List.mem_cons, List.mem_singleton, List.not_mem_nil, or_false] at hc
  rcases hc with h | h | h | h | h | h <;> rw [h] <;> assumption

/-- C22 witness: the code generated when all six draws are equal to 1/2. -/
theorem C22_join_codes_witness :
    (∀ i : Nat, (0 : ℚ) ≤ (fun _ => 1 / 2) i ∧ (fun _ => (1 : ℚ) / 2) i < 1) ∧
    (generateRoomCode (fun _ => 1 / 2)).length = 6 ∧
    ∀ c ∈ (generateRoomCode (fun _ => 1 / 2)).data, c ∈ chars.data :=
  have h : ∀ i : Nat, (0 : ℚ) ≤ (fun _ => 1 / 2) i ∧ (fun _ => (1 : ℚ) / 2) i < 1 :=
    fun _ => ⟨by norm_num, by norm_num⟩
  ⟨h, C22_join_codes.2.2.2.2.2.2 (fun _ => 1 / 2) h⟩

/-! ## C26: handleAddToQueue applies fully or not at all -/

/-- C26: for every store and every add-to-queue call.  (a) If the call returns an error,
the store is returned unchanged, so no queue item is inserted and no counter is
incremented; the error is the daily-limit error, 'Title and artist required', 'Room not
found' (the room does not exist or is closed), or the internal error of the failed
`bind`, which occurs only for a body that lacks a key the INSERT binds.  (b) If the call
succeeds, the returned item has `played_at` NULL, the given id, the room and the caller;
`queue_items` is the old table with exactly this one item appended; the caller's
`song_requests` for today is the old value (0 when there was no row) plus exactly 1, the
counters of the caller for other days keep their value, and `rooms`, `room_members`,
`votes` and `skip_votes` are unchanged.  (c) The call succeeds exactly when the
daily-limit test passes, the body is a valid track (non-empty title and artist, every
bound key present) and the room is found active. -/
theorem C26_enqueue_all_or_nothing (s : Store) (user : User) (roomId : String)
    (req : AddRequest) (id : String) (now : Nat) :
    (∀ e, (handleAddToQueue s user roomId req id now).2 = .error e →
      (handleAddToQueue s user roomId req id now).1 = s ∧
      ((∃ n, e = .dailyLimitReached n) ∨ e = .titleAndArtistRequired ∨ e = .roomNotFound ∨
        (e = .internalServerError ∧ bindAccepts req = false))) ∧
    (∀ item, (handleAddToQueue s user roomId req id now).2 = .ok item →
      item.played_at = none ∧ item.id = id ∧ item.room_id = roomId ∧
      item.added_by = user.id ∧ item.created_at = currentTimestamp now ∧
      (handleAddToQueue s user roomId req id now).1.queue_items = s.queue_items ++ [item] ∧
      requestsToday (handleAddToQueue s user roomId req id now).1.usage_tracking user.id
          (isoDate now) = requestsToday s.usage_tracking user.id (isoDate now) + 1 ∧
      (∀ d, d ≠ isoDate now →
        requestsToday (handleAddToQueue s user roomId req id now).1.usage_tracking user.id d
          = requestsToday s.usage_tracking user.id d) ∧
      (handleAddToQueue s user roomId req id now).1.rooms = s.rooms ∧
      (handleAddToQueue s user roomId req id now).1.room_members = s.room_members ∧
      (handleAddToQueue s user roomId req id now).1.votes = s.votes ∧
      (handleAddToQueue s user roomId req id now).1.skip_votes = s.skip_votes) ∧
    ((∃ item, (handleAddToQueue s user roomId req id now).2 = .ok item) ↔
      (dailyLimitReached (tierLimits user.tier) (usageRow s user.id (isoDate now)) = none ∧
        validTrack req = true ∧
        (s.rooms.find? (fun r => r.id == roomId && r.is_active)).isSome = true)) := by
  unfold handleAddToQueue
  simp only
  split
  · rename_i n hlim
    refine ⟨fun e he => ⟨rfl, Or.inl ?_⟩, fun item h => by simp at h, ?_⟩
    · simp only [Response.error.injEq] at he
      exact ⟨_, he.symm⟩
    · rw [hlim]
      simp
  · rename_i hlim
    split
    · rename_i hbody
      refine ⟨fun e he => ⟨rfl, Or.inr (Or.inl ?_)⟩, fun item h => by simp at h, ?_⟩
      · simp only [Response.error.injEq] at he
        exact he.symm
      · have hnot : validTrack req = false := by
          unfold validTrack
          cases h1 : truthy req.title <;> cases h2 : truthy req.artist <;>
            simp [h1, h2] at hbody ⊢
        simp [hnot]
    · rename_i hbody
      have hta : truthy req.title = true ∧ truthy req.artist = true := by
        cases h1 : truthy req.title <;> cases h2 : truthy req.artist <;>
          simp [h1, h2] at hbody ⊢
      split
      · rename_i hroom
        refine ⟨fun e he => ⟨rfl, Or.inr (Or.inr (Or.inl ?_))⟩, fun item h => by simp at h,
          ?_⟩
        · simp only [Response.error.injEq] at he
          exact he.symm
        · rw [hroom]
          simp
      · rename_i room hroom
        split
        · rename_i hbind
          have hb : bindAccepts req = false := by
            cases h : bindAccepts req <;> simp [h] at hbind ⊢
          refine ⟨fun e he => ⟨rfl, Or.inr (Or.inr (Or.inr ⟨?_, hb⟩))⟩,
            fun item h => by simp at h, ?_⟩
          · simp only [Response.error.injEq] at he
            exact he.symm
          · simp [validTrack, hb]
        · rename_i hbind
          have hb : bindAccepts req = true := by
            cases h : bindAccepts req <;> simp [h] at hbind ⊢
          refine ⟨fun e he => by simp at he, ?_, ?_⟩
          · intro item hitem
            simp only [Response.ok.injEq] at hitem
            subst hitem
            refine ⟨rfl, rfl, rfl, rfl, rfl, rfl, ?_, ?_, rfl, rfl, rfl, rfl⟩
            · simp only [requestsToday_trackSongRequest]
              simp
            · intro d hd
              simp only [requestsToday_trackSongRequest]
              simp [hd]
          · simp [validTrack, hlim, hta.1, hta.2, hb, hroom]

/-- C26 witness: carol's calls on `store1`: a valid track into the unknown room `r0` is
refused and a body with title and artist only into room `r1` ends in the internal error,
both with the store unchanged; the valid track `fullBody "B" "Y"` into room `r1` is
queued and counted once. -/
theorem C26_enqueue_all_or_nothing_witness :
    (handleAddToQueue store1 carol "r0" (fullBody "B" "Y") "q9" 50000).1 = store1 ∧
    (handleAddToQueue store1 carol "r1" { title := some "B", artist := some "Y" } "q9"
      50000).1 = store1 ∧
    requestsToday (handleAddToQueue store1 carol "r1" (fullBody "B" "Y")
      "q9" 50000).1.usage_tracking carol.id (isoDate 50000)
      = requestsToday store1.usage_tracking carol.id (isoDate 50000) + 1 :=
  ⟨((C26_enqueue_all_or_nothing store1 carol "r0" (fullBody "B" "Y")
      "q9" 50000).1 .roomNotFound (by decide)).1,
    ((C26_enqueue_all_or_nothing store1 carol "r1" { title := some "B", artist := some "Y" }
      "q9" 50000).1 .internalServerError (by decide)).1,
    ((C26_enqueue_all_or_nothing store1 carol "r1" (fullBody "B" "Y")
      "q9" 50000).2.1
      { id := "q9", room_id := "r1", added_by := "u3", title := "B", artist := "Y",
        played_at := none, created_at := 50 } (by decide)).2.2.2.2.2.2.1⟩

/-! ## C27: malformed vote requests -/

/-- C27: for every store and every vote request whose `queueItemId` is missing or empty,
or whose `voteType` is not exactly 'up' or 'down', `handleVote` answers with the error
'Invalid vote' (status 400) and returns the store unchanged. -/
theorem C27_invalid_vote (s : Store) (user : User) (roomId : String) (req : VoteRequest)
    (id : String) (now : Nat)
    (hbad : ¬ (truthy req.queueItemId = true ∧
      (req.voteType = some "up" ∨ req.voteType = some "down"))) :
    handleVote s user roomId req id now = (s, .error .invalidVote) ∧
    ApiError.status .invalidVote = 400 := by
  refine ⟨?_, rfl⟩
  unfold handleVote
  split
  · rename_i qid vt hq hv
    by_cases h1 : qid = ""
    · simp [h1]
    · by_cases h2 : vt = "up" ∨ vt = "down"
      · exfalso
        apply hbad
        simp only [hq, hv, truthy, bne_iff_ne, ne_eq, Option.some.injEq]
        exact ⟨h1, h2⟩
      · rw [if_pos]
        simp only [not_or] at h2
        simp [h2.1, h2.2]
  · rfl

/-- C27 witness: carol sends the direction `sideways` for `q1` in `store1`. -/
theorem C27_invalid_vote_witness :
    ¬ (truthy (some "q1") = true ∧
      ((some "sideways" : Option String) = some "up" ∨
        (some "sideways" : Option String) = some "down")) ∧
    handleVote store1 carol "r1" { queueItemId := some "q1", voteType := some "sideways" }
      "v1" 50000 = (store1, .error .invalidVote) :=
  ⟨by decide,
    (C27_invalid_vote store1 carol "r1"
      { queueItemId := some "q1", voteType := some "sideways" } "v1" 50000 (by decide)).1⟩

/-! ## C24: the end-to-end scenario -/

/-- C24 (as stated, refuted): in `store5` alice (free) has queued track A (`q1`) and bob
(premium) track B (`q2`).  Bob's down vote on A carries weight 2, not 1: his call alone
reports the down-total 2 and auto-removes A, clearing its votes.  Carol's later down vote
is counted alone (down-total 1), and after the three steps no vote row of A is left, so
its down-total is 0 and never the sum 1 + 1 of two votes. -/
theorem C24_counterexample :
    (newVote bob "q1" "down" "v1").weight = 2 ∧
    (handleVote store5 bob "r1" { queueItemId := some "q1", voteType := some "down" }
      "v1" 8000).2 = .ok { voteScore := -2, upVotes := 0, downVotes := 2, skipped := true } ∧
    (handleVote
      (handleVote store5 bob "r1" { queueItemId := some "q1", voteType := some "down" }
        "v1" 8000).1
      carol "r1" { queueItemId := some "q1", voteType := some "down" } "v2" 9000).2
      = .ok { voteScore := -1, upVotes := 0, downVotes := 1, skipped := true } ∧
    voteTotal (handleVote
      (handleVote store5 bob "r1" { queueItemId := some "q1", voteType := some "down" }
        "v1" 8000).1
      carol "r1" { queueItemId := some "q1", voteType := some "down" } "v2" 9000).1.votes
      "q1" "down" = 0 := by
  decide

theorem markPlayed_markPlayed (items : List QueueItem) (qid : String) (n1 n2 : Nat) :
    markPlayed (markPlayed items qid n1) qid n2 = markPlayed items qid n2 := by
  simp only [markPlayed, List.map_map]
  congr 1
  funext q
  by_cases h : q.id = qid <;> simp [h]

theorem filter_live_markPlayed (items : List QueueItem) (qid roomId : String) (now : Nat) :
    (markPlayed items qid now).filter (fun q => q.room_id == roomId && q.played_at.isNone) =
      (items.filter (fun q => q.room_id == roomId && q.played_at.isNone)).filter
        (fun q => !(q.id == qid)) := by
  unfold markPlayed
  rw [List.filter_map, List.filter_filter]
  have hpred : ((fun q : QueueItem => q.room_id == roomId && q.played_at.isNone) ∘
      (fun q : QueueItem => if q.id == qid then { q with played_at := some now } else q))
      = (fun q : QueueItem => !(q.id == qid) && (q.room_id == roomId && q.played_at.isNone)) := by
    funext q
    by_cases h : q.id = qid <;> simp [h]
  rw [hpred]
  conv_rhs => rw [← List.map_id (items.filter _)]
  apply List.map_congr_left
  intro q hq
  have hne := (List.mem_filter.mp hq).2
  simp only [Bool.and_eq_true, Bool.not_eq_true', beq_eq_false_iff_ne, ne_eq] at hne
  simp [hne.1]

theorem clearVotes_of_no_votes (votes : List Vote) (qid : String)
    (h : ∀ v ∈ votes, v.queue_item_id ≠ qid) : clearVotes votes qid = votes := by
  unfold clearVotes
  rw [List.filter_eq_self]
  intro v hv
  simpa using h v hv

theorem voteTotal_of_no_votes (votes : List Vote) (qid t : String)
    (h : ∀ v ∈ votes, v.queue_item_id ≠ qid) : voteTotal votes qid t = 0 := by
  unfold voteTotal
  have : votes.filter (fun v => v.queue_item_id == qid) = [] := by
    rw [List.filter_eq_nil_iff]
    intro v hv
    simpa using h v hv
  rw [this]
  rfl

/-- A tier that is not a key of `TIER_LIMITS` gets the free entry, unless it names a
member inherited from `Object.prototype`. -/
theorem tierLimits_of_not_key (tier : String) (h1 : tier ≠ "free") (h2 : tier ≠ "premium")
    (h3 : tier ≠ "dj_pro") (h4 : tier ≠ "venue") :
    tierLimits tier = if tier ∈ objectPrototypeKeys then none else tierLimits "free" := by
  have e1 : (tier == "free") = false := by simpa using h1
  have e2 : (tier == "premium") = false := by simpa using h2
  have e3 : (tier == "dj_pro") = false := by simpa using h3
  have e4 : (tier == "venue") = false := by simpa using h4
  have hlook : TIER_LIMITS.lookup tier = none := by
    simp only [TIER_LIMITS, List.lookup, e1, e2, e3, e4]
  have hfree : TIER_LIMITS.lookup "free" = tierLimits "free" := by decide
  unfold tierLimits
  rw [hlook]
  simp only [hfree]
  rfl

/-- Every tier gives a vote weight of at least 1. -/
theorem one_le_voteWeight (tier : String) : 1 ≤ voteWeight (tierLimits tier) := by
  by_cases h1 : tier = "free"
  · subst h1; decide
  by_cases h2 : tier = "premium"
  · subst h2; decide
  by_cases h3 : tier = "dj_pro"
  · subst h3; decide
  by_cases h4 : tier = "venue"
  · subst h4; decide
  rw [tierLimits_of_not_key tier h1 h2 h3 h4]
  split
  · decide
  · decide

/-- One down vote on an item without votes: the call reports the weight of the voter as
down-total, auto-skips the item and leaves the votes table as it was. -/
theorem handleVote_down_on_unvoted (s : Store) (user : User) (roomId qid id : String)
    (now : Nat) (hq : qid ≠ "") (hnone : ∀ v ∈ s.votes, v.queue_item_id ≠ qid) :
    handleVote s user roomId { queueItemId := some qid, voteType := some "down" } id now =
      ({ s with queue_items := markPlayed s.queue_items qid now },
        .ok { voteScore := 0 - voteWeight (tierLimits user.tier), upVotes := 0,
              downVotes := voteWeight (tierLimits user.tier), skipped := true }) := by
  have hw := one_le_voteWeight user.tier
  have hdel : deleteVote s.votes qid user.id = s.votes := by
    unfold deleteVote
    rw [List.filter_eq_self]
    intro v hv
    have := hnone v hv
    simp [this]
  have hrec : recorded s user qid "down" id = s.votes ++ [newVote user qid "down" id] := by
    rw [recorded_eq, hdel]
  have hup : voteTotal (recorded s user qid "down" id) qid "up" = 0 := by
    rw [hrec, voteTotal_append, voteTotal_of_no_votes s.votes qid "up" hnone,
      voteTotal_newVote]
    simp [contribution]
  have hdown : voteTotal (recorded s user qid "down" id) qid "down"
      = voteWeight (tierLimits user.tier) := by
    rw [hrec, voteTotal_append, voteTotal_of_no_votes s.votes qid "down" hnone,
      voteTotal_newVote]
    simp [contribution]
  have hclear : clearVotes (recorded s user qid "down" id) qid = s.votes := by
    rw [clearVotes_recorded, clearVotes_of_no_votes s.votes qid hnone]
  rw [handleVote_valid s user roomId qid "down" id now hq (Or.inr rfl), hup, hdown, hclear]
  have hskip : autoSkip 0 (voteWeight (tierLimits user.tier)) = true := by
    rw [autoSkip_iff]
    omega
  rw [if_pos hskip]

/-- C24 (amended): for every store in which track A has no votes, a premium user U2 and a
free user U3: U2's down vote on A weighs 2, so his call reports the down-total 2 against
the up-total 0 and auto-removes A at once; U3's later down vote on A is accepted, is
counted alone (down-total 1, up-total 0) and auto-removes A again, re-stamping it; after
both calls the votes table is as before the first one, A is played, and the live queue of
every room is the live queue before the votes without A (in the scenario: only B). -/
theorem C24_scenario (s : Store) (u2 u3 : User) (room2 room3 qa id2 id3 : String)
    (now2 now3 : Nat) (h2 : u2.tier = "premium") (h3 : u3.tier = "free") (hqa : qa ≠ "")
    (hnone : ∀ v ∈ s.votes, v.queue_item_id ≠ qa) :
    let r2 := handleVote s u2 room2 { queueItemId := some qa, voteType := some "down" }
      id2 now2
    let r3 := handleVote r2.1 u3 room3 { queueItemId := some qa, voteType := some "down" }
      id3 now3
    r2.2 = .ok { voteScore := -2, upVotes := 0, downVotes := 2, skipped := true } ∧
    (∀ q ∈ r2.1.queue_items, q.id = qa → q.played_at = some now2) ∧
    r3.2 = .ok { voteScore := -1, upVotes := 0, downVotes := 1, skipped := true } ∧
    (∀ q ∈ r3.1.queue_items, q.id = qa → q.played_at = some now3) ∧
    r3.1.votes = s.votes ∧
    ∀ roomId,
      orderedQueue r3.1 roomId =
        ((queueRows s roomId).filter (fun r => !(r.item.id == qa))).insertionSort orderKey ∧
      (∀ r ∈ orderedQueue r3.1 roomId, r.item.id ≠ qa) := by
  intro r2 r3
  have hw2 : voteWeight (tierLimits u2.tier) = 2 := by rw [h2]; decide
  have hw3 : voteWeight (tierLimits u3.tier) = 1 := by rw [h3]; decide
  have hr2 : r2 = ({ s with queue_items := markPlayed s.queue_items qa now2 },
      .ok { voteScore := -2, upVotes := 0, downVotes := 2, skipped := true }) := by
    show handleVote s u2 room2 _ id2 now2 = _
    rw [handleVote_down_on_unvoted s u2 room2 qa id2 now2 hqa hnone, hw2]
    rfl
  have hr3 : r3 = ({ s with queue_items := markPlayed s.queue_items qa now3 },
      .ok { voteScore := -1, upVotes := 0, downVotes := 1, skipped := true }) := by
    show handleVote r2.1 u3 room3 _ id3 now3 = _
    rw [hr2]
    have h := handleVote_down_on_unvoted
      { s with queue_items := markPlayed s.queue_items qa now2 } u3 room3 qa id3 now3 hqa hnone
    rw [hw3, markPlayed_markPlayed] at h
    exact h
  have hrows : ∀ roomId, queueRows r3.1 roomId =
      (queueRows s roomId).filter (fun r => !(r.item.id == qa)) := by
    intro roomId
    rw [hr3]
    simp only [queueRows, filter_live_markPlayed, List.filter_map]
    rfl
  refine ⟨by rw [hr2], ?_, by rw [hr3], ?_, by rw [hr3], ?_⟩
  · intro q hq hid
    rw [hr2] at hq
    exact mem_markPlayed_played _ _ _ q hq hid
  · intro q hq hid
    rw [hr3] at hq
    exact mem_markPlayed_played _ _ _ q hq hid
  · intro roomId
    refine ⟨by simp only [orderedQueue, hrows], ?_⟩
    intro r hr
    have hmem := (orderedQueue_perm r3.1 roomId).mem_iff.mp hr
    rw [hrows roomId, List.mem_filter] at hmem
    simpa using hmem.2

/-- C24 witness: the scenario run from `store5`, where alice (free) has queued A (`q1`)
and bob (premium) B (`q2`): bob and then carol vote A down, and the live queue of the room
ends with B only. -/
theorem C24_scenario_witness :
    (bob.tier = "premium" ∧ carol.tier = "free" ∧ "q1" ≠ "" ∧
      ∀ v ∈ store5.votes, v.queue_item_id ≠ "q1") ∧
    (handleVote store5 bob "r1" { queueItemId := some "q1", voteType := some "down" }
      "v1" 8000).2 = .ok { voteScore := -2, upVotes := 0, downVotes := 2, skipped := true } ∧
    orderedQueue (handleVote
      (handleVote store5 bob "r1" { queueItemId := some "q1", voteType := some "down" }
        "v1" 8000).1
      carol "r1" { queueItemId := some "q1", voteType := some "down" } "v2" 9000).1 "r1"
      = [{ item := { id := "q2", room_id := "r1", added_by := "u2", title := "B",
                     artist := "Y", played_at := none, created_at := 5 },
           vote_score := 0 }] :=
  ⟨⟨by decide, by decide, by decide, by decide⟩,
    (C24_scenario store5 bob carol "r1" "r1" "q1" "v1" "v2" 8000 9000 (by decide) (by decide)
      (by decide) (by decide)).1,
    by decide⟩

/-! ## C25: the state machine of a queue item -/

theorem handlePlayNext_queue_items (s : Store) (user : User) (roomId : String) (now : Nat) :
    (handlePlayNext s user roomId now).1.queue_items = s.queue_items ∨
    ∃ qid, (handlePlayNext s user roomId now).1.queue_items
      = markPlayed s.queue_items qid now := by
  unfold handlePlayNext
  simp only
  split
  · exact Or.inl rfl
  · split
    · exact Or.inl rfl
    · exact Or.inr ⟨_, rfl⟩

theorem handleAddToQueue_queue_items (s : Store) (user : User) (roomId : String)
    (req : AddRequest) (id : String) (now : Nat) :
    (handleAddToQueue s user roomId req id now).1.queue_items = s.queue_items ∨
    ∃ item, item.played_at = none ∧
      (handleAddToQueue s user roomId req id now).1.queue_items = s.queue_items ++ [item] := by
  unfold handleAddToQueue
  simp only
  split
  · exact Or.inl rfl
  · split
    · exact Or.inl rfl
    · split
      · exact Or.inl rfl
      · split
        · exact Or.inl rfl
        · exact Or.inr ⟨_, rfl, rfl⟩

theorem step_queue_items_of_room_request (s : Store) (user : User) (now : Nat) (req : Request)
    (hreq : (∃ name id code, req = .createRoom name id code) ∨ (∃ code, req = .joinRoom code) ∨
      (∃ roomId, req = .getRoom roomId) ∨ (∃ roomId, req = .leaveRoom roomId)) :
    (step s user now req).queue_items = s.queue_items := by
  rcases hreq with ⟨name, id, code, rfl⟩ | ⟨code, rfl⟩ | ⟨roomId, rfl⟩ | ⟨roomId, rfl⟩
  · simp only [step, handleCreateRoom]
    split
    · rfl
    · split <;> rfl
  · simp only [step, handleJoinRoom]
    split
    · rfl
    · split
      · rfl
      · split
        · rfl
        · split <;> rfl
  · rfl
  · simp only [step, handleLeaveRoom]
    split <;> rfl

/-- The `queue_items` table after any request: the rows before it, in place, some of them
stamped played at `now`, followed by the rows added. -/
theorem step_queue_items (s : Store) (user : User) (now : Nat) (req : Request) :
    ∃ (stamped : QueueItem → Bool) (added : List QueueItem),
      (step s user now req).queue_items =
        s.queue_items.map
          (fun q => if stamped q then { q with played_at := some now } else q) ++ added ∧
      (∀ q ∈ added, q.played_at = none) ∧
      (added ≠ [] → ∃ roomId r id, req = .addToQueue roomId r id) ∧
      ((∃ q, stamped q = true) →
        (∃ roomId r id, req = .vote roomId r id) ∨
        (∃ roomId queueItemId, req = .skipVote roomId queueItemId) ∨
        (∃ roomId, req = .playNext roomId)) := by
  have hsame : ∀ items : List QueueItem, items =
      items.map (fun q => if (fun _ : QueueItem => false) q
        then { q with played_at := some now } else q) ++ [] := by
    intro items
    simp
  have hmark : ∀ (items : List QueueItem) (qid : String), markPlayed items qid now =
      items.map (fun q => if (fun q : QueueItem => q.id == qid) q
        then { q with played_at := some now } else q) ++ [] := by
    intro items qid
    simp [markPlayed]
  have hunchanged : (step s user now req).queue_items = s.queue_items →
      ∃ (stamped : QueueItem → Bool) (added : List QueueItem),
        (step s user now req).queue_items =
          s.queue_items.map
            (fun q => if stamped q then { q with played_at := some now } else q) ++ added ∧
        (∀ q ∈ added, q.played_at = none) ∧
        (added ≠ [] → ∃ roomId r id, req = .addToQueue roomId r id) ∧
        ((∃ q, stamped q = true) →
          (∃ roomId r id, req = .vote roomId r id) ∨
          (∃ roomId queueItemId, req = .skipVote roomId queueItemId) ∨
          (∃ roomId, req = .playNext roomId)) := by
    intro h
    refine ⟨fun _ => false, [], ?_, ?_, ?_, ?_⟩
    · rw [h]
      exact hsame s.queue_items
    · intro q hq
      simp at hq
    · intro h2
      exact absurd rfl h2
    · rintro ⟨q, hq⟩
      simp at hq
  cases req with
  | createRoom name id code =>
    exact hunchanged (step_queue_items_of_room_request s user now _ (Or.inl ⟨_, _, _, rfl⟩))
  | joinRoom code =>
    exact hunchanged
      (step_queue_items_of_room_request s user now _ (Or.inr (Or.inl ⟨_, rfl⟩)))
  | getRoom roomId =>
    exact hunchanged
      (step_queue_items_of_room_request s user now _ (Or.inr (Or.inr (Or.inl ⟨_, rfl⟩))))
  | leaveRoom roomId =>
    exact hunchanged
      (step_queue_items_of_room_request s user now _ (Or.inr (Or.inr (Or.inr ⟨_, rfl⟩))))
  | addToQueue roomId r id =>
    rcases handleAddToQueue_queue_items s user roomId r id now with h | ⟨item, hnone, h⟩
    · exact hunchanged h
    · refine ⟨fun _ => false, [item], ?_, ?_, fun _ => ⟨_, _, _, rfl⟩, ?_⟩
      · show (handleAddToQueue s user roomId r id now).1.queue_items = _
        rw [h]
        simp
      · intro q hq
        rw [List.mem_singleton] at hq
        rw [hq]
        exact hnone
      · rintro ⟨q, hq⟩
        simp at hq
  | vote roomId r id =>
    rcases handleVote_queue_items s user roomId r id now with h | ⟨qid, h⟩
    · exact hunchanged h
    · refine ⟨fun q => q.id == qid, [], ?_, ?_, fun h2 => absurd rfl h2,
        fun _ => Or.inl ⟨_, _, _, rfl⟩⟩
      · show (handleVote s user roomId r id now).1.queue_items = _
        rw [h]
        exact hmark s.queue_items qid
      · intro q hq
        simp at hq
  | skipVote roomId queueItemId =>
    rcases handleSkipVote_queue_items s user roomId queueItemId now with h | h
    · exact hunchanged h
    · refine ⟨fun q => q.id == queueItemId, [], ?_, ?_, fun h2 => absurd rfl h2,
        fun _ => Or.inr (Or.inl ⟨_, _, rfl⟩)⟩
      · show (handleSkipVote s user roomId queueItemId now).1.queue_items = _
        rw [h]
        exact hmark s.queue_items queueItemId
      · intro q hq
        simp at hq
  | playNext roomId =>
    rcases handlePlayNext_queue_items s user roomId now with h | ⟨qid, h⟩
    · exact hunchanged h
    · refine ⟨fun q => q.id == qid, [], ?_, ?_, fun h2 => absurd rfl h2,
        fun _ => Or.inr (Or.inr ⟨_, rfl⟩)⟩
      · show (handlePlayNext s user roomId now).1.queue_items = _
        rw [h]
        exact hmark s.queue_items qid
      · intro q hq
        simp at hq

/-- C25: for every store and every request served by the engine: (a) the `queue_items`
table after the request consists of the rows before it, in place and unchanged except that
some may be stamped played at `now`, followed by the rows added, which have `played_at`
NULL; rows are stamped only by a vote, skip-vote or play-next request and added only by an
add-to-queue request; (b) no row is deleted: the table does not get shorter; (c) a row
whose `played_at` is set is still there with `played_at` set; (d) create-room, join-room,
get-room, leave-room and add-to-queue requests leave every existing row as it was. -/
theorem C25_played_is_terminal (s : Store) (user : User) (now : Nat) (req : Request) :
    (∃ (stamped : QueueItem → Bool) (added : List QueueItem),
      (step s user now req).queue_items =
        s.queue_items.map
          (fun q => if stamped q then { q with played_at := some now } else q) ++ added ∧
      (∀ q ∈ added, q.played_at = none) ∧
      (added ≠ [] → ∃ roomId r id, req = .addToQueue roomId r id) ∧
      ((∃ q, stamped q = true) →
        (∃ roomId r id, req = .vote roomId r id) ∨
        (∃ roomId queueItemId, req = .skipVote roomId queueItemId) ∨
        (∃ roomId, req = .playNext roomId))) ∧
    s.queue_items.length ≤ (step s user now req).queue_items.length ∧
    (∀ q ∈ s.queue_items, q.played_at ≠ none →
      ∃ t, { q with played_at := some t } ∈ (step s user now req).queue_items) ∧
    ((∀ roomId r id, req ≠ .vote roomId r id) →
      (∀ roomId queueItemId, req ≠ .skipVote roomId queueItemId) →
      (∀ roomId, req ≠ .playNext roomId) →
      ∃ added, (step s user now req).queue_items = s.queue_items ++ added) := by
  obtain ⟨stamped, added, hitems, hadded, hadd, hstamp⟩ := step_queue_items s user now req
  refine ⟨⟨stamped, added, hitems, hadded, hadd, hstamp⟩, ?_, ?_, ?_⟩
  · rw [hitems]
    simp
  · intro q hq hplayed
    rw [hitems]
    by_cases hs : stamped q = true
    · refine ⟨now, List.mem_append_left _ (List.mem_map.mpr ⟨q, hq, ?_⟩)⟩
      rw [if_pos hs]
    · obtain ⟨t0, ht0⟩ := Option.ne_none_iff_exists'.mp hplayed
      refine ⟨t0, List.mem_append_left _ (List.mem_map.mpr ⟨q, hq, ?_⟩)⟩
      rw [if_neg hs]
      cases q
      simp_all
  · intro h1 h2 h3
    refine ⟨added, ?_⟩
    have hnone : ∀ q, stamped q = false := by
      intro q
      by_contra hq
      have hq2 : stamped q = true := by simpa using hq
      rcases hstamp ⟨q, hq2⟩ with ⟨a, b, c, h⟩ | ⟨a, b, h⟩ | ⟨a, h⟩
      · exact h1 a b c h
      · exact h2 a b h
      · exact h3 a h
    rw [hitems]
    simp [hnone]

/-- C25 witness: the row of the played track `q1` of `store9` is still there, played,
after carol votes it up. -/
theorem C25_played_is_terminal_witness :
    ({ track1 with played_at := some 15000 } ∈ store9.queue_items ∧
      ({ track1 with played_at := some 15000 } : QueueItem).played_at ≠ none) ∧
    ∃ t, { track1 with played_at := some t } ∈
      (step store9 carol 50000
        (.vote "r1" { queueItemId := some "q1", voteType := some "up" } "v1")).queue_items :=
  ⟨⟨by decide, by decide⟩,
    (C25_played_is_terminal store9 carol 50000
      (.vote "r1" { queueItemId := some "q1", voteType := some "up" } "v1")).2.2.1
      { track1 with played_at := some 15000 } (by decide) (by decide)⟩

/-! ## C28: scores in the live queue -/

theorem store5_reachable : Reachable store5 := by
  unfold store5
  refine Reachable.next _ _ _ _ (Reachable.next _ _ _ _
    (Reachable.next _ _ _ _ Reachable.init ?_) ?_) ?_
  · intro r hr
    simp [Store.empty] at hr
  · intro q hq
    revert q
    decide
  · intro q hq
    revert q
    decide

theorem voteTotal_nonneg (votes : List Vote) (qid t : String)
    (h : ∀ v ∈ votes, 0 ≤ v.weight) : 0 ≤ voteTotal votes qid t := by
  unfold voteTotal
  apply List.sum_nonneg
  intro x hx
  simp only [List.mem_map, List.mem_filter] at hx
  obtain ⟨v, ⟨hv, _⟩, rfl⟩ := hx
  split
  · exact h v hv
  · exact le_refl 0

theorem voteTotal_deleteVote_other (votes : List Vote) (qid uid q2 t : String)
    (hne : q2 ≠ qid) : voteTotal (deleteVote votes qid uid) q2 t = voteTotal votes q2 t := by
  unfold voteTotal deleteVote
  rw [List.filter_filter]
  congr 2
  apply List.filter_congr
  intro v _
  by_cases h : v.queue_item_id = q2
  · have : v.queue_item_id ≠ qid := by rw [h]; exact hne
    simp [h, this, hne]
  · simp [h]

theorem voteTotal_clearVotes (votes : List Vote) (qid q2 t : String) :
    voteTotal (clearVotes votes qid) q2 t = if q2 = qid then 0 else voteTotal votes q2 t := by
  unfold voteTotal clearVotes
  rw [List.filter_filter]
  split
  · rename_i h
    have : votes.filter (fun a => a.queue_item_id == q2 && !(a.queue_item_id == qid)) = [] := by
      rw [List.filter_eq_nil_iff]
      intro v _
      by_cases h2 : v.queue_item_id = qid <;> simp [h, h2]
    rw [this]
    rfl
  · rename_i h
    congr 2
    apply List.filter_congr
    intro v _
    by_cases h2 : v.queue_item_id = q2
    · have : v.queue_item_id ≠ qid := by rw [h2]; exact h
      simp [h2, this, h]
    · simp [h2]

theorem voteTotal_recorded_other (s : Store) (user : User) (qid vt id q2 t : String)
    (hne : q2 ≠ qid) : voteTotal (recorded s user qid vt id) q2 t = voteTotal s.votes q2 t := by
  rw [recorded_eq, voteTotal_append, voteTotal_deleteVote_other _ _ _ _ _ hne,
    voteTotal_newVote]
  have : (qid == q2) = false := by simpa using fun h : qid = q2 => hne h.symm
  simp [contribution, this]

/-- The invariant of the votes table: weights are not negative, and no item has a
weighted down-total above its weighted up-total. -/
theorem handleVote_keeps_balance (s : Store) (user : User) (roomId : String)
    (req : VoteRequest) (id : String) (now : Nat)
    (hw : ∀ v ∈ s.votes, 0 ≤ v.weight)
    (hbal : ∀ qid, voteTotal s.votes qid "down" ≤ voteTotal s.votes qid "up") :
    (∀ v ∈ (handleVote s user roomId req id now).1.votes, 0 ≤ v.weight) ∧
    ∀ qid, voteTotal (handleVote s user roomId req id now).1.votes qid "down" ≤
      voteTotal (handleVote s user roomId req id now).1.votes qid "up" := by
  have hweights : ∀ v ∈ (handleVote s user roomId req id now).1.votes, 0 ≤ v.weight := by
    intro v hv
    rcases handleVote_votes s user roomId req id now v hv with h | ⟨qid, vt, _, h⟩
    · exact hw v h
    · rw [h]
      have := one_le_voteWeight user.tier
      show 0 ≤ voteWeight (tierLimits user.tier)
      omega
  refine ⟨hweights, ?_⟩
  by_cases hvalid : ∃ qid vt, req = { queueItemId := some qid, voteType := some vt } ∧
      qid ≠ "" ∧ (vt = "up" ∨ vt = "down")
  · obtain ⟨qid, vt, rfl, hq, hv⟩ := hvalid
    have hstep := handleVote_valid s user roomId qid vt id now hq hv
    have hrw : ∀ v ∈ recorded s user qid vt id, 0 ≤ v.weight := by
      intro v hv2
      rw [recorded_eq, List.mem_append, List.mem_singleton] at hv2
      rcases hv2 with h | h
      · simp only [deleteVote, List.mem_filter] at h
        exact hw v h.1
      · rw [h]
        have := one_le_voteWeight user.tier
        show 0 ≤ voteWeight (tierLimits user.tier)
        omega
    intro q2
    by_cases hskip : autoSkip (voteTotal (recorded s user qid vt id) qid "up")
        (voteTotal (recorded s user qid vt id) qid "down") = true
    · rw [hstep, if_pos hskip]
      simp only [voteTotal_clearVotes]
      split
      · exact le_refl 0
      · rename_i hne
        rw [voteTotal_recorded_other s user qid vt id q2 _ hne,
          voteTotal_recorded_other s user qid vt id q2 _ hne]
        exact hbal q2
    · rw [hstep, if_neg hskip]
      simp only
      by_cases hne : q2 = qid
      · rw [hne]
        have hup := voteTotal_nonneg (recorded s user qid vt id) qid "up" hrw
        rw [autoSkip_iff] at hskip
        omega
      · rw [voteTotal_recorded_other s user qid vt id q2 _ hne,
          voteTotal_recorded_other s user qid vt id q2 _ hne]
        exact hbal q2
  · have hsame : (handleVote s user roomId req id now).1.votes = s.votes := by
      unfold handleVote
      split
      · rename_i qid vt hq hv
        split
        · rfl
        · rename_i hgood
          exfalso
          apply hvalid
          refine ⟨qid, vt, ?_, ?_, ?_⟩
          · cases req
            simp_all
          · intro h
            simp [h] at hgood
          · by_contra h
            simp only [not_or] at h
            simp [h.1, h.2] at hgood
      · rfl
    intro q2
    rw [hsame]
    exact hbal q2

theorem reachable_balance (s : Store) (h : Reachable s) :
    (∀ v ∈ s.votes, 0 ≤ v.weight) ∧
    ∀ qid, voteTotal s.votes qid "down" ≤ voteTotal s.votes qid "up" := by
  induction h with
  | init =>
    refine ⟨fun v hv => ?_, fun qid => le_refl _⟩
    simp [Store.empty] at hv
  | next s user now req _ _ ih =>
    by_cases hreq : ∃ roomId r id, req = .vote roomId r id
    · obtain ⟨roomId, r, id, rfl⟩ := hreq
      exact handleVote_keeps_balance s user roomId r id now ih.1 ih.2
    · rw [step_votes_of_not_vote s user now req
        (fun roomId r id h => hreq ⟨roomId, r, id, h⟩)]
      exact ih

/-- C28: in every store reachable from the empty database through requests to the engine,
every queue item with `played_at` NULL has a weighted down-total at most its weighted
up-total, so its score is not negative; every row of every live queue has a score that is
not negative. -/
theorem C28_live_scores_nonnegative (s : Store) (h : Reachable s) :
    (∀ q ∈ s.queue_items, q.played_at = none →
      voteTotal s.votes q.id "down" ≤ voteTotal s.votes q.id "up" ∧
      0 ≤ voteScore s.votes q.id) ∧
    (∀ roomId, ∀ r ∈ orderedQueue s roomId, 0 ≤ r.vote_score) := by
  have hbal := (reachable_balance s h).2
  refine ⟨fun q _ _ => ⟨hbal q.id, ?_⟩, ?_⟩
  · have := hbal q.id
    unfold voteScore
    omega
  · intro roomId r hr
    have hmem := (orderedQueue_perm s roomId).mem_iff.mp hr
    rw [queueRows_score s roomId r hmem]
    have := hbal r.item.id
    unfold voteScore
    omega

/-- C28 witness: the reachable store `store6`, where `q1` has score 0 and `q2` score 1. -/
theorem C28_live_scores_nonnegative_witness :
    Reachable store6 ∧ ∀ roomId, ∀ r ∈ orderedQueue store6 roomId, 0 ≤ r.vote_score :=
  have h : Reachable store6 :=
    Reachable.next store5 carol 9000
      (.vote "r1" { queueItemId := some "q2", voteType := some "up" } "v1")
      store5_reachable (show ∀ v ∈ store5.votes, v.id ≠ "v1" by decide)
  ⟨h, (C28_live_scores_nonnegative store6 h).2⟩

/-! ## C29: tiers outside the table -/

/-- C29 (the code at the failing input): the tier `pro` is not a key of `TIER_LIMITS` and
gets the free limits: pat's sixth request of the day is refused with the limit 5, his
joining the room of 8 members is refused with the capacity 8, and his vote weighs 1.  The
tier `constructor` is not a key either, but `TIER_LIMITS['constructor']` is the inherited
`Object` function, which is truthy, so the free entry is not substituted: mallory's
joining the room of 8 members is accepted, making her the ninth member, and her sixth
request of the same day passes the daily-limit test: with the valid track
`fullBody "B" "Y"` it is accepted and queued, and with a body of title and artist only it
gets as far as the failing `bind` instead of the daily-limit error.  Only her vote weight
is 1. -/
theorem C29_inherited_tier_not_free :
    tierLimits "pro" = tierLimits "free" ∧
    handleAddToQueue store15 pat "r1" (fullBody "B" "Y") "q9" 50000
      = (store15, .error (.dailyLimitReached 5)) ∧
    handleJoinRoom store15 pat (some "ABC234") 50000 = (store15, .error (.roomFull 8)) ∧
    voteWeight (tierLimits pat.tier) = 1 ∧
    tierLimits "constructor" = none ∧
    memberCount store15 "r1" = 8 ∧
    (handleJoinRoom store15 mallory (some "ABC234") 50000).2 = .ok room1 ∧
    memberCount (handleJoinRoom store15 mallory (some "ABC234") 50000).1 "r1" = 9 ∧
    requestsToday store15.usage_tracking mallory.id (isoDate 50000) = 5 ∧
    (handleAddToQueue store15 mallory "r1" (fullBody "B" "Y") "q9" 50000).2 =
      .ok { id := "q9", room_id := "r1", added_by := "u11", title := "B",
            artist := "Y", played_at := none, created_at := 50 } ∧
    (handleAddToQueue store15 mallory "r1" (fullBody "B" "Y") "q9"
      50000).1.queue_items.length = store15.queue_items.length + 1 ∧
    handleAddToQueue store15 mallory "r1" { title := some "B", artist := some "Y" } "q9"
      50000 = (store15, .error .internalServerError) ∧
    voteWeight (tierLimits mallory.tier) = 1 := by
  decide

/-! ## C30: the item removed by a veto is the now-playing item -/

/-- The head of the now-playing query is a played item of the room that no other played
item of the room beats on `played_at`. -/
theorem nowPlaying_spec (s : Store) (roomId : String) (x : QueueItem)
    (hx : x ∈ s.queue_items) (hroom : x.room_id = roomId) (hplayed : x.played_at ≠ none) :
    ∃ p, nowPlaying s roomId = some p ∧ p ∈ s.queue_items ∧ p.room_id = roomId ∧
      p.played_at ≠ none ∧ x.played_at.getD 0 ≤ p.played_at.getD 0 := by
  have htotal : IsTotal QueueItem (fun a b => a.played_at.getD 0 ≥ b.played_at.getD 0) :=
    ⟨fun a b => by
      show b.played_at.getD 0 ≤ a.played_at.getD 0 ∨ a.played_at.getD 0 ≤ b.played_at.getD 0
      omega⟩
  have htrans : IsTrans QueueItem (fun a b => a.played_at.getD 0 ≥ b.played_at.getD 0) :=
    ⟨fun a b c hab hbc => by
      show c.played_at.getD 0 ≤ a.played_at.getD 0
      have h1 : b.played_at.getD 0 ≤ a.played_at.getD 0 := hab
      have h2 : c.played_at.getD 0 ≤ b.played_at.getD 0 := hbc
      omega⟩
  have hperm := List.perm_insertionSort (fun a b : QueueItem =>
      a.played_at.getD 0 ≥ b.played_at.getD 0)
    (s.queue_items.filter (fun q => q.room_id == roomId && q.played_at.isSome))
  have hsorted := List.sorted_insertionSort (fun a b : QueueItem =>
      a.played_at.getD 0 ≥ b.played_at.getD 0)
    (s.queue_items.filter (fun q => q.room_id == roomId && q.played_at.isSome))
  have hxin : x ∈ s.queue_items.filter (fun q => q.room_id == roomId && q.played_at.isSome) := by
    rw [List.mem_filter]
    refine ⟨hx, ?_⟩
    simp [hroom, Option.isSome_iff_ne_none, hplayed]
  unfold nowPlaying
  cases hsort : (s.queue_items.filter
      (fun q => q.room_id == roomId && q.played_at.isSome)).insertionSort
      (fun a b => a.played_at.getD 0 ≥ b.played_at.getD 0) with
  | nil =>
    have := hperm.mem_iff.mpr hxin
    rw [hsort] at this
    simp at this
  | cons p rest =>
    rw [hsort] at hperm hsorted
    have hp := hperm.mem_iff.mp (List.mem_cons_self p rest)
    rw [List.mem_filter] at hp
    simp only [Bool.and_eq_true, beq_iff_eq, Option.isSome_iff_ne_none] at hp
    refine ⟨p, rfl, hp.1, hp.2.1, hp.2.2, ?_⟩
    rcases List.mem_cons.mp (hperm.mem_iff.mpr hxin) with h | h
    · rw [h]
    · exact (List.pairwise_cons.mp hsorted).1 x h

/-- C30: let X be a queued item of a room (its id is the key of its row), and let a
well-formed vote on X at time `now` answer `skipped: true`, with `now` later than every
`played_at` recorded for an item of the room.  Then in the store after the vote the
now-playing query of the room returns X, stamped played at `now`, and the snapshot of the
room reports it as `nowPlaying`; X was not the now-playing item before the vote. -/
theorem C30_vetoed_item_now_playing (s : Store) (user viewer : User)
    (roomIdV roomId vt id : String) (now : Nat) (X : QueueItem) (room : Room)
    (hX : X ∈ s.queue_items) (hqueued : X.played_at = none) (hid : X.id ≠ "")
    (hkey : ∀ q ∈ s.queue_items, q.id = X.id → q = X)
    (hvt : vt = "up" ∨ vt = "down")
    (hskipped : ∃ resp, (handleVote s user roomIdV
      { queueItemId := some X.id, voteType := some vt } id now).2 = .ok resp ∧
      resp.skipped = true)
    (hlater : ∀ q ∈ s.queue_items, q.room_id = X.room_id →
      ∀ t, q.played_at = some t → t < now)
    (hroom : s.rooms.find? (fun r => r.id == roomId || r.code == toUpperCase roomId)
      = some room)
    (hroomX : room.id = X.room_id) :
    nowPlaying (handleVote s user roomIdV
      { queueItemId := some X.id, voteType := some vt } id now).1 X.room_id
      = some { X with played_at := some now } ∧
    (∃ snap, handleGetRoom (handleVote s user roomIdV
        { queueItemId := some X.id, voteType := some vt } id now).1 viewer roomId = .ok snap ∧
      snap.room = room ∧ snap.nowPlaying = some { X with played_at := some now }) ∧
    (∀ p, nowPlaying s X.room_id = some p → p.id ≠ X.id) := by
  obtain ⟨resp, hresp, hsk⟩ := hskipped
  have hstep := handleVote_valid s user roomIdV X.id vt id now hid hvt
  have hauto : autoSkip (voteTotal (recorded s user X.id vt id) X.id "up")
      (voteTotal (recorded s user X.id vt id) X.id "down") = true := by
    by_contra h
    rw [hstep, if_neg h] at hresp
    simp only [Response.ok.injEq] at hresp
    rw [← hresp] at hsk
    simp at hsk
  rw [if_pos hauto] at hstep
  rw [hstep]
  simp only
  have hmemX : ({ X with played_at := some now } : QueueItem) ∈
      markPlayed s.queue_items X.id now := by
    simp only [markPlayed, List.mem_map]
    exact ⟨X, hX, by simp⟩
  have hothers : ∀ y ∈ markPlayed s.queue_items X.id now, y.room_id = X.room_id →
      y.played_at ≠ none → y = { X with played_at := some now } ∨ y.played_at.getD 0 < now := by
    intro y hy hyroom hyplayed
    simp only [markPlayed, List.mem_map] at hy
    obtain ⟨q, hq, rfl⟩ := hy
    by_cases hqid : q.id = X.id
    · left
      rw [hkey q hq hqid]
      simp
    · right
      have hb : (q.id == X.id) = false := by simpa using hqid
      simp only [hb, Bool.false_eq_true, if_false] at hyroom hyplayed ⊢
      obtain ⟨t, ht⟩ := Option.ne_none_iff_exists'.mp hyplayed
      rw [ht]
      exact hlater q hq hyroom t ht
  have hnow : nowPlaying
      { s with
        queue_items := markPlayed s.queue_items X.id now
        votes := clearVotes (recorded s user X.id vt id) X.id } X.room_id
      = some { X with played_at := some now } := by
    obtain ⟨p, hp, hpmem, hproom, hpplayed, hple⟩ := nowPlaying_spec
      { s with
        queue_items := markPlayed s.queue_items X.id now
        votes := clearVotes (recorded s user X.id vt id) X.id } X.room_id
      { X with played_at := some now } hmemX rfl (by simp)
    rw [hp]
    rcases hothers p hpmem hproom hpplayed with h | h
    · rw [h]
    · simp only [Option.getD_some] at hple
      omega
  refine ⟨hnow, ?_, ?_⟩
  · unfold handleGetRoom
    simp only [hroom, hroomX, hnow]
    exact ⟨_, rfl, rfl, rfl⟩
  · intro p hp hpid
    have hpin : p ∈ s.queue_items.filter
        (fun q => q.room_id == X.room_id && q.played_at.isSome) := by
      unfold nowPlaying at hp
      have hmem := List.mem_of_mem_head? hp
      exact (List.perm_insertionSort _ _).mem_iff.mp hmem
    rw [List.mem_filter] at hpin
    have := hkey p hpin.1 hpid
    rw [this, hqueued] at hpin
    simp at hpin

/-- C30 witness: in `store16` the track `q1` of room `r1` was played at 15000 and `q3` is
queued; carol votes `q3` down at 50000, which auto-removes it, and the snapshot of the
room then reports `q3` as now playing. -/
theorem C30_vetoed_item_now_playing_witness :
    (nowPlaying store16 "r1" = some { track1 with played_at := some 15000 } ∧
      ∃ resp, (handleVote store16 carol "r1"
        { queueItemId := some "q3", voteType := some "down" } "v1" 50000).2 = .ok resp ∧
        resp.skipped = true) ∧
    nowPlaying (handleVote store16 carol "r1"
      { queueItemId := some "q3", voteType := some "down" } "v1" 50000).1 "r1"
      = some { id := "q3", room_id := "r1", added_by := "u2", title := "C", artist := "Z",
               played_at := some 50000, created_at := 12 } :=
  ⟨⟨by decide, ⟨_, rfl, by decide⟩⟩,
    (C30_vetoed_item_now_playing store16 carol alice "r1" "r1" "down" "v1" 50000
      { id := "q3", room_id := "r1", added_by := "u2", title := "C", artist := "Z",
        played_at := none, created_at := 12 } room1
      (by decide) (by decide) (by decide) (by decide) (by decide) ⟨_, rfl, by decide⟩
      (by decide) (by decide) (by decide)).1⟩

end GroupGroove
